import Mathlib

/-!
Verification of the peer-group reconciler (`worker/peergrouper/desired.go`).

The Go code computes, from a snapshot of known controller machines, current
replica-set members and member statuses, the desired replica-set membership
and voting configuration.  This file is a shallow embedding of that code:

* Go maps keyed by strings become association lists (`List (String × α)`)
  with `alookup` (read) and `aset` (write, replace-or-append); maps built by
  the code always have duplicate-free keys, which `aset` preserves.
* Go pointers (`*replicaset.Member`) become values; `nil` becomes `Option`.
  The aliasing concern that `initNewReplicaSet` works around in Go is moot
  in a pure model.
* Go `int` becomes `Int`; the Go `%` operator truncates toward zero, which
  is `Int.tmod`.
* The `machineTracker` collaborator lives in a file of the repository that
  is not part of the sources under verification, so it is modelled from the
  spec as an abstract record of the two capabilities `desired.go` consumes.

Each claim theorem is stated over these definitions and proved below.
-/

namespace Peergrouper

/-! ### Association lists modelling Go maps -/

/-- Read a Go map: first binding wins (the maps built here never hold
duplicate keys, so this matches Go map lookup; a missing key is `none`,
modelling Go's zero value / `nil`). -/
def alookup {α : Type} : List (String × α) → String → Option α
  | [], _ => none
  | (k, v) :: rest, key => if k == key then some v else alookup rest key

/-- Write a Go map entry: replace the existing binding in place, else append. -/
def aset {α : Type} : List (String × α) → String → α → List (String × α)
  | [], key, v => [(key, v)]
  | (k, w) :: rest, key, v =>
    if k == key then (key, v) :: rest else (k, w) :: aset rest key v

/-- The key list of an association list. -/
def keysOf {α : Type} (l : List (String × α)) : List String := l.map Prod.fst

/-! ### Lexicographic string order (Go `sort.Strings`)

`String.lt`'s `Decidable` instance does not reduce in the kernel, so the
byte-wise order used by Go's `sort.Strings` is modelled by comparing the
character sequences (UTF-8 byte order and code-point order agree). -/

def lexLt : List Char → List Char → Bool
  | _, [] => false
  | [], _ :: _ => true
  | c :: cs, d :: ds =>
    if c.toNat < d.toNat then true
    else if d.toNat < c.toNat then false
    else lexLt cs ds

def strLt (a b : String) : Bool := lexLt a.data b.data

/-- One step of insertion sort with respect to `strLt`. -/
def insertSorted (s : String) : List String → List String
  | [] => [s]
  | x :: rest => if strLt x s then x :: insertSorted s rest else s :: x :: rest

/-- Ascending sort of machine ids, modelling `sort.Strings`. -/
def sortStrings (l : List String) : List String := l.foldr insertSorted []

/-! ### Data model (`replicaset` package and `desired.go`) -/

/-- `jujuMachineKey` from `desired.go`: the member tag holding the machine id. -/
def jujuMachineKey : String := "juju-machine-id"

/-- `replicaset.MemberState`.  The Go constants start at `StartupState = 0`,
so the zero value obtained when a status is missing is `StartupState`. -/
inductive MemberState where
  | StartupState
  | PrimaryState
  | SecondaryState
  | RecoveringState
  | FatalState
  | Startup2State
  | UnknownState
  | ArbiterState
  | DownState
  | RollbackState
  | ShunnedState
deriving DecidableEq, Repr

/-- `replicaset.Member`.  `Votes` is Go's `*int` (nil = default voting);
`Priority` is Go's `*float64`, of which the code only ever stores `nil` or
`0.0`, so an optional integer is an exact model of the reachable values. -/
structure Member where
  Id : Int
  Address : String
  Tags : List (String × String)
  Votes : Option Int
  Priority : Option Int
deriving DecidableEq, Repr

/-- `replicaset.MemberStatus` (the fields `desired.go` consumes). -/
structure MemberStatus where
  Id : Int
  State : MemberState
  Healthy : Bool
deriving DecidableEq, Repr

/-- Modelled from the spec: the `machineTracker` collaborator (its source
file is outside the verified sources).  `wantsVote` is the result of
`WantsVote()`; `mongoAddress` is the result of
`SelectMongoAddress(mongoPort, haSpace)` — either the selected
`host:port` string or the selection error. -/
structure machineTracker where
  wantsVote : Bool
  mongoAddress : Except String String
deriving Repr

/-- `peerGroupInfo` from `desired.go`. -/
structure peerGroupInfo where
  machines : List (String × machineTracker)
  recognised : List (String × Member)
  statuses : List (String × MemberStatus)
  extra : List Member
  maxMemberId : Int
  mongoPort : Int
  haSpace : String
deriving Repr

/-- `peerGroupChanges` from `desired.go`. -/
structure peerGroupChanges where
  isChanged : Bool
  toRemoveVote : List String
  toAddVote : List String
  toKeepVoting : List String
  toKeepNonVoting : List String
  toKeepCreateNonVotingMember : List String
  machineVoting : List (String × Bool)
  addrs : List (String × String)
  members : List (String × Member)
deriving Repr

/-- The errors `desiredPeerGroup` can return: the voting-extra-member error
from `checkExtraMembers` (returned with nil member and voting maps), or an
address-selection error propagated from `getMongoAddresses`. -/
inductive PGError where
  | extraVotingMember (m : Member)
  | noUsableAddress (id : String) (msg : String)
deriving DecidableEq, Repr

/-! ### Snapshot assembler (`newPeerGroupInfo`) -/

/-- The body of the inner status loop of `newPeerGroupInfo`: record a status
whose member id matches the member being processed under the machine id
carried by that member's tag. -/
def recordStatus (m : Member) (id : String) (info : peerGroupInfo)
    (sts : MemberStatus) : peerGroupInfo :=
  if sts.Id == m.Id then { info with statuses := aset info.statuses id sts }
  else info

/-- The body of the member loop of `newPeerGroupInfo`: associate the member
with a machine via its `juju-machine-id` tag if possible, link statuses by
member id under the tagged machine id, append unassociated members to
`extra`, and track the maximum member id. -/
def processMember (machines : List (String × machineTracker))
    (statuses : List MemberStatus) (info : peerGroupInfo) (m : Member) :
    peerGroupInfo :=
  let found : Bool :=
    match alookup m.Tags jujuMachineKey with
    | some id => (alookup machines id).isSome
    | none => false
  let info :=
    match alookup m.Tags jujuMachineKey with
    | some id =>
      let info :=
        if (alookup machines id).isSome then
          { info with recognised := aset info.recognised id m }
        else info
      statuses.foldl (recordStatus m id) info
    | none => info
  let info := if found then info else { info with extra := info.extra ++ [m] }
  if m.Id > info.maxMemberId then { info with maxMemberId := m.Id } else info

/-- The empty snapshot `newPeerGroupInfo` starts from (`maxMemberId = -1`). -/
def pgInit (machines : List (String × machineTracker)) (mongoPort : Int)
    (haSpace : String) : peerGroupInfo :=
  { machines := machines, recognised := [], statuses := [], extra := [],
    maxMemberId := -1, mongoPort := mongoPort, haSpace := haSpace }

/-- `newPeerGroupInfo`: fails (returns `none`, modelling the Go error
"current member set is empty") when the member list is empty, otherwise
assembles the snapshot starting from `maxMemberId = -1`. -/
def newPeerGroupInfo (machines : List (String × machineTracker))
    (statuses : List MemberStatus) (members : List Member)
    (mongoPort : Int) (haSpace : String) : Option peerGroupInfo :=
  if members.length == 0 then none
  else
    some (members.foldl (processMember machines statuses)
      (pgInit machines mongoPort haSpace))

/-! ### Helpers of `desired.go` -/

/-- `isVotingMember`: votes pointer nil, or pointee positive. -/
def isVotingMember (m : Member) : Bool :=
  match m.Votes with
  | none => true
  | some v => v > 0

/-- `isPrimaryMember`: the status recorded for the machine id reports
`PrimaryState`.  A missing entry yields Go's zero value, whose state is
`StartupState`, hence `false`. -/
def isPrimaryMember (info : peerGroupInfo) (id : String) : Bool :=
  match alookup info.statuses id with
  | some sts => sts.State == MemberState.PrimaryState
  | none => false

/-- `isReady`: healthy and in `PrimaryState` or `SecondaryState`. -/
def isReady (status : MemberStatus) : Bool :=
  status.Healthy &&
    (status.State == MemberState.PrimaryState ||
      status.State == MemberState.SecondaryState)

/-- `initNewReplicaSet` copies the recognised members into the mutable
proposal map (the Go loop exists only to avoid aliasing the loop variable;
with unique keys the copy is the identity on the association list). -/
def initNewReplicaSet (info : peerGroupInfo) : List (String × Member) :=
  info.recognised

/-- The loop of `checkExtraMembers`: the first voting extra member, if any. -/
def firstVotingExtra : List Member → Option Member
  | [] => none
  | m :: rest => if isVotingMember m then some m else firstVotingExtra rest

/-- `checkExtraMembers`: error on any voting unassociated member; flag a
change when any extra members are present at all. -/
def checkExtraMembers (p : peerGroupChanges) (extra : List Member) :
    Except PGError peerGroupChanges :=
  match firstVotingExtra extra with
  | some m => .error (.extraVotingMember m)
  | none => .ok (if extra.length > 0 then { p with isChanged := true } else p)

/-- The loop of `getMongoAddresses`: store each machine's selected address,
aborting on the first selection error. -/
def getMongoAddressesLoop :
    List (String × machineTracker) → List (String × String) →
    Except PGError (List (String × String))
  | [], addrs => .ok addrs
  | (id, m) :: rest, addrs =>
    match m.mongoAddress with
    | .error e => .error (.noUsableAddress id e)
    | .ok a => getMongoAddressesLoop rest (aset addrs id a)

/-- `getMongoAddresses`: record an address for every tracked machine. -/
def getMongoAddresses (p : peerGroupChanges) (info : peerGroupInfo) :
    Except PGError peerGroupChanges :=
  match getMongoAddressesLoop info.machines [] with
  | .error e => .error e
  | .ok addrs => .ok { p with addrs := addrs }

/-! ### Classifier (`possiblePeerGroupChanges`) -/

/-- The body of the classification loop for one machine id.  The `none`
branch of the machine lookup is unreachable: the ids iterated are exactly
the keys of the machines map. -/
def classifyStep (info : peerGroupInfo) (p : peerGroupChanges) (id : String) :
    peerGroupChanges :=
  match alookup info.machines id with
  | none => p
  | some m =>
    let member := alookup p.members id
    let isVoting : Bool :=
      match member with
      | some mem => isVotingMember mem
      | none => false
    if m.wantsVote && isVoting then
      { p with toKeepVoting := p.toKeepVoting ++ [id] }
    else if m.wantsVote && !isVoting then
      match alookup info.statuses id with
      | some status =>
        if isReady status then { p with toAddVote := p.toAddVote ++ [id] }
        else if member.isSome then
          { p with toKeepNonVoting := p.toKeepNonVoting ++ [id] }
        else
          { p with toKeepCreateNonVotingMember :=
              p.toKeepCreateNonVotingMember ++ [id] }
      | none =>
        if member.isSome then
          { p with toKeepNonVoting := p.toKeepNonVoting ++ [id] }
        else
          { p with toKeepCreateNonVotingMember :=
              p.toKeepCreateNonVotingMember ++ [id] }
    else if !m.wantsVote && isVoting then
      { p with toRemoveVote := p.toRemoveVote ++ [id] }
    else
      { p with toKeepNonVoting := p.toKeepNonVoting ++ [id] }

/-- `possiblePeerGroupChanges`: classify every known machine, in sorted
machine-id order. -/
def possiblePeerGroupChanges (info : peerGroupInfo) (p : peerGroupChanges) :
    peerGroupChanges :=
  (sortStrings (keysOf info.machines)).foldl (classifyStep info) p

/-! ### Quorum adjuster (`reviewPeerGroupChanges`) -/

/-- The voting members of the current proposal map (`currVoters`). -/
def currentVoterCount (members : List (String × Member)) : Nat :=
  (members.filter (fun kv => isVotingMember kv.2)).length

/-- The search-and-delete loop of the final branch of
`reviewPeerGroupChanges`: the first id that is not the primary, together
with the list with that id deleted. -/
def removeFirstNonPrimary (info : peerGroupInfo) :
    List String → Option (String × List String)
  | [] => none
  | id :: rest =>
    if !isPrimaryMember info id then some (id, rest)
    else
      match removeFirstNonPrimary info rest with
      | some p => some (p.1, id :: p.2)
      | none => none

/-- `reviewPeerGroupChanges`: restore an odd voter count, preferring to
delay a promotion, and protect the primary when demoting.  Go's `%` on
`int` truncates toward zero (`Int.tmod`). -/
def reviewPeerGroupChanges (info : peerGroupInfo) (p : peerGroupChanges) :
    peerGroupChanges :=
  let currVoters : Int := currentVoterCount p.members
  let keptVoters : Int := currVoters - p.toRemoveVote.length
  if (keptVoters + p.toAddVote.length).tmod 2 == 1 then p
  else if p.toAddVote.length > 0 then
    { p with toAddVote := p.toAddVote.dropLast }
  else if keptVoters == 0 then
    { p with toRemoveVote :=
        p.toRemoveVote.filter (fun id => !isPrimaryMember info id) }
  else
    match removeFirstNonPrimary info p.toKeepVoting with
    | some q => { p with toRemoveVote := p.toRemoveVote ++ [q.1], toKeepVoting := q.2 }
    | none => p

/-! ### Member synthesiser and vote adjustment -/

/-- `setMemberVoting`: voting members revert to nil votes and priority;
non-voting members get explicit zero votes and priority. -/
def setMemberVoting (member : Member) (voting : Bool) : Member :=
  if voting then { member with Votes := none, Priority := none }
  else { member with Votes := some 0, Priority := some 0 }

/-- One creation step of `createNonVotingMember`: bump the max id and insert
a fresh non-voting member tagged with the machine id. -/
def createStep (acc : peerGroupChanges × Int) (id : String) :
    peerGroupChanges × Int :=
  let maxId := acc.2 + 1
  let member : Member :=
    setMemberVoting
      { Id := maxId, Address := "", Tags := [(jujuMachineKey, id)],
        Votes := none, Priority := none } false
  ({ acc.1 with members := aset acc.1.members id member }, maxId)

/-- `createNonVotingMember`: synthesise members for every id in
`toKeepCreateNonVotingMember`, then for every id in `toKeepNonVoting` that
has no member yet.  Returns the updated state and the final max member id
(Go passes `maxId` by pointer). -/
def createNonVotingMember (p : peerGroupChanges) (maxId : Int) :
    peerGroupChanges × Int :=
  let acc := p.toKeepCreateNonVotingMember.foldl createStep (p, maxId)
  p.toKeepNonVoting.foldl
    (fun acc id => if (alookup acc.1.members id).isSome then acc else createStep acc id)
    acc

/-- `getMachinesVoting`: record each proposed member's voting status. -/
def getMachinesVoting (p : peerGroupChanges) : peerGroupChanges :=
  p.members.foldl
    (fun q kv =>
      { q with machineVoting := aset q.machineVoting kv.1 (isVotingMember kv.2) })
    p

/-- One step of `adjustVotes`'s `setVoting` closure.  In Go a missing member
is a nil pointer and `setMemberVoting` would dereference it; that branch is
unreachable in the pipeline (theorem for C10). -/
def setVotingStep (voting : Bool) (p : peerGroupChanges) (id : String) :
    peerGroupChanges :=
  match alookup p.members id with
  | some m =>
    { p with members := aset p.members id (setMemberVoting m voting),
             machineVoting := aset p.machineVoting id voting }
  | none => p

/-- `setVoting`: apply `setMemberVoting` across a list of machine ids. -/
def setVoting (p : peerGroupChanges) (memberIds : List String) (voting : Bool) :
    peerGroupChanges :=
  memberIds.foldl (setVotingStep voting) p

/-- `adjustVotes`: flag a change when any votes move or members are to be
created for the `toKeepCreateNonVotingMember` bucket, then apply the vote
changes. -/
def adjustVotes (p : peerGroupChanges) : peerGroupChanges :=
  let p :=
    if p.toAddVote.length > 0 || p.toRemoveVote.length > 0 ||
        p.toKeepCreateNonVotingMember.length > 0 then
      { p with isChanged := true }
    else p
  let p := setVoting p p.toAddVote true
  let p := setVoting p p.toRemoveVote false
  setVoting p p.toKeepCreateNonVotingMember false

/-! ### Diff emitter (`updateAddresses`) -/

/-- One step of `updateAddresses`: skip empty selector output and missing
members, otherwise overwrite a differing address and flag the change. -/
def updateAddressStep (p : peerGroupChanges) (kv : String × String) :
    peerGroupChanges :=
  if kv.2 == "" then p
  else
    match alookup p.members kv.1 with
    | none => p
    | some m =>
      if kv.2 != m.Address then
        { p with members := aset p.members kv.1 { m with Address := kv.2 },
                 isChanged := true }
      else p

/-- `updateAddresses`: bring every proposed member's address up to date. -/
def updateAddresses (p : peerGroupChanges) : peerGroupChanges :=
  p.addrs.foldl updateAddressStep p

/-! ### `desiredPeerGroup` -/

/-- The zero `peerGroupChanges` that `desiredPeerGroup` starts from. -/
def emptyChanges : peerGroupChanges :=
  { isChanged := false, toRemoveVote := [], toAddVote := [], toKeepVoting := [],
    toKeepNonVoting := [], toKeepCreateNonVotingMember := [],
    machineVoting := [], addrs := [], members := [] }

/-- The pure core of `desiredPeerGroup` after the two fallible stages:
classification, review, synthesis, vote bookkeeping, vote adjustment and
address update, also yielding the final max member id. -/
def coreChanges (info : peerGroupInfo) (p : peerGroupChanges) :
    peerGroupChanges × Int :=
  let p3 := { p with members := initNewReplicaSet info }
  let p4 := possiblePeerGroupChanges info p3
  let p5 := reviewPeerGroupChanges info p4
  let c6 := createNonVotingMember p5 info.maxMemberId
  let p7 := getMachinesVoting c6.1
  let p8 := adjustVotes p7
  (updateAddresses p8, c6.2)

/-- `desiredPeerGroup`: returns the proposed members map (or `none` for "no
change") and the machine voting map, or an error. -/
def desiredPeerGroup (info : peerGroupInfo) :
    Except PGError (Option (List (String × Member)) × List (String × Bool)) :=
  match checkExtraMembers emptyChanges info.extra with
  | .error e => .error e
  | .ok p1 =>
    match getMongoAddresses p1 info with
    | .error e => .error e
    | .ok p2 =>
      let p9 := (coreChanges info p2).1
      if p9.isChanged then .ok (some p9.members, p9.machineVoting)
      else .ok (none, p9.machineVoting)

/-! ### Statement-side abbreviations

These name the pipeline stages and observations that the claims speak
about; they are definitional repackagings of the functions above. -/

/-- The classifier's output on a snapshot (buckets only; the surrounding
pipeline state differs from this one only in `isChanged` and `addrs`, which
the classifier neither reads nor writes — proved below). -/
def classifiedChanges (info : peerGroupInfo) : peerGroupChanges :=
  possiblePeerGroupChanges info { emptyChanges with members := initNewReplicaSet info }

/-- The quorum adjuster's output on a snapshot. -/
def reviewedChanges (info : peerGroupInfo) : peerGroupChanges :=
  reviewPeerGroupChanges info (classifiedChanges info)

/-- The state after member synthesis, together with the final max id. -/
def createdChanges (info : peerGroupInfo) : peerGroupChanges × Int :=
  createNonVotingMember (reviewedChanges info) info.maxMemberId

/-- The state on which `adjustVotes` runs. -/
def preAdjustChanges (info : peerGroupInfo) : peerGroupChanges :=
  getMachinesVoting (createdChanges info).1

/-- `WantsVote()` of the machine registered under an id. -/
def machineWantsVote (info : peerGroupInfo) (id : String) : Bool :=
  match alookup info.machines id with
  | some m => m.wantsVote
  | none => false

/-- A recognised member exists for the id and has nil or positive votes. -/
def recognisedVoting (info : peerGroupInfo) (id : String) : Bool :=
  match alookup (initNewReplicaSet info) id with
  | some m => isVotingMember m
  | none => false

/-- A recognised member exists for the id. -/
def hasRecognisedMember (info : peerGroupInfo) (id : String) : Bool :=
  (alookup (initNewReplicaSet info) id).isSome

/-- A status exists for the id and is healthy in primary or secondary state. -/
def statusReady (info : peerGroupInfo) (id : String) : Bool :=
  match alookup info.statuses id with
  | some sts => isReady sts
  | none => false

/-- The number of ids mapped to `true` in a voting map. -/
def countTrue (voting : List (String × Bool)) : Nat :=
  (voting.filter (fun kv => kv.2)).length

/-- The voting status of the member registered under an id in a members map
(`false` when no member is registered). -/
def lookupVoting (members : List (String × Member)) (id : String) : Bool :=
  match alookup members id with
  | some m => isVotingMember m
  | none => false

/-- The `juju-machine-id` tag carried by a member, if any. -/
def tagOf (m : Member) : Option String := alookup m.Tags jujuMachineKey

/-- The machine id a member would be recognised under: its machine-id tag,
provided that tag names a known machine. -/
def knownTagOf (machines : List (String × machineTracker)) (m : Member) :
    Option String :=
  match tagOf m with
  | some id => if (alookup machines id).isSome then some id else none
  | none => none

/-! The five classifier bucket predicates, phrased over the machines map,
the statuses map and the proposal members map `R` exactly as `classifyStep`
reads them. -/

def pKeepVoting (info : peerGroupInfo) (R : List (String × Member)) (id : String) : Bool :=
  match alookup info.machines id with
  | none => false
  | some m => m.wantsVote && lookupVoting R id

def pAddVote (info : peerGroupInfo) (R : List (String × Member)) (id : String) : Bool :=
  match alookup info.machines id with
  | none => false
  | some m => m.wantsVote && !lookupVoting R id && statusReady info id

def pRemoveVote (info : peerGroupInfo) (R : List (String × Member)) (id : String) : Bool :=
  match alookup info.machines id with
  | none => false
  | some m => !m.wantsVote && lookupVoting R id

def pKeepNonVoting (info : peerGroupInfo) (R : List (String × Member)) (id : String) : Bool :=
  match alookup info.machines id with
  | none => false
  | some m =>
    (m.wantsVote && !lookupVoting R id && !statusReady info id && (alookup R id).isSome) ||
      (!m.wantsVote && !lookupVoting R id)

def pKeepCreate (info : peerGroupInfo) (R : List (String × Member)) (id : String) : Bool :=
  match alookup info.machines id with
  | none => false
  | some m =>
    m.wantsVote && !lookupVoting R id && !statusReady info id && !(alookup R id).isSome

/-- The state after `adjustVotes` in the pipeline. -/
def adjustedChanges (info : peerGroupInfo) : peerGroupChanges :=
  adjustVotes (preAdjustChanges info)

/-- The member `createNonVotingMember` synthesises for a machine id at a
given member id. -/
def createdMember (i : Int) (id : String) : Member :=
  setMemberVoting
    { Id := i, Address := "", Tags := [(jujuMachineKey, id)],
      Votes := none, Priority := none } false

/-- The member entries a run of creation steps appends, starting from a
given max member id. -/
def buildNews : Int → List String → List (String × Member)
  | _, [] => []
  | x, id :: rest => (id, createdMember (x + 1) id) :: buildNews (x + 1) rest

/-- The member entries `createNonVotingMember` appends: one per id in
`toKeepCreateNonVotingMember`, then one per id in `toKeepNonVoting` that
still has no member. -/
def createdNews (p : peerGroupChanges) (x : Int) : List (String × Member) :=
  buildNews x p.toKeepCreateNonVotingMember ++
    buildNews (x + p.toKeepCreateNonVotingMember.length)
      (p.toKeepNonVoting.filter
        (fun id =>
          !(alookup (p.members ++ buildNews x p.toKeepCreateNonVotingMember) id).isSome))

/-- A member entry's contribution to the machine voting map. -/
def votingEntry (kv : String × Member) : String × Bool :=
  (kv.1, isVotingMember kv.2)

/-! Concrete snapshots used by the claim witnesses and counterexamples. -/

def wTracker (w : Bool) (a : String) : machineTracker :=
  { wantsVote := w, mongoAddress := .ok a }

def wMember (i : Int) (tag addr : String) : Member :=
  { Id := i, Address := addr, Tags := [(jujuMachineKey, tag)],
    Votes := none, Priority := none }

def wStatus (i : Int) (st : MemberState) : MemberStatus :=
  { Id := i, State := st, Healthy := true }

/-- One machine that no longer wants its vote, currently a voting secondary. -/
def cexC1machines : List (String × machineTracker) := [("0", wTracker false "a0:1")]

def cexC1statuses : List MemberStatus := [wStatus 1 .SecondaryState]

def cexC1members : List Member := [wMember 1 "0" "a0:1"]

def cexC1info : peerGroupInfo :=
  { machines := cexC1machines,
    recognised := [("0", wMember 1 "0" "a0:1")],
    statuses := [("0", wStatus 1 .SecondaryState)],
    extra := [], maxMemberId := 1, mongoPort := 1, haSpace := "" }

/-- The primary ("0") no longer wants its vote; "1" is a voting secondary. -/
def cexC2machines : List (String × machineTracker) :=
  [("0", wTracker false "a0:1"), ("1", wTracker true "a1:1")]

def cexC2statuses : List MemberStatus :=
  [wStatus 1 .PrimaryState, wStatus 2 .SecondaryState]

def cexC2members : List Member := [wMember 1 "0" "a0:1", wMember 2 "1" "a1:1"]

def cexC2info : peerGroupInfo :=
  { machines := cexC2machines,
    recognised := [("0", wMember 1 "0" "a0:1"), ("1", wMember 2 "1" "a1:1")],
    statuses := [("0", wStatus 1 .PrimaryState), ("1", wStatus 2 .SecondaryState)],
    extra := [], maxMemberId := 2, mongoPort := 1, haSpace := "" }

/-- A member with no machine-id tag that is still voting. -/
def cexC3extraMember : Member :=
  { Id := 2, Address := "e:1", Tags := [], Votes := none, Priority := none }

def cexC3machines : List (String × machineTracker) := [("0", wTracker true "a0:1")]

def cexC3members : List Member := [wMember 1 "0" "a0:1", cexC3extraMember]

def cexC3info : peerGroupInfo :=
  { machines := cexC3machines,
    recognised := [("0", wMember 1 "0" "a0:1")],
    statuses := [],
    extra := [cexC3extraMember], maxMemberId := 2, mongoPort := 1, haSpace := "" }

/-- Machine "1" does not want a vote and has no member: a non-voting member
is synthesised for it, yet no change is signalled. -/
def cexC6machines : List (String × machineTracker) :=
  [("0", wTracker true "a0:1"), ("1", wTracker false "")]

def cexC6statuses : List MemberStatus := [wStatus 1 .SecondaryState]

def cexC6members : List Member := [wMember 1 "0" "a0:1"]

def cexC6info : peerGroupInfo :=
  { machines := cexC6machines,
    recognised := [("0", wMember 1 "0" "a0:1")],
    statuses := [("0", wStatus 1 .SecondaryState)],
    extra := [], maxMemberId := 1, mongoPort := 1, haSpace := "" }

/-- Two members carrying the same machine-id tag "0". -/
def cexC8machines : List (String × machineTracker) := [("0", wTracker true "a0:1")]

def cexC8members : List Member := [wMember 1 "0" "a0:1", wMember 2 "0" "a0:1"]

def cexC8info : peerGroupInfo :=
  { machines := cexC8machines,
    recognised := [("0", wMember 2 "0" "a0:1")],
    statuses := [],
    extra := [], maxMemberId := 2, mongoPort := 1, haSpace := "" }

/-- A member tagged with unknown machine "9" whose status matches. -/
def cexC9member : Member :=
  { Id := 1, Address := "x:1", Tags := [(jujuMachineKey, "9")],
    Votes := some 0, Priority := none }

def cexC9machines : List (String × machineTracker) := [("0", wTracker true "a0:1")]

def cexC9statuses : List MemberStatus := [wStatus 1 .SecondaryState]

def cexC9members : List Member := [cexC9member]

def cexC9info : peerGroupInfo :=
  { machines := cexC9machines,
    recognised := [],
    statuses := [("9", wStatus 1 .SecondaryState)],
    extra := [cexC9member], maxMemberId := 1, mongoPort := 1, haSpace := "" }

/-- A quorum-adjuster state with no voters kept and two pending additions. -/
def wChangesC5 : peerGroupChanges := { emptyChanges with toAddVote := ["1", "2"] }

/-- Two voting secondaries that both want the vote: an even kept count with
nothing to promote, forcing the adjuster to search `toKeepVoting`. -/
def wInfoC2 : peerGroupInfo :=
  { machines := [("0", wTracker true "a0:1"), ("1", wTracker true "a1:1")],
    recognised := [("0", wMember 1 "0" "a0:1"), ("1", wMember 2 "1" "a1:1")],
    statuses := [("0", wStatus 1 .SecondaryState), ("1", wStatus 2 .SecondaryState)],
    extra := [], maxMemberId := 2, mongoPort := 1, haSpace := "" }

/-- A state asking for one synthesised member and one repair-loop member. -/
def wChangesC7 : peerGroupChanges :=
  { emptyChanges with toKeepCreateNonVotingMember := ["5"], toKeepNonVoting := ["7"] }

instance : DecidableEq (Except String String) := fun a b =>
  match a, b with
  | .error x, .error y =>
    if h : x = y then .isTrue (by rw [h]) else .isFalse (fun hc => h (by cases hc; rfl))
  | .error _, .ok _ => .isFalse (fun hc => by cases hc)
  | .ok _, .error _ => .isFalse (fun hc => by cases hc)
  | .ok x, .ok y =>
    if h : x = y then .isTrue (by rw [h]) else .isFalse (fun hc => h (by cases hc; rfl))

/-! ## Lemmas: association lists -/

theorem alookup_aset_self {α : Type} (l : List (String × α)) (k : String) (v : α) :
    alookup (aset l k v) k = some v := by
  induction l with
  | nil => simp [aset, alookup]
  | cons kv rest ih =>
    obtain ⟨k0, v0⟩ := kv
    by_cases h : k0 = k
    · simp [aset, h, alookup]
    · simp only [aset, alookup, beq_iff_eq, if_neg h]
      simp [h, ih]

theorem alookup_aset_ne {α : Type} (l : List (String × α)) (k key : String) (v : α)
    (h : k ≠ key) : alookup (aset l k v) key = alookup l key := by
  induction l with
  | nil => simp [aset, alookup, h]
  | cons kv rest ih =>
    obtain ⟨k0, v0⟩ := kv
    by_cases h0 : k0 = k
    · subst h0
      simp [aset, alookup, h]
    · simp only [aset, beq_iff_eq, if_neg h0, alookup]
      by_cases h1 : k0 = key <;> simp [h1, ih]

theorem keysOf_cons {α : Type} (k : String) (v : α) (rest : List (String × α)) :
    keysOf ((k, v) :: rest) = k :: keysOf rest := rfl

theorem keysOf_append {α : Type} (l₁ l₂ : List (String × α)) :
    keysOf (l₁ ++ l₂) = keysOf l₁ ++ keysOf l₂ := by
  simp [keysOf]

theorem keysOf_aset_of_mem {α : Type} (l : List (String × α)) (k : String) (v : α)
    (h : k ∈ keysOf l) : keysOf (aset l k v) = keysOf l := by
  induction l with
  | nil => simp [keysOf] at h
  | cons kv rest ih =>
    obtain ⟨k0, v0⟩ := kv
    by_cases h0 : k0 = k
    · simp [aset, h0, keysOf]
    · have hk : k ∈ keysOf rest := by
        rw [keysOf_cons] at h
        rcases List.mem_cons.mp h with h | h
        · exact absurd h.symm h0
        · exact h
      rw [keysOf_cons]
      simp only [aset, beq_iff_eq, if_neg h0]
      rw [keysOf_cons, ih hk]

theorem keysOf_aset_of_not_mem {α : Type} (l : List (String × α)) (k : String) (v : α)
    (h : k ∉ keysOf l) : keysOf (aset l k v) = keysOf l ++ [k] := by
  induction l with
  | nil => simp [aset, keysOf]
  | cons kv rest ih =>
    obtain ⟨k0, v0⟩ := kv
    rw [keysOf_cons] at h
    have h0 : k0 ≠ k := fun hc => h (by rw [hc]; exact List.mem_cons_self k _)
    have hr : k ∉ keysOf rest := fun hc => h (List.mem_cons_of_mem _ hc)
    simp only [aset, beq_iff_eq, if_neg h0]
    rw [keysOf_cons, keysOf_cons, ih hr, List.cons_append]

theorem nodup_keysOf_aset {α : Type} (l : List (String × α)) (k : String) (v : α)
    (h : (keysOf l).Nodup) : (keysOf (aset l k v)).Nodup := by
  by_cases hm : k ∈ keysOf l
  · rw [keysOf_aset_of_mem l k v hm]; exact h
  · rw [keysOf_aset_of_not_mem l k v hm]
    simpa using List.Nodup.append h (by simp) (by simpa using fun hc => hm hc)

theorem alookup_isSome_iff_mem {α : Type} (l : List (String × α)) (k : String) :
    (alookup l k).isSome ↔ k ∈ keysOf l := by
  induction l with
  | nil => simp [alookup, keysOf]
  | cons kv rest ih =>
    obtain ⟨k0, v0⟩ := kv
    rw [keysOf_cons]
    by_cases h0 : k0 = k
    · simp [alookup, h0]
    · simp only [alookup, beq_iff_eq, if_neg h0]
      rw [ih, List.mem_cons]
      constructor
      · exact Or.inr
      · rintro (h | h)
        · exact absurd h.symm h0
        · exact h

theorem alookup_eq_none_iff_not_mem {α : Type} (l : List (String × α)) (k : String) :
    alookup l k = none ↔ k ∉ keysOf l := by
  rw [← alookup_isSome_iff_mem]
  cases alookup l k <;> simp

theorem alookup_append {α : Type} (l₁ l₂ : List (String × α)) (k : String) :
    alookup (l₁ ++ l₂) k =
      match alookup l₁ k with
      | some v => some v
      | none => alookup l₂ k := by
  induction l₁ with
  | nil => simp [alookup]
  | cons kv rest ih =>
    obtain ⟨k0, v0⟩ := kv
    by_cases h0 : k0 = k <;> simp [alookup, h0, ih]

theorem alookup_append_left {α : Type} (l₁ l₂ : List (String × α)) (k : String) (v : α)
    (h : alookup l₁ k = some v) : alookup (l₁ ++ l₂) k = some v := by
  rw [alookup_append, h]

theorem alookup_append_right {α : Type} (l₁ l₂ : List (String × α)) (k : String)
    (h : alookup l₁ k = none) : alookup (l₁ ++ l₂) k = alookup l₂ k := by
  rw [alookup_append, h]

theorem aset_of_not_mem {α : Type} (l : List (String × α)) (k : String) (v : α)
    (h : k ∉ keysOf l) : aset l k v = l ++ [(k, v)] := by
  induction l with
  | nil => simp [aset]
  | cons kv rest ih =>
    obtain ⟨k0, v0⟩ := kv
    rw [keysOf_cons] at h
    have h0 : k0 ≠ k := fun hc => h (by rw [hc]; exact List.mem_cons_self k _)
    have hr : k ∉ keysOf rest := fun hc => h (List.mem_cons_of_mem _ hc)
    simp [aset, h0, ih hr]

theorem alookup_isSome_aset {α : Type} (l : List (String × α)) (k key : String) (v : α)
    (h : (alookup l key).isSome) : (alookup (aset l k v) key).isSome := by
  by_cases hk : k = key
  · subst hk; simp [alookup_aset_self]
  · rwa [alookup_aset_ne l k key v hk]

theorem mem_of_alookup_eq_some {α : Type} (l : List (String × α)) (k : String) (v : α)
    (h : alookup l k = some v) : (k, v) ∈ l := by
  induction l with
  | nil => simp [alookup] at h
  | cons kv rest ih =>
    obtain ⟨k0, v0⟩ := kv
    by_cases h0 : k0 = k
    · subst h0
      simp [alookup] at h
      simp [h]
    · simp only [alookup, beq_iff_eq, if_neg h0] at h
      simp [ih h]

/-! ## Lemmas: sorting -/

theorem insertSorted_perm (s : String) (l : List String) :
    (insertSorted s l).Perm (s :: l) := by
  induction l with
  | nil => simp [insertSorted]
  | cons x rest ih =>
    by_cases h : strLt x s
    · simp only [insertSorted, h, if_true]
      exact (List.Perm.cons x ih).trans (List.Perm.swap s x rest)
    · simp [insertSorted, h]

theorem sortStrings_perm (l : List String) : (sortStrings l).Perm l := by
  induction l with
  | nil => simp [sortStrings]
  | cons x rest ih =>
    have : sortStrings (x :: rest) = insertSorted x (sortStrings rest) := rfl
    rw [this]
    exact ((insertSorted_perm x (sortStrings rest)).trans (List.Perm.cons x ih))

theorem mem_sortStrings (l : List String) (x : String) :
    x ∈ sortStrings l ↔ x ∈ l :=
  (sortStrings_perm l).mem_iff

theorem nodup_sortStrings (l : List String) (h : l.Nodup) : (sortStrings l).Nodup :=
  ((sortStrings_perm l).nodup_iff).mpr h

/-! ## Lemmas: counting -/

theorem countP_or_disjoint {α : Type} (l : List α) (p q : α → Bool)
    (h : ∀ x ∈ l, ¬(p x = true ∧ q x = true)) :
    l.countP (fun x => p x || q x) = l.countP p + l.countP q := by
  induction l with
  | nil => simp
  | cons a l ih =>
    have ha := h a (List.mem_cons_self a l)
    have ih2 := ih (fun x hx => h x (List.mem_cons_of_mem a hx))
    rw [List.countP_cons, List.countP_cons, List.countP_cons, ih2]
    by_cases hp : p a = true <;> by_cases hq : q a = true <;>
      simp [hp, hq] at ha ⊢ <;> omega

/-- Over a duplicate-free list, the count of members of a duplicate-free
subset equals the subset's length. -/
theorem countP_mem_eq_length (l s : List String) (hl : l.Nodup) (hs : s.Nodup)
    (hsub : ∀ x ∈ s, x ∈ l) :
    l.countP (fun x => decide (x ∈ s)) = s.length := by
  rw [List.countP_eq_length_filter]
  have hperm : (l.filter (fun x => decide (x ∈ s))).Perm s := by
    rw [List.perm_ext_iff_of_nodup (hl.filter _) hs]
    intro a
    simp only [List.mem_filter, decide_eq_true_eq]
    exact ⟨fun h => h.2, fun h => ⟨hsub a h, h⟩⟩
  exact hperm.length_eq

/-- Counting a predicate over a duplicate-free list equals counting it over
a duplicate-free sublist outside of which the predicate is false. -/
theorem countP_restrict (l s : List String) (p : String → Bool) (hl : l.Nodup)
    (hs : s.Nodup) (hsub : ∀ x ∈ s, x ∈ l) (hout : ∀ x ∈ l, p x = true → x ∈ s) :
    l.countP p = s.countP p := by
  rw [List.countP_eq_length_filter, List.countP_eq_length_filter]
  have hperm : (l.filter p).Perm (s.filter p) := by
    rw [List.perm_ext_iff_of_nodup (hl.filter _) (hs.filter _)]
    intro a
    simp only [List.mem_filter]
    exact ⟨fun h => ⟨hout a h.1 h.2, h.2⟩, fun h => ⟨hsub a h.1, h.2⟩⟩
  exact hperm.length_eq

/-- Counting a value predicate over an association list with duplicate-free
keys equals counting the lookup predicate over its key list. -/
theorem countP_eq_countP_keys {α : Type} (l : List (String × α)) (q : α → Bool)
    (h : (keysOf l).Nodup) :
    l.countP (fun kv => q kv.2) =
      (keysOf l).countP (fun id =>
        match alookup l id with
        | some v => q v
        | none => false) := by
  induction l with
  | nil => simp [keysOf]
  | cons kv rest ih =>
    obtain ⟨k, v⟩ := kv
    rw [keysOf_cons] at h ⊢
    have hk : k ∉ keysOf rest := (List.nodup_cons.mp h).1
    have hnd : (keysOf rest).Nodup := (List.nodup_cons.mp h).2
    rw [List.countP_cons, List.countP_cons, ih hnd]
    have hcongr :
        (keysOf rest).countP (fun id =>
          match alookup rest id with
          | some v => q v
          | none => false) =
        (keysOf rest).countP (fun id =>
          match alookup ((k, v) :: rest) id with
          | some v => q v
          | none => false) := by
      apply List.countP_congr
      intro x hx
      have hxk : k ≠ x := fun hc => hk (hc ▸ hx)
      simp only [alookup, beq_iff_eq, if_neg hxk]
    rw [hcongr]
    have hself : (match alookup ((k, v) :: rest) k with
        | some v => q v
        | none => false) = q v := by
      simp [alookup]
    rw [hself]

/-! ## Classifier characterisation -/

theorem classifyStep_spec (info : peerGroupInfo) (p : peerGroupChanges) (x : String) :
    classifyStep info p x =
      { p with
        toKeepVoting := p.toKeepVoting ++ (if pKeepVoting info p.members x then [x] else []),
        toAddVote := p.toAddVote ++ (if pAddVote info p.members x then [x] else []),
        toRemoveVote := p.toRemoveVote ++ (if pRemoveVote info p.members x then [x] else []),
        toKeepNonVoting :=
          p.toKeepNonVoting ++ (if pKeepNonVoting info p.members x then [x] else []),
        toKeepCreateNonVotingMember :=
          p.toKeepCreateNonVotingMember ++
            (if pKeepCreate info p.members x then [x] else []) } := by
  unfold classifyStep pKeepVoting pAddVote pRemoveVote pKeepNonVoting pKeepCreate
    lookupVoting statusReady
  cases hmc : alookup info.machines x with
  | none => simp
  | some m =>
    cases hmem : alookup p.members x with
    | none =>
      cases hst : alookup info.statuses x with
      | none =>
        by_cases hw : m.wantsVote <;> simp [hw]
      | some s =>
        by_cases hw : m.wantsVote <;> by_cases hr : isReady s <;> simp [hw, hr]
    | some mem =>
      cases hst : alookup info.statuses x with
      | none =>
        by_cases hw : m.wantsVote <;> by_cases hv : isVotingMember mem <;>
          simp [hw, hv]
      | some s =>
        by_cases hw : m.wantsVote <;> by_cases hv : isVotingMember mem <;>
          by_cases hr : isReady s <;> simp [hw, hv, hr]

theorem classifyStep_members (info : peerGroupInfo) (p : peerGroupChanges) (x : String) :
    (classifyStep info p x).members = p.members := by
  rw [classifyStep_spec]

theorem classify_foldl (info : peerGroupInfo) (L : List String) (p : peerGroupChanges) :
    L.foldl (classifyStep info) p =
      { p with
        toKeepVoting := p.toKeepVoting ++ L.filter (pKeepVoting info p.members),
        toAddVote := p.toAddVote ++ L.filter (pAddVote info p.members),
        toRemoveVote := p.toRemoveVote ++ L.filter (pRemoveVote info p.members),
        toKeepNonVoting := p.toKeepNonVoting ++ L.filter (pKeepNonVoting info p.members),
        toKeepCreateNonVotingMember :=
          p.toKeepCreateNonVotingMember ++ L.filter (pKeepCreate info p.members) } := by
  induction L generalizing p with
  | nil => simp
  | cons x L ih =>
    rw [List.foldl_cons, ih, classifyStep_spec]
    simp only [List.filter_cons]
    by_cases h1 : pKeepVoting info p.members x <;>
      by_cases h2 : pAddVote info p.members x <;>
        by_cases h3 : pRemoveVote info p.members x <;>
          by_cases h4 : pKeepNonVoting info p.members x <;>
            by_cases h5 : pKeepCreate info p.members x <;>
              simp [h1, h2, h3, h4, h5]

/-- The classifier writes only the five buckets, appending the sorted
machine ids that satisfy each bucket's predicate. -/
theorem possiblePeerGroupChanges_spec (info : peerGroupInfo) (p : peerGroupChanges) :
    possiblePeerGroupChanges info p =
      { p with
        toKeepVoting := p.toKeepVoting ++
          (sortStrings (keysOf info.machines)).filter (pKeepVoting info p.members),
        toAddVote := p.toAddVote ++
          (sortStrings (keysOf info.machines)).filter (pAddVote info p.members),
        toRemoveVote := p.toRemoveVote ++
          (sortStrings (keysOf info.machines)).filter (pRemoveVote info p.members),
        toKeepNonVoting := p.toKeepNonVoting ++
          (sortStrings (keysOf info.machines)).filter (pKeepNonVoting info p.members),
        toKeepCreateNonVotingMember := p.toKeepCreateNonVotingMember ++
          (sortStrings (keysOf info.machines)).filter (pKeepCreate info p.members) } :=
  classify_foldl info (sortStrings (keysOf info.machines)) p

/-! ## Lemmas: snapshot assembler -/

theorem recordStatus_eq (m : Member) (id : String) (info : peerGroupInfo)
    (s : MemberStatus) :
    recordStatus m id info s =
      { info with statuses :=
          if s.Id == m.Id then aset info.statuses id s else info.statuses } := by
  unfold recordStatus
  by_cases h : s.Id == m.Id <;> simp [h]

theorem foldRS_shape (m : Member) (id : String) (sl : List MemberStatus)
    (info : peerGroupInfo) :
    ∃ st, sl.foldl (recordStatus m id) info = { info with statuses := st } := by
  induction sl generalizing info with
  | nil => exact ⟨info.statuses, rfl⟩
  | cons s sl ih =>
    rw [List.foldl_cons, recordStatus_eq]
    obtain ⟨st, h⟩ := ih { info with statuses :=
      (if s.Id == m.Id then aset info.statuses id s else info.statuses) }
    exact ⟨st, h⟩

theorem foldRS_statuses_isSome (m : Member) (id : String) (sl : List MemberStatus)
    (info : peerGroupInfo) (key : String)
    (h : (alookup (sl.foldl (recordStatus m id) info).statuses key).isSome) :
    (alookup info.statuses key).isSome ∨ key = id := by
  induction sl generalizing info with
  | nil => exact .inl h
  | cons s sl ih =>
    rw [List.foldl_cons, recordStatus_eq] at h
    rcases ih _ h with h1 | h1
    · simp only at h1
      by_cases hs : s.Id == m.Id
      · rw [if_pos hs] at h1
        by_cases hk : key = id
        · exact .inr hk
        · rw [alookup_aset_ne _ _ _ _ (fun hc => hk hc.symm)] at h1
          exact .inl h1
      · rw [if_neg hs] at h1
        exact .inl h1
    · exact .inr h1

theorem foldRS_statuses_mono (m : Member) (id : String) (sl : List MemberStatus)
    (info : peerGroupInfo) (key : String)
    (h : (alookup info.statuses key).isSome) :
    (alookup (sl.foldl (recordStatus m id) info).statuses key).isSome := by
  induction sl generalizing info with
  | nil => exact h
  | cons s sl ih =>
    rw [List.foldl_cons, recordStatus_eq]
    apply ih
    simp only
    by_cases hs : s.Id == m.Id
    · rw [if_pos hs]
      exact alookup_isSome_aset _ _ _ _ h
    · rwa [if_neg hs]

theorem processMember_machines (mc : List (String × machineTracker))
    (sl : List MemberStatus) (info : peerGroupInfo) (m : Member) :
    (processMember mc sl info m).machines = info.machines := by
  unfold processMember
  cases htag : alookup m.Tags jujuMachineKey with
  | none => by_cases hmx : m.Id > info.maxMemberId <;> simp [hmx]
  | some id =>
    by_cases hmach : (alookup mc id).isSome
    · obtain ⟨st, hst⟩ := foldRS_shape m id sl
        { info with recognised := aset info.recognised id m }
      simp only [hmach, if_true, hst]
      split <;> rfl
    · obtain ⟨st, hst⟩ := foldRS_shape m id sl info
      simp only [hmach, if_false, Bool.false_eq_true, hst]
      split <;> rfl

theorem processMember_mongoPort (mc : List (String × machineTracker))
    (sl : List MemberStatus) (info : peerGroupInfo) (m : Member) :
    (processMember mc sl info m).mongoPort = info.mongoPort := by
  unfold processMember
  cases htag : alookup m.Tags jujuMachineKey with
  | none => by_cases hmx : m.Id > info.maxMemberId <;> simp [hmx]
  | some id =>
    by_cases hmach : (alookup mc id).isSome
    · obtain ⟨st, hst⟩ := foldRS_shape m id sl
        { info with recognised := aset info.recognised id m }
      simp only [hmach, if_true, hst]
      split <;> rfl
    · obtain ⟨st, hst⟩ := foldRS_shape m id sl info
      simp only [hmach, if_false, Bool.false_eq_true, hst]
      split <;> rfl

theorem processMember_haSpace (mc : List (String × machineTracker))
    (sl : List MemberStatus) (info : peerGroupInfo) (m : Member) :
    (processMember mc sl info m).haSpace = info.haSpace := by
  unfold processMember
  cases htag : alookup m.Tags jujuMachineKey with
  | none => by_cases hmx : m.Id > info.maxMemberId <;> simp [hmx]
  | some id =>
    by_cases hmach : (alookup mc id).isSome
    · obtain ⟨st, hst⟩ := foldRS_shape m id sl
        { info with recognised := aset info.recognised id m }
      simp only [hmach, if_true, hst]
      split <;> rfl
    · obtain ⟨st, hst⟩ := foldRS_shape m id sl info
      simp only [hmach, if_false, Bool.false_eq_true, hst]
      split <;> rfl

theorem processMember_recognised (mc : List (String × machineTracker))
    (sl : List MemberStatus) (info : peerGroupInfo) (m : Member) :
    (processMember mc sl info m).recognised =
      match knownTagOf mc m with
      | some id => aset info.recognised id m
      | none => info.recognised := by
  unfold processMember knownTagOf tagOf
  cases htag : alookup m.Tags jujuMachineKey with
  | none => by_cases hmx : m.Id > info.maxMemberId <;> simp [hmx]
  | some id =>
    by_cases hmach : (alookup mc id).isSome
    · obtain ⟨st, hst⟩ := foldRS_shape m id sl
        { info with recognised := aset info.recognised id m }
      simp only [hmach, if_true, hst]
      split <;> rfl
    · obtain ⟨st, hst⟩ := foldRS_shape m id sl info
      simp only [hmach, if_false, Bool.false_eq_true, hst]
      split <;> rfl

theorem processMember_extra (mc : List (String × machineTracker))
    (sl : List MemberStatus) (info : peerGroupInfo) (m : Member) :
    (processMember mc sl info m).extra =
      match knownTagOf mc m with
      | some _ => info.extra
      | none => info.extra ++ [m] := by
  unfold processMember knownTagOf tagOf
  cases htag : alookup m.Tags jujuMachineKey with
  | none => by_cases hmx : m.Id > info.maxMemberId <;> simp [hmx]
  | some id =>
    by_cases hmach : (alookup mc id).isSome
    · obtain ⟨st, hst⟩ := foldRS_shape m id sl
        { info with recognised := aset info.recognised id m }
      simp only [hmach, if_true, hst]
      split <;> rfl
    · obtain ⟨st, hst⟩ := foldRS_shape m id sl info
      simp only [hmach, if_false, Bool.false_eq_true, hst]
      split <;> rfl

theorem processMember_maxMemberId (mc : List (String × machineTracker))
    (sl : List MemberStatus) (info : peerGroupInfo) (m : Member) :
    (processMember mc sl info m).maxMemberId =
      if m.Id > info.maxMemberId then m.Id else info.maxMemberId := by
  unfold processMember
  cases htag : alookup m.Tags jujuMachineKey with
  | none => by_cases hmx : m.Id > info.maxMemberId <;> simp [hmx]
  | some id =>
    by_cases hmach : (alookup mc id).isSome
    · obtain ⟨st, hst⟩ := foldRS_shape m id sl
        { info with recognised := aset info.recognised id m }
      simp only [hmach, if_true, hst]
      split <;> simp_all
    · obtain ⟨st, hst⟩ := foldRS_shape m id sl info
      simp only [hmach, if_false, Bool.false_eq_true, hst]
      split <;> simp_all

theorem processMember_statuses_isSome (mc : List (String × machineTracker))
    (sl : List MemberStatus) (info : peerGroupInfo) (m : Member) (key : String)
    (h : (alookup (processMember mc sl info m).statuses key).isSome) :
    (alookup info.statuses key).isSome ∨ tagOf m = some key := by
  unfold processMember at h
  revert h
  unfold tagOf
  cases htag : alookup m.Tags jujuMachineKey with
  | none =>
    intro h
    left
    by_cases hmx : m.Id > info.maxMemberId <;> simp [hmx] at h <;> exact h
  | some id =>
    by_cases hmach : (alookup mc id).isSome
    · simp only [hmach, if_true]
      intro h
      have h2 : (alookup ((sl.foldl (recordStatus m id)
          { info with recognised := aset info.recognised id m })).statuses key).isSome := by
        obtain ⟨st, hst⟩ := foldRS_shape m id sl
          { info with recognised := aset info.recognised id m }
        rw [hst]
        rw [hst] at h
        revert h
        split <;> (intro h; exact h)
      rcases foldRS_statuses_isSome m id sl _ key h2 with h3 | h3
      · exact .inl h3
      · exact .inr (by rw [h3])
    · simp only [hmach, if_false, Bool.false_eq_true]
      intro h
      have h2 : (alookup ((sl.foldl (recordStatus m id) info)).statuses key).isSome := by
        obtain ⟨st, hst⟩ := foldRS_shape m id sl info
        rw [hst]
        rw [hst] at h
        revert h
        split <;> (intro h; exact h)
      rcases foldRS_statuses_isSome m id sl _ key h2 with h3 | h3
      · exact .inl h3
      · exact .inr (by rw [h3])

theorem processMember_statuses_mono (mc : List (String × machineTracker))
    (sl : List MemberStatus) (info : peerGroupInfo) (m : Member) (key : String)
    (h : (alookup info.statuses key).isSome) :
    (alookup (processMember mc sl info m).statuses key).isSome := by
  unfold processMember
  cases htag : alookup m.Tags jujuMachineKey with
  | none => by_cases hmx : m.Id > info.maxMemberId <;> simp [hmx] <;> exact h
  | some id =>
    by_cases hmach : (alookup mc id).isSome
    · simp only [hmach, if_true]
      obtain ⟨st, hst⟩ := foldRS_shape m id sl
        { info with recognised := aset info.recognised id m }
      have h2 := foldRS_statuses_mono m id sl
        { info with recognised := aset info.recognised id m } key h
      rw [hst] at h2 ⊢
      split <;> exact h2
    · simp only [hmach, if_false, Bool.false_eq_true]
      obtain ⟨st, hst⟩ := foldRS_shape m id sl info
      have h2 := foldRS_statuses_mono m id sl info key h
      rw [hst] at h2 ⊢
      split <;> exact h2

theorem processMember_recognised_isSome (mc : List (String × machineTracker))
    (sl : List MemberStatus) (info : peerGroupInfo) (m : Member) (key : String)
    (h : (alookup info.recognised key).isSome) :
    (alookup (processMember mc sl info m).recognised key).isSome := by
  rw [processMember_recognised]
  cases hkt : knownTagOf mc m with
  | none => exact h
  | some id => exact alookup_isSome_aset _ _ _ _ h

theorem foldPM_machines (mc : List (String × machineTracker))
    (sl : List MemberStatus) (ml : List Member) (info : peerGroupInfo) :
    (ml.foldl (processMember mc sl) info).machines = info.machines := by
  induction ml generalizing info with
  | nil => rfl
  | cons m ml ih => rw [List.foldl_cons, ih, processMember_machines]

theorem foldPM_mongoPort (mc : List (String × machineTracker))
    (sl : List MemberStatus) (ml : List Member) (info : peerGroupInfo) :
    (ml.foldl (processMember mc sl) info).mongoPort = info.mongoPort := by
  induction ml generalizing info with
  | nil => rfl
  | cons m ml ih => rw [List.foldl_cons, ih, processMember_mongoPort]

theorem foldPM_haSpace (mc : List (String × machineTracker))
    (sl : List MemberStatus) (ml : List Member) (info : peerGroupInfo) :
    (ml.foldl (processMember mc sl) info).haSpace = info.haSpace := by
  induction ml generalizing info with
  | nil => rfl
  | cons m ml ih => rw [List.foldl_cons, ih, processMember_haSpace]

theorem knownTagOf_eq_some (mc : List (String × machineTracker)) (m : Member)
    (id : String) (h : knownTagOf mc m = some id) :
    tagOf m = some id ∧ (alookup mc id).isSome := by
  cases htag : tagOf m with
  | none => simp [knownTagOf, htag] at h
  | some id2 =>
    simp only [knownTagOf, htag] at h
    by_cases hmach : (alookup mc id2).isSome
    · rw [if_pos hmach, Option.some.injEq] at h
      subst h
      exact ⟨rfl, hmach⟩
    · rw [if_neg hmach] at h
      cases h

theorem knownTagOf_of_parts (mc : List (String × machineTracker)) (m : Member)
    (id : String) (htag : tagOf m = some id) (hmach : (alookup mc id).isSome) :
    knownTagOf mc m = some id := by
  simp only [knownTagOf, htag, if_pos hmach]

theorem foldPM_recognised_nodup (mc : List (String × machineTracker))
    (sl : List MemberStatus) (ml : List Member) (info : peerGroupInfo)
    (h : (keysOf info.recognised).Nodup) :
    (keysOf (ml.foldl (processMember mc sl) info).recognised).Nodup := by
  induction ml generalizing info with
  | nil => exact h
  | cons m ml ih =>
    rw [List.foldl_cons]
    apply ih
    rw [processMember_recognised]
    cases knownTagOf mc m with
    | none => exact h
    | some id => exact nodup_keysOf_aset _ _ _ h

theorem foldPM_recognised_char (mc : List (String × machineTracker))
    (sl : List MemberStatus) (ml : List Member) (info : peerGroupInfo)
    (h : ∀ id m2, alookup info.recognised id = some m2 →
      tagOf m2 = some id ∧ (alookup mc id).isSome) :
    ∀ id m2, alookup (ml.foldl (processMember mc sl) info).recognised id = some m2 →
      tagOf m2 = some id ∧ (alookup mc id).isSome := by
  induction ml generalizing info with
  | nil => exact h
  | cons m ml ih =>
    rw [List.foldl_cons]
    apply ih
    intro id m2 hlk
    rw [processMember_recognised] at hlk
    cases hkt : knownTagOf mc m with
    | none => rw [hkt] at hlk; exact h id m2 hlk
    | some id0 =>
      rw [hkt] at hlk
      by_cases hid : id0 = id
      · subst hid
        rw [alookup_aset_self] at hlk
        cases hlk
        exact knownTagOf_eq_some mc m id0 hkt
      · rw [alookup_aset_ne _ _ _ _ hid] at hlk
        exact h id m2 hlk

theorem foldPM_SR (mc : List (String × machineTracker))
    (sl : List MemberStatus) (ml : List Member) (info : peerGroupInfo)
    (h : ∀ id, (alookup mc id).isSome → (alookup info.statuses id).isSome →
      (alookup info.recognised id).isSome) :
    ∀ id, (alookup mc id).isSome →
      (alookup (ml.foldl (processMember mc sl) info).statuses id).isSome →
      (alookup (ml.foldl (processMember mc sl) info).recognised id).isSome := by
  induction ml generalizing info with
  | nil => exact h
  | cons m ml ih =>
    rw [List.foldl_cons]
    apply ih
    intro id hmach hsts
    rcases processMember_statuses_isSome mc sl info m id hsts with h1 | h1
    · exact processMember_recognised_isSome mc sl info m id (h id hmach h1)
    · have hkt := knownTagOf_of_parts mc m id h1 hmach
      rw [processMember_recognised, hkt, alookup_aset_self]
      rfl

theorem foldPM_statuses_tags (mc : List (String × machineTracker))
    (sl : List MemberStatus) (ml : List Member) (info : peerGroupInfo) :
    ∀ key, (alookup (ml.foldl (processMember mc sl) info).statuses key).isSome →
      (alookup info.statuses key).isSome ∨ ∃ m, m ∈ ml ∧ tagOf m = some key := by
  induction ml generalizing info with
  | nil => exact fun key h => .inl h
  | cons m ml ih =>
    intro key h
    rw [List.foldl_cons] at h
    rcases ih (processMember mc sl info m) key h with h1 | h1
    · rcases processMember_statuses_isSome mc sl info m key h1 with h2 | h2
      · exact .inl h2
      · exact .inr ⟨m, List.mem_cons_self m ml, h2⟩
    · obtain ⟨m2, hm2, ht2⟩ := h1
      exact .inr ⟨m2, List.mem_cons_of_mem m hm2, ht2⟩

theorem foldPM_maxId_ge (mc : List (String × machineTracker))
    (sl : List MemberStatus) (ml : List Member) (info : peerGroupInfo) :
    info.maxMemberId ≤ (ml.foldl (processMember mc sl) info).maxMemberId := by
  induction ml generalizing info with
  | nil => exact le_refl _
  | cons m ml ih =>
    rw [List.foldl_cons]
    refine le_trans ?_ (ih (processMember mc sl info m))
    rw [processMember_maxMemberId]
    split
    · omega
    · exact le_refl _

theorem foldPM_maxId_mem (mc : List (String × machineTracker))
    (sl : List MemberStatus) (ml : List Member) (info : peerGroupInfo) :
    ∀ m, m ∈ ml → m.Id ≤ (ml.foldl (processMember mc sl) info).maxMemberId := by
  induction ml generalizing info with
  | nil => intro m hm; cases hm
  | cons m0 ml ih =>
    intro m hm
    rw [List.foldl_cons]
    rcases List.mem_cons.mp hm with hm | hm
    · subst hm
      refine le_trans ?_ (foldPM_maxId_ge mc sl ml (processMember mc sl info m))
      rw [processMember_maxMemberId]
      split
      · exact le_refl _
      · omega
    · exact ih (processMember mc sl info m0) m hm

theorem newPeerGroupInfo_some (mc : List (String × machineTracker))
    (sl : List MemberStatus) (ml : List Member) (port : Int) (hs : String)
    (info : peerGroupInfo)
    (h : newPeerGroupInfo mc sl ml port hs = some info) :
    info = ml.foldl (processMember mc sl) (pgInit mc port hs) ∧ ml ≠ [] := by
  unfold newPeerGroupInfo at h
  by_cases hlen : ml.length == 0
  · rw [if_pos hlen] at h
    cases h
  · rw [if_neg hlen] at h
    cases h
    refine ⟨rfl, ?_⟩
    intro hc
    subst hc
    simp at hlen

theorem asm_machines (mc : List (String × machineTracker))
    (sl : List MemberStatus) (ml : List Member) (port : Int) (hs : String)
    (info : peerGroupInfo)
    (h : newPeerGroupInfo mc sl ml port hs = some info) :
    info.machines = mc := by
  obtain ⟨heq, -⟩ := newPeerGroupInfo_some mc sl ml port hs info h
  rw [heq, foldPM_machines]
  rfl

theorem asm_recognised_nodup (mc : List (String × machineTracker))
    (sl : List MemberStatus) (ml : List Member) (port : Int) (hs : String)
    (info : peerGroupInfo)
    (h : newPeerGroupInfo mc sl ml port hs = some info) :
    (keysOf info.recognised).Nodup := by
  obtain ⟨heq, -⟩ := newPeerGroupInfo_some mc sl ml port hs info h
  rw [heq]
  exact foldPM_recognised_nodup mc sl ml _ (by simp [pgInit, keysOf])

theorem asm_recognised_char (mc : List (String × machineTracker))
    (sl : List MemberStatus) (ml : List Member) (port : Int) (hs : String)
    (info : peerGroupInfo)
    (h : newPeerGroupInfo mc sl ml port hs = some info) :
    ∀ id m2, alookup info.recognised id = some m2 →
      tagOf m2 = some id ∧ (alookup mc id).isSome := by
  obtain ⟨heq, -⟩ := newPeerGroupInfo_some mc sl ml port hs info h
  rw [heq]
  exact foldPM_recognised_char mc sl ml _ (by intro id m2 hc; cases hc)

theorem asm_SR (mc : List (String × machineTracker))
    (sl : List MemberStatus) (ml : List Member) (port : Int) (hs : String)
    (info : peerGroupInfo)
    (h : newPeerGroupInfo mc sl ml port hs = some info) :
    ∀ id, (alookup mc id).isSome → (alookup info.statuses id).isSome →
      (alookup info.recognised id).isSome := by
  obtain ⟨heq, -⟩ := newPeerGroupInfo_some mc sl ml port hs info h
  rw [heq]
  exact foldPM_SR mc sl ml _ (by intro id hm hc; cases hc)

theorem asm_statuses_tags (mc : List (String × machineTracker))
    (sl : List MemberStatus) (ml : List Member) (port : Int) (hs : String)
    (info : peerGroupInfo)
    (h : newPeerGroupInfo mc sl ml port hs = some info) :
    ∀ id, (alookup info.statuses id).isSome → ∃ m, m ∈ ml ∧ tagOf m = some id := by
  obtain ⟨heq, -⟩ := newPeerGroupInfo_some mc sl ml port hs info h
  intro id hsts
  rw [heq] at hsts
  rcases foldPM_statuses_tags mc sl ml _ id hsts with h1 | h1
  · cases h1
  · exact h1

theorem asm_maxId_init (mc : List (String × machineTracker))
    (sl : List MemberStatus) (ml : List Member) (port : Int) (hs : String)
    (info : peerGroupInfo)
    (h : newPeerGroupInfo mc sl ml port hs = some info) :
    -1 ≤ info.maxMemberId := by
  obtain ⟨heq, -⟩ := newPeerGroupInfo_some mc sl ml port hs info h
  rw [heq]
  exact foldPM_maxId_ge mc sl ml (pgInit mc port hs)

theorem asm_maxId_mem (mc : List (String × machineTracker))
    (sl : List MemberStatus) (ml : List Member) (port : Int) (hs : String)
    (info : peerGroupInfo)
    (h : newPeerGroupInfo mc sl ml port hs = some info) :
    ∀ m, m ∈ ml → m.Id ≤ info.maxMemberId := by
  obtain ⟨heq, -⟩ := newPeerGroupInfo_some mc sl ml port hs info h
  rw [heq]
  exact foldPM_maxId_mem mc sl ml (pgInit mc port hs)

/-! ## Lemmas: quorum adjuster -/

theorem removeFirstNonPrimary_none (info : peerGroupInfo) (l : List String)
    (h : removeFirstNonPrimary info l = none) :
    ∀ id ∈ l, isPrimaryMember info id = true := by
  induction l with
  | nil => intro id hid; cases hid
  | cons x l ih =>
    intro id hid
    unfold removeFirstNonPrimary at h
    by_cases hx : isPrimaryMember info x
    · rw [hx] at h
      simp only [Bool.not_true, Bool.false_eq_true, if_false] at h
      cases hr : removeFirstNonPrimary info l with
      | some q => rw [hr] at h; cases h
      | none =>
        rcases List.mem_cons.mp hid with hid | hid
        · subst hid; exact hx
        · exact ih hr id hid
    · rw [Bool.not_eq_true] at hx
      rw [hx] at h
      simp only [Bool.not_false, if_true] at h
      cases h

theorem removeFirstNonPrimary_some (info : peerGroupInfo) (l : List String)
    (y : String) (rest : List String)
    (h : removeFirstNonPrimary info l = some (y, rest)) :
    isPrimaryMember info y = false ∧ l.Perm (y :: rest) := by
  induction l generalizing y rest with
  | nil => cases h
  | cons x l ih =>
    unfold removeFirstNonPrimary at h
    by_cases hx : isPrimaryMember info x
    · rw [hx] at h
      simp only [Bool.not_true, Bool.false_eq_true, if_false] at h
      cases hr : removeFirstNonPrimary info l with
      | none => rw [hr] at h; cases h
      | some q =>
        rw [hr] at h
        obtain ⟨y0, rest0⟩ := q
        simp only [Option.some.injEq, Prod.mk.injEq] at h
        obtain ⟨hy, hrest⟩ := h
        subst hy
        subst hrest
        obtain ⟨hprim, hperm⟩ := ih y0 rest0 hr
        exact ⟨hprim, (hperm.cons x).trans (List.Perm.swap y0 x rest0)⟩
    · rw [Bool.not_eq_true] at hx
      rw [hx] at h
      simp only [Bool.not_false, if_true, Option.some.injEq, Prod.mk.injEq] at h
      obtain ⟨hy, hrest⟩ := h
      subst hy
      subst hrest
      exact ⟨hx, List.Perm.refl _⟩

theorem review_odd (info : peerGroupInfo) (p : peerGroupChanges)
    (h : ((currentVoterCount p.members : Int) - p.toRemoveVote.length +
      p.toAddVote.length).tmod 2 = 1) :
    reviewPeerGroupChanges info p = p := by
  have hb : (((currentVoterCount p.members : Int) - p.toRemoveVote.length +
      p.toAddVote.length).tmod 2 == 1) = true := beq_iff_eq.mpr h
  simp only [reviewPeerGroupChanges, hb, if_true]

theorem review_even_add (info : peerGroupInfo) (p : peerGroupChanges)
    (h : ((currentVoterCount p.members : Int) - p.toRemoveVote.length +
      p.toAddVote.length).tmod 2 ≠ 1)
    (hne : p.toAddVote ≠ []) :
    reviewPeerGroupChanges info p = { p with toAddVote := p.toAddVote.dropLast } := by
  have hb : (((currentVoterCount p.members : Int) - p.toRemoveVote.length +
      p.toAddVote.length).tmod 2 == 1) = false := beq_eq_false_iff_ne.mpr h
  have hlen : 0 < p.toAddVote.length := List.length_pos.mpr hne
  simp only [reviewPeerGroupChanges, hb, Bool.false_eq_true, if_false, if_pos hlen]

theorem review_kept_zero (info : peerGroupInfo) (p : peerGroupChanges)
    (h : ((currentVoterCount p.members : Int) - p.toRemoveVote.length +
      p.toAddVote.length).tmod 2 ≠ 1)
    (hadd : p.toAddVote = [])
    (hkept : (currentVoterCount p.members : Int) - p.toRemoveVote.length = 0) :
    reviewPeerGroupChanges info p =
      { p with toRemoveVote :=
          p.toRemoveVote.filter (fun id => !isPrimaryMember info id) } := by
  have hb : (((currentVoterCount p.members : Int) - p.toRemoveVote.length +
      p.toAddVote.length).tmod 2 == 1) = false := beq_eq_false_iff_ne.mpr h
  have hlen : ¬(0 < p.toAddVote.length) := by rw [hadd]; simp
  have hk : (((currentVoterCount p.members : Int) - p.toRemoveVote.length : Int) == 0) = true :=
    beq_iff_eq.mpr hkept
  simp only [reviewPeerGroupChanges, hb, Bool.false_eq_true, if_false, if_neg hlen, hk,
    if_true]

theorem review_kept_pos_found (info : peerGroupInfo) (p : peerGroupChanges)
    (h : ((currentVoterCount p.members : Int) - p.toRemoveVote.length +
      p.toAddVote.length).tmod 2 ≠ 1)
    (hadd : p.toAddVote = [])
    (hkept : (currentVoterCount p.members : Int) - p.toRemoveVote.length ≠ 0)
    (y : String) (rest : List String)
    (hfound : removeFirstNonPrimary info p.toKeepVoting = some (y, rest)) :
    reviewPeerGroupChanges info p =
      { p with toRemoveVote := p.toRemoveVote ++ [y], toKeepVoting := rest } := by
  have hb : (((currentVoterCount p.members : Int) - p.toRemoveVote.length +
      p.toAddVote.length).tmod 2 == 1) = false := beq_eq_false_iff_ne.mpr h
  have hlen : ¬(0 < p.toAddVote.length) := by rw [hadd]; simp
  have hk : (((currentVoterCount p.members : Int) - p.toRemoveVote.length : Int) == 0) = false :=
    beq_eq_false_iff_ne.mpr hkept
  simp only [reviewPeerGroupChanges, hb, Bool.false_eq_true, if_false, if_neg hlen, hk,
    hfound]

theorem review_kept_pos_none (info : peerGroupInfo) (p : peerGroupChanges)
    (h : ((currentVoterCount p.members : Int) - p.toRemoveVote.length +
      p.toAddVote.length).tmod 2 ≠ 1)
    (hadd : p.toAddVote = [])
    (hkept : (currentVoterCount p.members : Int) - p.toRemoveVote.length ≠ 0)
    (hnone : removeFirstNonPrimary info p.toKeepVoting = none) :
    reviewPeerGroupChanges info p = p := by
  have hb : (((currentVoterCount p.members : Int) - p.toRemoveVote.length +
      p.toAddVote.length).tmod 2 == 1) = false := beq_eq_false_iff_ne.mpr h
  have hlen : ¬(0 < p.toAddVote.length) := by rw [hadd]; simp
  have hk : (((currentVoterCount p.members : Int) - p.toRemoveVote.length : Int) == 0) = false :=
    beq_eq_false_iff_ne.mpr hkept
  simp only [reviewPeerGroupChanges, hb, Bool.false_eq_true, if_false, if_neg hlen, hk,
    hnone]

/-! ## Lemmas: member synthesis -/

theorem createStep_eq (acc : peerGroupChanges × Int) (id : String) :
    createStep acc id =
      ({ acc.1 with members := aset acc.1.members id (createdMember (acc.2 + 1) id) },
        acc.2 + 1) := rfl

theorem isVotingMember_createdMember (i : Int) (id : String) :
    isVotingMember (createdMember i id) = false := rfl

theorem createdMember_Id (i : Int) (id : String) : (createdMember i id).Id = i := rfl

theorem buildNews_length (x : Int) (ids : List String) :
    (buildNews x ids).length = ids.length := by
  induction ids generalizing x with
  | nil => rfl
  | cons id ids ih => simp [buildNews, ih]

theorem buildNews_keys (x : Int) (ids : List String) :
    keysOf (buildNews x ids) = ids := by
  induction ids generalizing x with
  | nil => rfl
  | cons id ids ih =>
    simp only [buildNews, keysOf, List.map_cons] at ih ⊢
    rw [ih (x + 1)]

theorem mem_buildNews (x : Int) (ids : List String) (kv : String × Member)
    (h : kv ∈ buildNews x ids) :
    kv.1 ∈ ids ∧ kv.2 = createdMember kv.2.Id kv.1 ∧
      x < kv.2.Id ∧ kv.2.Id ≤ x + ids.length := by
  induction ids generalizing x with
  | nil => cases h
  | cons id ids ih =>
    rcases List.mem_cons.mp h with h | h
    · subst h
      refine ⟨List.mem_cons_self _ _, rfl, by simp [createdMember_Id], ?_⟩
      simp only [createdMember_Id, List.length_cons]
      push_cast
      omega
    · obtain ⟨h1, h2, h3, h4⟩ := ih (x + 1) h
      refine ⟨List.mem_cons_of_mem _ h1, h2, by omega, ?_⟩
      simp only [List.length_cons]
      push_cast
      omega

theorem buildNews_pairwise (x : Int) (ids : List String) :
    (buildNews x ids).Pairwise (fun a b => a.2.Id < b.2.Id) := by
  induction ids generalizing x with
  | nil => exact List.Pairwise.nil
  | cons id ids ih =>
    refine List.pairwise_cons.mpr ⟨?_, ih (x + 1)⟩
    intro kv hkv
    obtain ⟨-, -, h3, -⟩ := mem_buildNews (x + 1) ids kv hkv
    simp only [createdMember_Id]
    omega

theorem createFold1 (ids : List String) (q : peerGroupChanges) (x : Int)
    (hnd : ids.Nodup) (hfresh : ∀ id ∈ ids, alookup q.members id = none) :
    ids.foldl createStep (q, x) =
      ({ q with members := q.members ++ buildNews x ids }, x + ids.length) := by
  induction ids generalizing q x with
  | nil => simp [buildNews]
  | cons id ids ih =>
    rw [List.foldl_cons, createStep_eq]
    have hfr : alookup q.members id = none := hfresh id (List.mem_cons_self id ids)
    rw [aset_of_not_mem _ _ _ ((alookup_eq_none_iff_not_mem _ _).mp hfr)]
    have hnd2 : ids.Nodup := (List.nodup_cons.mp hnd).2
    have hnm : id ∉ ids := (List.nodup_cons.mp hnd).1
    have hfresh2 : ∀ id2 ∈ ids,
        alookup (q.members ++ [(id, createdMember (x + 1) id)]) id2 = none := by
      intro id2 hid2
      rw [alookup_append, hfresh id2 (List.mem_cons_of_mem id hid2)]
      have hne : id ≠ id2 := fun hc => hnm (hc ▸ hid2)
      simp [alookup, hne]
    have hh := ih { q with members := q.members ++ [(id, createdMember (x + 1) id)] }
      (x + 1) hnd2 hfresh2
    rw [hh]
    apply Prod.ext
    · simp [buildNews, List.append_assoc]
    · simp only [List.length_cons]
      push_cast
      omega

theorem createFold2 (ids : List String) (q : peerGroupChanges) (x : Int)
    (hnd : ids.Nodup) :
    ids.foldl
        (fun acc id =>
          if (alookup acc.1.members id).isSome then acc else createStep acc id)
        (q, x) =
      ({ q with members := q.members ++
          buildNews x (ids.filter (fun id => !(alookup q.members id).isSome)) },
        x + (ids.filter (fun id => !(alookup q.members id).isSome)).length) := by
  induction ids generalizing q x with
  | nil => simp [buildNews]
  | cons id ids ih =>
    have hnd2 : ids.Nodup := (List.nodup_cons.mp hnd).2
    have hnm : id ∉ ids := (List.nodup_cons.mp hnd).1
    rw [List.foldl_cons, List.filter_cons]
    by_cases hs : (alookup q.members id).isSome
    · rw [if_neg (by simp [hs] : ¬((!(alookup q.members id).isSome) = true))]
      rw [if_pos hs]
      exact ih q x hnd2
    · rw [if_pos (by simp [hs] : (!(alookup q.members id).isSome) = true)]
      rw [if_neg hs]
      rw [show createStep (q, x) id =
        ({ q with members := aset q.members id (createdMember (x + 1) id) }, x + 1)
        from rfl]
      rw [show aset q.members id (createdMember (x + 1) id) =
        q.members ++ [(id, createdMember (x + 1) id)]
        from aset_of_not_mem _ _ _ (fun hc => hs ((alookup_isSome_iff_mem _ _).mpr hc))]
      rw [ih _ (x + 1) hnd2]
      have hfc : ids.filter (fun id2 =>
            !(alookup (q.members ++ [(id, createdMember (x + 1) id)]) id2).isSome) =
          ids.filter (fun id2 => !(alookup q.members id2).isSome) := by
        apply List.filter_congr
        intro id2 hid2
        have hne : id ≠ id2 := fun hc => hnm (hc ▸ hid2)
        rw [alookup_append]
        cases hq : alookup q.members id2 with
        | some v => rfl
        | none => simp [alookup, hne]
      apply Prod.ext
      · simp only [hfc]
        simp [buildNews, List.append_assoc]
      · simp only [hfc, List.length_cons]
        push_cast
        omega

theorem createNonVotingMember_spec (p : peerGroupChanges) (x : Int)
    (hCRnd : p.toKeepCreateNonVotingMember.Nodup)
    (hNVnd : p.toKeepNonVoting.Nodup)
    (hfresh : ∀ id ∈ p.toKeepCreateNonVotingMember, alookup p.members id = none) :
    createNonVotingMember p x =
      ({ p with members := p.members ++ createdNews p x },
        x + (createdNews p x).length) := by
  unfold createNonVotingMember
  rw [createFold1 p.toKeepCreateNonVotingMember p x hCRnd hfresh]
  rw [createFold2 p.toKeepNonVoting _ _ hNVnd]
  apply Prod.ext
  · simp [createdNews, List.append_assoc]
  · simp only [createdNews, List.length_append, buildNews_length]
    push_cast
    omega

/-! ## Lemmas: vote adjustment and voting map -/

theorem setMemberVoting_voting (m : Member) (b : Bool) :
    isVotingMember (setMemberVoting m b) = b := by
  cases b <;> simp [setMemberVoting, isVotingMember]

theorem setMemberVoting_idem (m : Member) (b : Bool) :
    setMemberVoting (setMemberVoting m b) b = setMemberVoting m b := by
  cases b <;> simp [setMemberVoting]

theorem setMemberVoting_override (m : Member) (b b2 : Bool) :
    setMemberVoting (setMemberVoting m b2) b = setMemberVoting m b := by
  cases b <;> cases b2 <;> simp [setMemberVoting]

theorem setVotingStep_lookup (b : Bool) (p : peerGroupChanges) (id0 id : String) :
    alookup (setVotingStep b p id0).members id =
      if id0 = id then (alookup p.members id).map (fun m => setMemberVoting m b)
      else alookup p.members id := by
  unfold setVotingStep
  cases hl : alookup p.members id0 with
  | none =>
    by_cases hid : id0 = id
    · subst hid
      rw [if_pos rfl, hl]
      rfl
    · rw [if_neg hid]
  | some m =>
    by_cases hid : id0 = id
    · subst hid
      rw [if_pos rfl, hl]
      simp [alookup_aset_self]
    · rw [if_neg hid]
      simp [alookup_aset_ne _ _ _ _ hid]

theorem setVotingStep_fields (b : Bool) (p : peerGroupChanges) (id0 : String) :
    (setVotingStep b p id0).isChanged = p.isChanged ∧
    (setVotingStep b p id0).toRemoveVote = p.toRemoveVote ∧
    (setVotingStep b p id0).toAddVote = p.toAddVote ∧
    (setVotingStep b p id0).toKeepVoting = p.toKeepVoting ∧
    (setVotingStep b p id0).toKeepNonVoting = p.toKeepNonVoting ∧
    (setVotingStep b p id0).toKeepCreateNonVotingMember = p.toKeepCreateNonVotingMember ∧
    (setVotingStep b p id0).addrs = p.addrs := by
  unfold setVotingStep
  cases alookup p.members id0 <;> exact ⟨rfl, rfl, rfl, rfl, rfl, rfl, rfl⟩

theorem setVoting_lookup (p : peerGroupChanges) (ids : List String) (b : Bool)
    (id : String) :
    alookup (setVoting p ids b).members id =
      if id ∈ ids then (alookup p.members id).map (fun m => setMemberVoting m b)
      else alookup p.members id := by
  induction ids generalizing p with
  | nil => simp [setVoting]
  | cons id0 ids ih =>
    have hstep : setVoting p (id0 :: ids) b = setVoting (setVotingStep b p id0) ids b := rfl
    rw [hstep, ih, setVotingStep_lookup]
    by_cases h1 : id ∈ ids
    · rw [if_pos h1, if_pos (List.mem_cons_of_mem id0 h1)]
      by_cases h2 : id0 = id
      · rw [if_pos h2]
        cases alookup p.members id with
        | none => rfl
        | some m => simp [setMemberVoting_idem]
      · rw [if_neg h2]
    · rw [if_neg h1]
      by_cases h2 : id0 = id
      · rw [if_pos h2, if_pos (h2 ▸ List.mem_cons_self id0 ids)]
      · rw [if_neg h2, if_neg (by
          intro hc
          rcases List.mem_cons.mp hc with hc | hc
          · exact h2 hc.symm
          · exact h1 hc)]

theorem setVoting_fields (p : peerGroupChanges) (ids : List String) (b : Bool) :
    (setVoting p ids b).isChanged = p.isChanged ∧
    (setVoting p ids b).toRemoveVote = p.toRemoveVote ∧
    (setVoting p ids b).toAddVote = p.toAddVote ∧
    (setVoting p ids b).toKeepVoting = p.toKeepVoting ∧
    (setVoting p ids b).toKeepNonVoting = p.toKeepNonVoting ∧
    (setVoting p ids b).toKeepCreateNonVotingMember = p.toKeepCreateNonVotingMember ∧
    (setVoting p ids b).addrs = p.addrs := by
  induction ids generalizing p with
  | nil => exact ⟨rfl, rfl, rfl, rfl, rfl, rfl, rfl⟩
  | cons id0 ids ih =>
    have hstep : setVoting p (id0 :: ids) b = setVoting (setVotingStep b p id0) ids b := rfl
    rw [hstep]
    obtain ⟨h1, h2, h3, h4, h5, h6, h7⟩ := ih (setVotingStep b p id0)
    obtain ⟨g1, g2, g3, g4, g5, g6, g7⟩ := setVotingStep_fields b p id0
    exact ⟨h1.trans g1, h2.trans g2, h3.trans g3, h4.trans g4, h5.trans g5,
      h6.trans g6, h7.trans g7⟩

theorem setVoting_members_keys (p : peerGroupChanges) (ids : List String) (b : Bool) :
    keysOf (setVoting p ids b).members = keysOf p.members := by
  induction ids generalizing p with
  | nil => rfl
  | cons id0 ids ih =>
    have hstep : setVoting p (id0 :: ids) b = setVoting (setVotingStep b p id0) ids b := rfl
    rw [hstep, ih]
    unfold setVotingStep
    cases hl : alookup p.members id0 with
    | none => rfl
    | some m =>
      simp only
      exact keysOf_aset_of_mem _ _ _
        ((alookup_isSome_iff_mem _ _).mp (by rw [hl]; rfl))

theorem alookup_map_votingEntry (l : List (String × Member)) (k : String) :
    alookup (l.map votingEntry) k = (alookup l k).map (fun m => isVotingMember m) := by
  induction l with
  | nil => rfl
  | cons kv rest ih =>
    obtain ⟨k0, v0⟩ := kv
    by_cases h0 : k0 = k <;> simp [alookup, votingEntry, h0, ih]

theorem map_votingEntry_aset (l : List (String × Member)) (k : String) (m2 : Member) :
    (aset l k m2).map votingEntry = aset (l.map votingEntry) k (isVotingMember m2) := by
  induction l with
  | nil => simp [aset, votingEntry]
  | cons kv rest ih =>
    obtain ⟨k0, v0⟩ := kv
    by_cases h0 : k0 = k <;> simp [aset, votingEntry, h0, ih]

theorem aset_self_eq {α : Type} (l : List (String × α)) (k : String) (v : α)
    (h : alookup l k = some v) : aset l k v = l := by
  induction l with
  | nil => cases h
  | cons kv rest ih =>
    obtain ⟨k0, v0⟩ := kv
    by_cases h0 : k0 = k
    · subst h0
      simp only [alookup, beq_self_eq_true, if_true, Option.some.injEq] at h
      simp [aset, h]
    · simp only [alookup, beq_iff_eq, if_neg h0] at h
      simp [aset, h0, ih h]

theorem setVotingStep_inv (b : Bool) (p : peerGroupChanges) (id0 : String)
    (hinv : p.machineVoting = p.members.map votingEntry) :
    (setVotingStep b p id0).machineVoting =
      (setVotingStep b p id0).members.map votingEntry := by
  unfold setVotingStep
  cases hl : alookup p.members id0 with
  | none => exact hinv
  | some m =>
    simp only
    rw [map_votingEntry_aset, setMemberVoting_voting, hinv]

theorem setVoting_inv (p : peerGroupChanges) (ids : List String) (b : Bool)
    (hinv : p.machineVoting = p.members.map votingEntry) :
    (setVoting p ids b).machineVoting = (setVoting p ids b).members.map votingEntry := by
  induction ids generalizing p with
  | nil => exact hinv
  | cons id0 ids ih =>
    have hstep : setVoting p (id0 :: ids) b = setVoting (setVotingStep b p id0) ids b := rfl
    rw [hstep]
    exact ih (setVotingStep b p id0) (setVotingStep_inv b p id0 hinv)

theorem adjustSV (q : peerGroupChanges) :
    (let p1 := setVoting q q.toAddVote true
     let p2 := setVoting p1 p1.toRemoveVote false
     setVoting p2 p2.toKeepCreateNonVotingMember false) =
    setVoting (setVoting (setVoting q q.toAddVote true) q.toRemoveVote false)
      q.toKeepCreateNonVotingMember false := by
  simp only
  rw [(setVoting_fields q q.toAddVote true).2.1]
  rw [(setVoting_fields (setVoting q q.toAddVote true) q.toRemoveVote false).2.2.2.2.2.1,
      (setVoting_fields q q.toAddVote true).2.2.2.2.2.1]

theorem adjustVotes_eq (p : peerGroupChanges) :
    ∃ b0 : Bool,
      adjustVotes p =
        setVoting (setVoting (setVoting { p with isChanged := b0 }
          p.toAddVote true) p.toRemoveVote false) p.toKeepCreateNonVotingMember false ∧
      (b0 = true ↔
        (p.isChanged = true ∨ p.toAddVote ≠ [] ∨ p.toRemoveVote ≠ [] ∨
          p.toKeepCreateNonVotingMember ≠ [])) := by
  unfold adjustVotes
  by_cases hc : (0 < p.toAddVote.length ∨ 0 < p.toRemoveVote.length ∨
      0 < p.toKeepCreateNonVotingMember.length)
  · refine ⟨true, ?_, ?_⟩
    · have hif : (if p.toAddVote.length > 0 || p.toRemoveVote.length > 0 ||
          p.toKeepCreateNonVotingMember.length > 0 then { p with isChanged := true }
          else p) = { p with isChanged := true } := by
        apply if_pos
        simpa [or_assoc] using hc
      rw [hif]
      exact adjustSV { p with isChanged := true }
    · simp only [true_iff]
      rcases hc with h | h | h
      · refine .inr (.inl ?_)
        intro hc2
        rw [hc2] at h
        simp at h
      · refine .inr (.inr (.inl ?_))
        intro hc2
        rw [hc2] at h
        simp at h
      · refine .inr (.inr (.inr ?_))
        intro hc2
        rw [hc2] at h
        simp at h
  · refine ⟨p.isChanged, ?_, ?_⟩
    · have hif : (if p.toAddVote.length > 0 || p.toRemoveVote.length > 0 ||
          p.toKeepCreateNonVotingMember.length > 0 then { p with isChanged := true }
          else p) = p := by
        apply if_neg
        simpa [or_assoc] using hc
      rw [hif]
      exact adjustSV p
    · push_neg at hc
      obtain ⟨h1, h2, h3⟩ := hc
      constructor
      · exact fun h => .inl h
      · rintro (h | h | h | h)
        · exact h
        · exact absurd (List.length_pos.mpr h) (by omega)
        · exact absurd (List.length_pos.mpr h) (by omega)
        · exact absurd (List.length_pos.mpr h) (by omega)

theorem members_mkIsChanged (p : peerGroupChanges) (b : Bool) :
    ({ p with isChanged := b } : peerGroupChanges).members = p.members := rfl

theorem adjustVotes_fields (p : peerGroupChanges) :
    (adjustVotes p).toRemoveVote = p.toRemoveVote ∧
    (adjustVotes p).toAddVote = p.toAddVote ∧
    (adjustVotes p).toKeepVoting = p.toKeepVoting ∧
    (adjustVotes p).toKeepNonVoting = p.toKeepNonVoting ∧
    (adjustVotes p).toKeepCreateNonVotingMember = p.toKeepCreateNonVotingMember ∧
    (adjustVotes p).addrs = p.addrs := by
  obtain ⟨b0, heq, hb⟩ := adjustVotes_eq p
  rw [heq]
  obtain ⟨_, a2, a3, a4, a5, a6, a7⟩ :=
    setVoting_fields (setVoting (setVoting { p with isChanged := b0 } p.toAddVote true)
      p.toRemoveVote false) p.toKeepCreateNonVotingMember false
  obtain ⟨_, c2, c3, c4, c5, c6, c7⟩ :=
    setVoting_fields (setVoting { p with isChanged := b0 } p.toAddVote true)
      p.toRemoveVote false
  obtain ⟨_, d2, d3, d4, d5, d6, d7⟩ :=
    setVoting_fields { p with isChanged := b0 } p.toAddVote true
  refine ⟨?_, ?_, ?_, ?_, ?_, ?_⟩
  · rw [a2, c2, d2]
  · rw [a3, c3, d3]
  · rw [a4, c4, d4]
  · rw [a5, c5, d5]
  · rw [a6, c6, d6]
  · rw [a7, c7, d7]

theorem adjustVotes_isChanged (p : peerGroupChanges) :
    ((adjustVotes p).isChanged = true ↔
      (p.isChanged = true ∨ p.toAddVote ≠ [] ∨ p.toRemoveVote ≠ [] ∨
        p.toKeepCreateNonVotingMember ≠ [])) := by
  obtain ⟨b0, heq, hb⟩ := adjustVotes_eq p
  rw [heq]
  rw [(setVoting_fields _ _ _).1, (setVoting_fields _ _ _).1, (setVoting_fields _ _ _).1]
  exact hb

theorem adjustVotes_lookup (p : peerGroupChanges) (id : String) :
    alookup (adjustVotes p).members id =
      (if id ∈ p.toKeepCreateNonVotingMember ∨ id ∈ p.toRemoveVote then
        (alookup p.members id).map (fun m => setMemberVoting m false)
      else if id ∈ p.toAddVote then
        (alookup p.members id).map (fun m => setMemberVoting m true)
      else alookup p.members id) := by
  obtain ⟨b0, heq, hb⟩ := adjustVotes_eq p
  rw [heq, setVoting_lookup, setVoting_lookup, setVoting_lookup, members_mkIsChanged]
  by_cases h3 : id ∈ p.toKeepCreateNonVotingMember
  · rw [if_pos h3, if_pos (Or.inl h3)]
    by_cases h2 : id ∈ p.toRemoveVote
    · rw [if_pos h2]
      by_cases h1 : id ∈ p.toAddVote
      · rw [if_pos h1]
        cases alookup p.members id <;>
          simp [setMemberVoting_override, setMemberVoting_idem]
      · rw [if_neg h1]
        cases alookup p.members id <;> simp [setMemberVoting_idem]
    · rw [if_neg h2]
      by_cases h1 : id ∈ p.toAddVote
      · rw [if_pos h1]
        cases alookup p.members id <;> simp [setMemberVoting_override]
      · rw [if_neg h1]
  · rw [if_neg h3]
    by_cases h2 : id ∈ p.toRemoveVote
    · rw [if_pos h2, if_pos (Or.inr h2)]
      by_cases h1 : id ∈ p.toAddVote
      · rw [if_pos h1]
        cases alookup p.members id <;> simp [setMemberVoting_override]
      · rw [if_neg h1]
    · by_cases h1 : id ∈ p.toAddVote
      · rw [if_neg h2, if_pos h1, if_neg (fun hc => Or.elim hc h3 h2)]
      · rw [if_neg h2, if_neg h1, if_neg (fun hc => Or.elim hc h3 h2)]

theorem adjustVotes_members_keys (p : peerGroupChanges) :
    keysOf (adjustVotes p).members = keysOf p.members := by
  obtain ⟨b0, heq, hb⟩ := adjustVotes_eq p
  rw [heq, setVoting_members_keys, setVoting_members_keys, setVoting_members_keys]

theorem adjustVotes_inv (p : peerGroupChanges)
    (hinv : p.machineVoting = p.members.map votingEntry) :
    (adjustVotes p).machineVoting = (adjustVotes p).members.map votingEntry := by
  obtain ⟨b0, heq, hb⟩ := adjustVotes_eq p
  rw [heq]
  apply setVoting_inv
  apply setVoting_inv
  apply setVoting_inv
  exact hinv

theorem gmv_fold (l : List (String × Member)) (p : peerGroupChanges) :
    l.foldl
        (fun q kv =>
          { q with machineVoting := aset q.machineVoting kv.1 (isVotingMember kv.2) })
        p =
      { p with machineVoting :=
          l.foldl (fun a kv => aset a kv.1 (isVotingMember kv.2)) p.machineVoting } := by
  induction l generalizing p with
  | nil => rfl
  | cons kv l ih =>
    rw [List.foldl_cons, List.foldl_cons, ih]

theorem getMachinesVoting_eq (p : peerGroupChanges) :
    getMachinesVoting p =
      { p with machineVoting :=
          p.members.foldl (fun a kv => aset a kv.1 (isVotingMember kv.2)) p.machineVoting } := by
  unfold getMachinesVoting
  rw [gmv_fold]

theorem gmv_inner (l : List (String × Member)) (mv : List (String × Bool)) :
    l.foldl (fun a kv => aset a kv.1 (isVotingMember kv.2)) mv =
      (l.map votingEntry).foldl (fun a kv => aset a kv.1 kv.2) mv := by
  induction l generalizing mv with
  | nil => rfl
  | cons kv l ih =>
    rw [List.map_cons, List.foldl_cons, List.foldl_cons, ih]
    rfl

theorem keysOf_map_votingEntry (l : List (String × Member)) :
    keysOf (l.map votingEntry) = keysOf l := by
  induction l with
  | nil => rfl
  | cons kv l ih =>
    rw [List.map_cons, keysOf_cons]
    rw [show (votingEntry kv).1 = kv.1 from rfl, ih]
    rfl

theorem asetFold_fresh {α : Type} (l acc : List (String × α))
    (hfresh : ∀ kv ∈ l, alookup acc kv.1 = none)
    (hnd : (keysOf l).Nodup) :
    l.foldl (fun a kv => aset a kv.1 kv.2) acc = acc ++ l := by
  induction l generalizing acc with
  | nil => simp
  | cons kv l ih =>
    rw [List.foldl_cons]
    have hk : alookup acc kv.1 = none := hfresh kv (List.mem_cons_self kv l)
    have hset : aset acc kv.1 kv.2 = acc ++ [kv] := by
      rw [aset_of_not_mem acc kv.1 kv.2 ((alookup_eq_none_iff_not_mem acc kv.1).mp hk)]
    rw [hset, ih (acc ++ [kv]) ?fr ?nd]
    · simp
    case fr =>
      intro kv2 hkv2
      rw [alookup_append, hfresh kv2 (List.mem_cons_of_mem kv hkv2)]
      simp only [alookup]
      have hne : kv.1 ≠ kv2.1 := by
        rw [keysOf_cons] at hnd
        intro hc
        exact (List.nodup_cons.mp hnd).1 (hc ▸ List.mem_map_of_mem Prod.fst hkv2)
      rw [if_neg (by simpa using hne)]
    case nd =>
      rw [keysOf_cons] at hnd
      exact (List.nodup_cons.mp hnd).2

theorem getMachinesVoting_spec (p : peerGroupChanges)
    (hmv : p.machineVoting = []) (hnd : (keysOf p.members).Nodup) :
    getMachinesVoting p = { p with machineVoting := p.members.map votingEntry } := by
  rw [getMachinesVoting_eq, hmv, gmv_inner, asetFold_fresh]
  · rw [List.nil_append]
  · intro kv _
    rfl
  · rw [keysOf_map_votingEntry]
    exact hnd

theorem updateAddressStep_isChanged_mono (p : peerGroupChanges) (kv : String × String)
    (h : p.isChanged = true) : (updateAddressStep p kv).isChanged = true := by
  unfold updateAddressStep
  split
  · exact h
  · split
    · exact h
    · split
      · rfl
      · exact h

theorem updateFold_isChanged_mono (l : List (String × String)) (p : peerGroupChanges)
    (h : p.isChanged = true) : (l.foldl updateAddressStep p).isChanged = true := by
  induction l generalizing p with
  | nil => exact h
  | cons kv l ih => exact ih _ (updateAddressStep_isChanged_mono p kv h)

theorem updateAddressStep_empty (p : peerGroupChanges) (kv : String × String)
    (h : (kv.2 == "") = true) : updateAddressStep p kv = p := by
  unfold updateAddressStep
  rw [if_pos h]

theorem updateAddressStep_none (p : peerGroupChanges) (kv : String × String)
    (h0 : (kv.2 == "") = false) (hl : alookup p.members kv.1 = none) :
    updateAddressStep p kv = p := by
  unfold updateAddressStep
  rw [if_neg (by simp [h0]), hl]

theorem updateAddressStep_some (p : peerGroupChanges) (kv : String × String)
    (m : Member) (h0 : (kv.2 == "") = false) (hl : alookup p.members kv.1 = some m) :
    updateAddressStep p kv =
      (if (kv.2 != m.Address) = true then
        { p with members := aset p.members kv.1 { m with Address := kv.2 },
                 isChanged := true }
      else p) := by
  unfold updateAddressStep
  rw [if_neg (by simp [h0]), hl]

theorem updateAddressStep_cases (p : peerGroupChanges) (kv : String × String) :
    (updateAddressStep p kv = p ∧
      updateAddressStep { p with isChanged := false } kv = { p with isChanged := false }) ∨
    (∃ m, updateAddressStep p kv =
        { p with members := aset p.members kv.1 m, isChanged := true } ∧
      updateAddressStep { p with isChanged := false } kv =
        { p with members := aset p.members kv.1 m, isChanged := true }) := by
  by_cases h0 : (kv.2 == "") = true
  · left
    exact ⟨updateAddressStep_empty p kv h0, updateAddressStep_empty _ kv h0⟩
  · have h0f : (kv.2 == "") = false := by
      cases hb : (kv.2 == "") with
      | true => exact absurd hb h0
      | false => rfl
    cases hl : alookup p.members kv.1 with
    | none =>
      left
      exact ⟨updateAddressStep_none p kv h0f hl, updateAddressStep_none _ kv h0f hl⟩
    | some m =>
      by_cases h1 : (kv.2 != m.Address) = true
      · right
        refine ⟨{ m with Address := kv.2 }, ?_, ?_⟩
        · rw [updateAddressStep_some p kv m h0f hl, if_pos h1]
        · rw [updateAddressStep_some { p with isChanged := false } kv m h0f hl,
            if_pos h1]
      · left
        refine ⟨?_, ?_⟩
        · rw [updateAddressStep_some p kv m h0f hl, if_neg h1]
        · rw [updateAddressStep_some { p with isChanged := false } kv m h0f hl,
            if_neg h1]

theorem updateFold_isChanged (l : List (String × String)) (p : peerGroupChanges) :
    (l.foldl updateAddressStep p).isChanged =
      (p.isChanged ||
        (l.foldl updateAddressStep { p with isChanged := false }).isChanged) := by
  induction l generalizing p with
  | nil => simp
  | cons kv l ih =>
    rw [List.foldl_cons, List.foldl_cons]
    rcases updateAddressStep_cases p kv with ⟨h1, h2⟩ | ⟨m, h1, h2⟩
    · rw [h1, h2, ih]
    · rw [h1, h2]
      rw [updateFold_isChanged_mono l _ rfl]
      simp

theorem updateAddresses_isChanged (p : peerGroupChanges) :
    (updateAddresses p).isChanged =
      (p.isChanged || (updateAddresses { p with isChanged := false }).isChanged) :=
  updateFold_isChanged p.addrs p

theorem updateAddressStep_fields (p : peerGroupChanges) (kv : String × String) :
    (updateAddressStep p kv).toRemoveVote = p.toRemoveVote ∧
    (updateAddressStep p kv).toAddVote = p.toAddVote ∧
    (updateAddressStep p kv).toKeepVoting = p.toKeepVoting ∧
    (updateAddressStep p kv).toKeepNonVoting = p.toKeepNonVoting ∧
    (updateAddressStep p kv).toKeepCreateNonVotingMember =
      p.toKeepCreateNonVotingMember ∧
    (updateAddressStep p kv).machineVoting = p.machineVoting ∧
    (updateAddressStep p kv).addrs = p.addrs := by
  unfold updateAddressStep
  split
  · exact ⟨rfl, rfl, rfl, rfl, rfl, rfl, rfl⟩
  · split
    · exact ⟨rfl, rfl, rfl, rfl, rfl, rfl, rfl⟩
    · split
      · exact ⟨rfl, rfl, rfl, rfl, rfl, rfl, rfl⟩
      · exact ⟨rfl, rfl, rfl, rfl, rfl, rfl, rfl⟩

theorem updateFold_fields (l : List (String × String)) (p : peerGroupChanges) :
    ((l.foldl updateAddressStep p).toRemoveVote = p.toRemoveVote ∧
    (l.foldl updateAddressStep p).toAddVote = p.toAddVote ∧
    (l.foldl updateAddressStep p).toKeepVoting = p.toKeepVoting ∧
    (l.foldl updateAddressStep p).toKeepNonVoting = p.toKeepNonVoting ∧
    (l.foldl updateAddressStep p).toKeepCreateNonVotingMember =
      p.toKeepCreateNonVotingMember ∧
    (l.foldl updateAddressStep p).machineVoting = p.machineVoting ∧
    (l.foldl updateAddressStep p).addrs = p.addrs) := by
  induction l generalizing p with
  | nil => exact ⟨rfl, rfl, rfl, rfl, rfl, rfl, rfl⟩
  | cons kv l ih =>
    rw [List.foldl_cons]
    obtain ⟨a1, a2, a3, a4, a5, a6, a7⟩ := ih (updateAddressStep p kv)
    obtain ⟨b1, b2, b3, b4, b5, b6, b7⟩ := updateAddressStep_fields p kv
    exact ⟨a1.trans b1, a2.trans b2, a3.trans b3, a4.trans b4, a5.trans b5,
      a6.trans b6, a7.trans b7⟩

theorem updateAddresses_fields (p : peerGroupChanges) :
    ((updateAddresses p).toRemoveVote = p.toRemoveVote ∧
    (updateAddresses p).toAddVote = p.toAddVote ∧
    (updateAddresses p).toKeepVoting = p.toKeepVoting ∧
    (updateAddresses p).toKeepNonVoting = p.toKeepNonVoting ∧
    (updateAddresses p).toKeepCreateNonVotingMember = p.toKeepCreateNonVotingMember ∧
    (updateAddresses p).machineVoting = p.machineVoting ∧
    (updateAddresses p).addrs = p.addrs) :=
  updateFold_fields p.addrs p

theorem review_fields (info : peerGroupInfo) (p : peerGroupChanges) :
    (reviewPeerGroupChanges info p).members = p.members ∧
    (reviewPeerGroupChanges info p).machineVoting = p.machineVoting ∧
    (reviewPeerGroupChanges info p).isChanged = p.isChanged ∧
    (reviewPeerGroupChanges info p).addrs = p.addrs ∧
    (reviewPeerGroupChanges info p).toKeepNonVoting = p.toKeepNonVoting ∧
    (reviewPeerGroupChanges info p).toKeepCreateNonVotingMember =
      p.toKeepCreateNonVotingMember := by
  simp only [reviewPeerGroupChanges]
  split
  · exact ⟨rfl, rfl, rfl, rfl, rfl, rfl⟩
  · split
    · exact ⟨rfl, rfl, rfl, rfl, rfl, rfl⟩
    · split
      · exact ⟨rfl, rfl, rfl, rfl, rfl, rfl⟩
      · split
        · exact ⟨rfl, rfl, rfl, rfl, rfl, rfl⟩
        · exact ⟨rfl, rfl, rfl, rfl, rfl, rfl⟩

theorem firstVotingExtra_none_spec (l : List Member) :
    firstVotingExtra l = none ↔ ∀ m ∈ l, isVotingMember m = false := by
  induction l with
  | nil => simp [firstVotingExtra]
  | cons m l ih =>
    simp only [firstVotingExtra]
    by_cases hm : isVotingMember m = true
    · rw [if_pos hm]
      simp only [List.mem_cons]
      constructor
      · intro hc
        cases hc
      · intro hall
        rw [hall m (Or.inl rfl)] at hm
        cases hm
    · rw [if_neg hm]
      rw [ih]
      simp only [List.mem_cons]
      constructor
      · intro hall m2 hm2
        rcases hm2 with hm2 | hm2
        · subst hm2
          exact Bool.not_eq_true _ ▸ (by simpa using hm)
        · exact hall m2 hm2
      · intro hall m2 hm2
        exact hall m2 (Or.inr hm2)

theorem firstVotingExtra_some_spec (l : List Member) (m : Member)
    (h : firstVotingExtra l = some m) : m ∈ l ∧ isVotingMember m = true := by
  induction l with
  | nil => cases h
  | cons m0 l ih =>
    simp only [firstVotingExtra] at h
    by_cases hm : isVotingMember m0 = true
    · rw [if_pos hm] at h
      obtain rfl : m0 = m := by injection h
      exact ⟨List.mem_cons_self _ l, hm⟩
    · rw [if_neg hm] at h
      obtain ⟨h1, h2⟩ := ih h
      exact ⟨List.mem_cons_of_mem m0 h1, h2⟩

theorem firstVotingExtra_exists (l : List Member) (m : Member)
    (hm : m ∈ l) (hv : isVotingMember m = true) :
    ∃ m2, firstVotingExtra l = some m2 := by
  cases hfv : firstVotingExtra l with
  | some m2 => exact ⟨m2, rfl⟩
  | none =>
    rw [(firstVotingExtra_none_spec l).mp hfv m hm] at hv
    cases hv

theorem getMongoAddressesLoop_error_shape (l : List (String × machineTracker))
    (acc : List (String × String)) (e : PGError)
    (h : getMongoAddressesLoop l acc = .error e) :
    ∃ id msg, e = .noUsableAddress id msg := by
  induction l generalizing acc with
  | nil => cases h
  | cons kv l ih =>
    obtain ⟨id, m⟩ := kv
    simp only [getMongoAddressesLoop] at h
    cases hma : m.mongoAddress with
    | error msg =>
      rw [hma] at h
      injection h with h
      exact ⟨id, msg, h.symm⟩
    | ok a =>
      rw [hma] at h
      exact ih _ h

theorem checkExtra_ok (p : peerGroupChanges) (extra : List Member)
    (hfv : firstVotingExtra extra = none) :
    checkExtraMembers p extra =
      .ok (if extra.length > 0 then { p with isChanged := true } else p) := by
  unfold checkExtraMembers
  rw [hfv]

theorem checkExtra_error (p : peerGroupChanges) (extra : List Member) (m : Member)
    (hfv : firstVotingExtra extra = some m) :
    checkExtraMembers p extra = .error (.extraVotingMember m) := by
  unfold checkExtraMembers
  rw [hfv]

theorem getMongo_ok (p : peerGroupChanges) (info : peerGroupInfo)
    (A : List (String × String))
    (hga : getMongoAddressesLoop info.machines [] = .ok A) :
    getMongoAddresses p info = .ok { p with addrs := A } := by
  unfold getMongoAddresses
  rw [hga]

theorem getMongo_error (p : peerGroupChanges) (info : peerGroupInfo) (e : PGError)
    (hga : getMongoAddressesLoop info.machines [] = .error e) :
    getMongoAddresses p info = .error e := by
  unfold getMongoAddresses
  rw [hga]

theorem desired_ok_eq (info : peerGroupInfo) (A : List (String × String))
    (hfv : firstVotingExtra info.extra = none)
    (hga : getMongoAddressesLoop info.machines [] = .ok A) :
    desiredPeerGroup info =
      (if ((coreChanges info { emptyChanges with
            isChanged := decide (0 < info.extra.length), addrs := A }).1).isChanged then
        .ok (some ((coreChanges info { emptyChanges with
            isChanged := decide (0 < info.extra.length), addrs := A }).1).members,
          ((coreChanges info { emptyChanges with
            isChanged := decide (0 < info.extra.length), addrs := A }).1).machineVoting)
      else
        .ok (none, ((coreChanges info { emptyChanges with
            isChanged := decide (0 < info.extra.length), addrs := A }).1).machineVoting)) := by
  unfold desiredPeerGroup
  rw [checkExtra_ok emptyChanges info.extra hfv]
  split
  · next e heq => exact absurd heq (by simp)
  · next p1 heq =>
    obtain rfl : p1 =
        (if info.extra.length > 0 then { emptyChanges with isChanged := true }
          else emptyChanges) := by
      injection heq with h2
      exact h2.symm
    rw [getMongo_ok _ info A hga]
    split
    · next e heq2 => exact absurd heq2 (by simp)
    · next p2 heq2 =>
      obtain rfl : p2 =
          { (if info.extra.length > 0 then { emptyChanges with isChanged := true }
              else emptyChanges) with addrs := A } := by
        injection heq2 with h2
        exact h2.symm
      by_cases hx : 0 < info.extra.length
      · rw [if_pos hx, decide_eq_true hx]
      · rw [if_neg hx, decide_eq_false hx]
        rfl

set_option maxHeartbeats 2000000 in
theorem desired_ok_decomp (info : peerGroupInfo)
    (r : Option (List (String × Member)) × List (String × Bool))
    (h : desiredPeerGroup info = .ok r) :
    ∃ A : List (String × String),
      firstVotingExtra info.extra = none ∧
      getMongoAddressesLoop info.machines [] = .ok A ∧
      r = (if ((coreChanges info { emptyChanges with
            isChanged := decide (0 < info.extra.length), addrs := A }).1).isChanged then
        (some ((coreChanges info { emptyChanges with
            isChanged := decide (0 < info.extra.length), addrs := A }).1).members,
          ((coreChanges info { emptyChanges with
            isChanged := decide (0 < info.extra.length), addrs := A }).1).machineVoting)
      else
        (none, ((coreChanges info { emptyChanges with
            isChanged := decide (0 < info.extra.length), addrs := A }).1).machineVoting)) := by
  cases hfv : firstVotingExtra info.extra with
  | some m =>
    rw [show desiredPeerGroup info = .error (.extraVotingMember m) from by
      unfold desiredPeerGroup
      rw [checkExtra_error emptyChanges info.extra m hfv]] at h
    cases h
  | none =>
    cases hga : getMongoAddressesLoop info.machines [] with
    | error e =>
      rw [show desiredPeerGroup info = .error e from by
        unfold desiredPeerGroup
        rw [checkExtra_ok emptyChanges info.extra hfv]
        split
        · next e2 heq => exact absurd heq (by simp)
        · next p1 heq => rw [getMongo_error _ info e hga]] at h
      cases h
    | ok A =>
      rw [desired_ok_eq info A hfv hga] at h
      refine ⟨A, rfl, rfl, ?_⟩
      by_cases hic : ((coreChanges info { emptyChanges with
          isChanged := decide (0 < info.extra.length), addrs := A }).1).isChanged = true
      · rw [if_pos hic] at h
        rw [if_pos hic]
        injection h with h
        exact h.symm
      · rw [if_neg hic] at h
        rw [if_neg hic]
        injection h with h
        exact h.symm

set_option maxHeartbeats 2000000 in
theorem desired_error_decomp (info : peerGroupInfo) (e : PGError)
    (h : desiredPeerGroup info = .error e) :
    (∃ m, firstVotingExtra info.extra = some m ∧ e = .extraVotingMember m) ∨
    (∃ id msg, e = .noUsableAddress id msg) := by
  cases hfv : firstVotingExtra info.extra with
  | some m =>
    rw [show desiredPeerGroup info = .error (.extraVotingMember m) from by
      unfold desiredPeerGroup
      rw [checkExtra_error emptyChanges info.extra m hfv]] at h
    injection h with h
    exact .inl ⟨m, rfl, h.symm⟩
  | none =>
    cases hga : getMongoAddressesLoop info.machines [] with
    | error e2 =>
      rw [show desiredPeerGroup info = .error e2 from by
        unfold desiredPeerGroup
        rw [checkExtra_ok emptyChanges info.extra hfv]
        split
        · next e3 heq => exact absurd heq (by simp)
        · next p1 heq => rw [getMongo_error _ info e2 hga]] at h
      injection h with h
      exact .inr (h ▸ getMongoAddressesLoop_error_shape info.machines [] e2 hga)
    | ok A =>
      rw [desired_ok_eq info A hfv hga] at h
      by_cases hic : ((coreChanges info { emptyChanges with
          isChanged := decide (0 < info.extra.length), addrs := A }).1).isChanged = true
      · rw [if_pos hic] at h
        cases h
      · rw [if_neg hic] at h
        cases h

theorem desired_error_extra (info : peerGroupInfo) (m : Member)
    (hfv : firstVotingExtra info.extra = some m) :
    desiredPeerGroup info = .error (.extraVotingMember m) := by
  unfold desiredPeerGroup
  rw [checkExtra_error emptyChanges info.extra m hfv]

theorem countTrue_countP (M : List (String × Member)) :
    countTrue (M.map votingEntry) = M.countP (fun kv => isVotingMember kv.2) := by
  unfold countTrue
  rw [← List.countP_eq_length_filter, List.countP_map]
  apply List.countP_congr
  intro kv _
  rfl

theorem classify_real (info : peerGroupInfo) (b : Bool) (A : List (String × String)) :
    possiblePeerGroupChanges info
      { emptyChanges with
        isChanged := b, addrs := A, members := initNewReplicaSet info } =
      { emptyChanges with
        isChanged := b, addrs := A,
        members := initNewReplicaSet info,
        toKeepVoting := (sortStrings (keysOf info.machines)).filter
          (pKeepVoting info (initNewReplicaSet info)),
        toAddVote := (sortStrings (keysOf info.machines)).filter
          (pAddVote info (initNewReplicaSet info)),
        toRemoveVote := (sortStrings (keysOf info.machines)).filter
          (pRemoveVote info (initNewReplicaSet info)),
        toKeepNonVoting := (sortStrings (keysOf info.machines)).filter
          (pKeepNonVoting info (initNewReplicaSet info)),
        toKeepCreateNonVotingMember := (sortStrings (keysOf info.machines)).filter
          (pKeepCreate info (initNewReplicaSet info)) } := by
  rw [possiblePeerGroupChanges_spec]
  rfl

theorem classified_eq (info : peerGroupInfo) :
    classifiedChanges info =
      { emptyChanges with
        members := initNewReplicaSet info,
        toKeepVoting := (sortStrings (keysOf info.machines)).filter
          (pKeepVoting info (initNewReplicaSet info)),
        toAddVote := (sortStrings (keysOf info.machines)).filter
          (pAddVote info (initNewReplicaSet info)),
        toRemoveVote := (sortStrings (keysOf info.machines)).filter
          (pRemoveVote info (initNewReplicaSet info)),
        toKeepNonVoting := (sortStrings (keysOf info.machines)).filter
          (pKeepNonVoting info (initNewReplicaSet info)),
        toKeepCreateNonVotingMember := (sortStrings (keysOf info.machines)).filter
          (pKeepCreate info (initNewReplicaSet info)) } := by
  unfold classifiedChanges
  rw [possiblePeerGroupChanges_spec]
  rfl

theorem pKV_or_pRM_eq (info : peerGroupInfo) (R : List (String × Member)) (id : String)
    (h : (alookup info.machines id).isSome = true) :
    (pKeepVoting info R id || pRemoveVote info R id) = lookupVoting R id := by
  unfold pKeepVoting pRemoveVote
  cases hm : alookup info.machines id with
  | none =>
    rw [hm] at h
    cases h
  | some m =>
    cases hw : m.wantsVote <;> cases hv : lookupVoting R id <;> simp [hw, hv]

theorem mutex_KV_AV (info : peerGroupInfo) (R : List (String × Member)) (id : String) :
    ¬(pKeepVoting info R id = true ∧ pAddVote info R id = true) := by
  unfold pKeepVoting pAddVote
  cases hm : alookup info.machines id with
  | none => simp
  | some m =>
    cases hw : m.wantsVote <;> cases hv : lookupVoting R id <;>
      cases hr : statusReady info id <;> simp [hw, hv, hr]

theorem mutex_KV_RM (info : peerGroupInfo) (R : List (String × Member)) (id : String) :
    ¬(pKeepVoting info R id = true ∧ pRemoveVote info R id = true) := by
  unfold pKeepVoting pRemoveVote
  cases hm : alookup info.machines id with
  | none => simp
  | some m =>
    cases hw : m.wantsVote <;> cases hv : lookupVoting R id <;> simp [hw, hv]

theorem mutex_KV_KN (info : peerGroupInfo) (R : List (String × Member)) (id : String) :
    ¬(pKeepVoting info R id = true ∧ pKeepNonVoting info R id = true) := by
  unfold pKeepVoting pKeepNonVoting
  cases hm : alookup info.machines id with
  | none => simp
  | some m =>
    cases hw : m.wantsVote <;> cases hv : lookupVoting R id <;>
      cases hr : statusReady info id <;> cases hs : (alookup R id).isSome <;>
        simp [hw, hv, hr, hs]

theorem mutex_KV_CR (info : peerGroupInfo) (R : List (String × Member)) (id : String) :
    ¬(pKeepVoting info R id = true ∧ pKeepCreate info R id = true) := by
  unfold pKeepVoting pKeepCreate
  cases hm : alookup info.machines id with
  | none => simp
  | some m =>
    cases hw : m.wantsVote <;> cases hv : lookupVoting R id <;>
      cases hr : statusReady info id <;> cases hs : (alookup R id).isSome <;>
        simp [hw, hv, hr, hs]

theorem mutex_AV_RM (info : peerGroupInfo) (R : List (String × Member)) (id : String) :
    ¬(pAddVote info R id = true ∧ pRemoveVote info R id = true) := by
  unfold pAddVote pRemoveVote
  cases hm : alookup info.machines id with
  | none => simp
  | some m =>
    cases hw : m.wantsVote <;> cases hv : lookupVoting R id <;>
      cases hr : statusReady info id <;> simp [hw, hv, hr]

theorem mutex_AV_KN (info : peerGroupInfo) (R : List (String × Member)) (id : String) :
    ¬(pAddVote info R id = true ∧ pKeepNonVoting info R id = true) := by
  unfold pAddVote pKeepNonVoting
  cases hm : alookup info.machines id with
  | none => simp
  | some m =>
    cases hw : m.wantsVote <;> cases hv : lookupVoting R id <;>
      cases hr : statusReady info id <;> cases hs : (alookup R id).isSome <;>
        simp [hw, hv, hr, hs]

theorem mutex_AV_CR (info : peerGroupInfo) (R : List (String × Member)) (id : String) :
    ¬(pAddVote info R id = true ∧ pKeepCreate info R id = true) := by
  unfold pAddVote pKeepCreate
  cases hm : alookup info.machines id with
  | none => simp
  | some m =>
    cases hw : m.wantsVote <;> cases hv : lookupVoting R id <;>
      cases hr : statusReady info id <;> cases hs : (alookup R id).isSome <;>
        simp [hw, hv, hr, hs]

theorem mutex_RM_KN (info : peerGroupInfo) (R : List (String × Member)) (id : String) :
    ¬(pRemoveVote info R id = true ∧ pKeepNonVoting info R id = true) := by
  unfold pRemoveVote pKeepNonVoting
  cases hm : alookup info.machines id with
  | none => simp
  | some m =>
    cases hw : m.wantsVote <;> cases hv : lookupVoting R id <;>
      cases hr : statusReady info id <;> cases hs : (alookup R id).isSome <;>
        simp [hw, hv, hr, hs]

theorem mutex_RM_CR (info : peerGroupInfo) (R : List (String × Member)) (id : String) :
    ¬(pRemoveVote info R id = true ∧ pKeepCreate info R id = true) := by
  unfold pRemoveVote pKeepCreate
  cases hm : alookup info.machines id with
  | none => simp
  | some m =>
    cases hw : m.wantsVote <;> cases hv : lookupVoting R id <;>
      cases hr : statusReady info id <;> cases hs : (alookup R id).isSome <;>
        simp [hw, hv, hr, hs]

theorem mutex_KN_CR (info : peerGroupInfo) (R : List (String × Member)) (id : String) :
    ¬(pKeepNonVoting info R id = true ∧ pKeepCreate info R id = true) := by
  unfold pKeepNonVoting pKeepCreate
  cases hm : alookup info.machines id with
  | none => simp
  | some m =>
    cases hw : m.wantsVote <;> cases hv : lookupVoting R id <;>
      cases hr : statusReady info id <;> cases hs : (alookup R id).isSome <;>
        simp [hw, hv, hr, hs]

theorem lookupVoting_isSome (R : List (String × Member)) (id : String)
    (h : lookupVoting R id = true) : (alookup R id).isSome = true := by
  unfold lookupVoting at h
  cases hl : alookup R id with
  | none =>
    rw [hl] at h
    cases h
  | some m => rfl

theorem voterCount_partition (info : peerGroupInfo)
    (hmnd : (keysOf info.machines).Nodup)
    (hrnd : (keysOf (initNewReplicaSet info)).Nodup)
    (hRM : ∀ id, (alookup (initNewReplicaSet info) id).isSome = true →
      (alookup info.machines id).isSome = true) :
    currentVoterCount (initNewReplicaSet info) =
      ((sortStrings (keysOf info.machines)).filter
        (pKeepVoting info (initNewReplicaSet info))).length +
      ((sortStrings (keysOf info.machines)).filter
        (pRemoveVote info (initNewReplicaSet info))).length := by
  have hLnd : (sortStrings (keysOf info.machines)).Nodup :=
    ((sortStrings_perm (keysOf info.machines)).nodup_iff).mpr hmnd
  have h1 : currentVoterCount (initNewReplicaSet info) =
      (initNewReplicaSet info).countP (fun kv => isVotingMember kv.2) := by
    unfold currentVoterCount
    rw [List.countP_eq_length_filter]
  have h2 : (initNewReplicaSet info).countP (fun kv => isVotingMember kv.2) =
      (keysOf (initNewReplicaSet info)).countP
        (fun id => lookupVoting (initNewReplicaSet info) id) := by
    rw [countP_eq_countP_keys (initNewReplicaSet info) _ hrnd]
    apply List.countP_congr
    intro id _
    cases hl : alookup (initNewReplicaSet info) id <;> simp [lookupVoting, hl]
  have h3 : (keysOf (initNewReplicaSet info)).countP
        (fun id => lookupVoting (initNewReplicaSet info) id) =
      (sortStrings (keysOf info.machines)).countP
        (fun id => lookupVoting (initNewReplicaSet info) id) := by
    refine (countP_restrict (sortStrings (keysOf info.machines))
      (keysOf (initNewReplicaSet info)) _ hLnd hrnd ?_ ?_).symm
    · intro x hx
      rw [mem_sortStrings]
      exact (alookup_isSome_iff_mem _ _).mp
        (hRM x ((alookup_isSome_iff_mem _ _).mpr hx))
    · intro x _ hp
      exact (alookup_isSome_iff_mem _ _).mp (lookupVoting_isSome _ x hp)
  have h4 : (sortStrings (keysOf info.machines)).countP
        (fun id => lookupVoting (initNewReplicaSet info) id) =
      (sortStrings (keysOf info.machines)).countP
        (fun id => pKeepVoting info (initNewReplicaSet info) id ||
          pRemoveVote info (initNewReplicaSet info) id) := by
    apply List.countP_congr
    intro id hid
    rw [pKV_or_pRM_eq info (initNewReplicaSet info) id
      ((alookup_isSome_iff_mem _ _).mpr ((mem_sortStrings _ id).mp hid))]
  have h5 := countP_or_disjoint (sortStrings (keysOf info.machines))
    (pKeepVoting info (initNewReplicaSet info))
    (pRemoveVote info (initNewReplicaSet info))
    (fun x _ => mutex_KV_RM info (initNewReplicaSet info) x)
  rw [h1, h2, h3, h4, h5, List.countP_eq_length_filter, List.countP_eq_length_filter]

theorem createdNews_keys (p : peerGroupChanges) (x : Int) :
    keysOf (createdNews p x) =
      p.toKeepCreateNonVotingMember ++
        p.toKeepNonVoting.filter (fun id =>
          !(alookup (p.members ++ buildNews x p.toKeepCreateNonVotingMember)
            id).isSome) := by
  unfold createdNews
  rw [keysOf_append, buildNews_keys, buildNews_keys]

theorem createdNews_nonvoting (p : peerGroupChanges) (x : Int) (kv : String × Member)
    (h : kv ∈ createdNews p x) : isVotingMember kv.2 = false := by
  unfold createdNews at h
  rcases List.mem_append.mp h with h | h
  · obtain ⟨-, heq, -, -⟩ := mem_buildNews _ _ kv h
    rw [heq]
    exact isVotingMember_createdMember _ _
  · obtain ⟨-, heq, -, -⟩ := mem_buildNews _ _ kv h
    rw [heq]
    exact isVotingMember_createdMember _ _

theorem members_created_nodup (p : peerGroupChanges) (x : Int)
    (hmem : (keysOf p.members).Nodup)
    (hCR : p.toKeepCreateNonVotingMember.Nodup)
    (hKN : p.toKeepNonVoting.Nodup)
    (hfresh : ∀ id ∈ p.toKeepCreateNonVotingMember, alookup p.members id = none) :
    (keysOf (p.members ++ createdNews p x)).Nodup := by
  rw [keysOf_append, createdNews_keys]
  rw [List.nodup_append]
  refine ⟨hmem, ?_, ?_⟩
  · rw [List.nodup_append]
    refine ⟨hCR, hKN.filter _, ?_⟩
    intro a ha ha2
    have := List.of_mem_filter ha2
    rw [Bool.not_eq_true', Bool.eq_false_iff] at this
    apply this
    rw [alookup_append]
    cases hml : alookup p.members a with
    | some v => rfl
    | none =>
      have : a ∈ keysOf (buildNews x p.toKeepCreateNonVotingMember) := by
        rw [buildNews_keys]
        exact ha
      rw [(alookup_isSome_iff_mem _ _).mpr this]
  · intro a ha ha2
    rcases List.mem_append.mp ha2 with hc | hc
    · exact absurd ha ((alookup_eq_none_iff_not_mem _ _).mp (hfresh a hc))
    · have hcond := List.of_mem_filter hc
      rw [Bool.not_eq_true'] at hcond
      cases hml : alookup p.members a with
      | none => exact absurd ha ((alookup_eq_none_iff_not_mem _ _).mp hml)
      | some v =>
        rw [alookup_append_left _ _ _ _ hml] at hcond
        simp at hcond

theorem pCR_none (info : peerGroupInfo) (R : List (String × Member)) (id : String)
    (h : pKeepCreate info R id = true) : alookup R id = none := by
  unfold pKeepCreate at h
  cases hm : alookup info.machines id with
  | none =>
    rw [hm] at h
    cases h
  | some m =>
    rw [hm] at h
    simp only [Bool.and_eq_true] at h
    cases hl : alookup R id with
    | none => rfl
    | some v =>
      rw [hl] at h
      simp at h

theorem statusReady_some (info : peerGroupInfo) (id : String)
    (h : statusReady info id = true) : (alookup info.statuses id).isSome = true := by
  unfold statusReady at h
  cases hl : alookup info.statuses id with
  | none =>
    rw [hl] at h
    cases h
  | some sts => rfl

theorem pAV_parts (info : peerGroupInfo) (R : List (String × Member)) (id : String)
    (h : pAddVote info R id = true) :
    (alookup info.machines id).isSome = true ∧ statusReady info id = true ∧
      lookupVoting R id = false := by
  unfold pAddVote at h
  cases hm : alookup info.machines id with
  | none =>
    rw [hm] at h
    cases h
  | some m =>
    rw [hm] at h
    simp only [Bool.and_eq_true, Bool.not_eq_true'] at h
    exact ⟨rfl, h.2, h.1.2⟩

theorem pAV_some (info : peerGroupInfo) (id : String)
    (hSR : ∀ id2, (alookup info.machines id2).isSome = true →
      (alookup info.statuses id2).isSome = true →
      (alookup (initNewReplicaSet info) id2).isSome = true)
    (h : pAddVote info (initNewReplicaSet info) id = true) :
    (alookup (initNewReplicaSet info) id).isSome = true := by
  obtain ⟨h1, h2, -⟩ := pAV_parts info (initNewReplicaSet info) id h
  exact hSR id h1 (statusReady_some info id h2)

theorem lookupVoting_append_left (l1 l2 : List (String × Member)) (id : String)
    (h : id ∈ keysOf l1) : lookupVoting (l1 ++ l2) id = lookupVoting l1 id := by
  unfold lookupVoting
  cases hl : alookup l1 id with
  | none => exact absurd h ((alookup_eq_none_iff_not_mem _ _).mp hl)
  | some v => rw [alookup_append_left _ _ _ _ hl]

theorem mem_dropLast {α : Type} (l : List α) (a : α) (h : a ∈ l.dropLast) :
    a ∈ l := by
  induction l with
  | nil => cases h
  | cons x l ih =>
    cases l with
    | nil => cases h
    | cons y l2 =>
      rcases List.mem_cons.mp h with h | h
      · exact h ▸ List.mem_cons_self _ _
      · exact List.mem_cons_of_mem x (ih h)

theorem mem_filter_decide (L : List String) (q : String → Bool) (id : String)
    (h : id ∈ L) : decide (id ∈ L.filter q) = q id := by
  by_cases hq : q id = true
  · simp [List.mem_filter, h, hq]
  · simp [List.mem_filter, hq]

theorem adjustVotes_lookupVoting (p : peerGroupChanges) (id : String) :
    lookupVoting (adjustVotes p).members id =
      (!(decide (id ∈ p.toKeepCreateNonVotingMember) || decide (id ∈ p.toRemoveVote)) &&
        ((decide (id ∈ p.toAddVote) && (alookup p.members id).isSome) ||
          lookupVoting p.members id)) := by
  unfold lookupVoting
  rw [adjustVotes_lookup]
  by_cases h1 : id ∈ p.toKeepCreateNonVotingMember ∨ id ∈ p.toRemoveVote
  · rw [if_pos h1]
    rcases h1 with h1 | h1 <;>
      cases hS : alookup p.members id <;>
        simp [h1, hS, setMemberVoting, isVotingMember]
  · rw [if_neg h1]
    push_neg at h1
    obtain ⟨h1a, h1b⟩ := h1
    by_cases h2 : id ∈ p.toAddVote
    · rw [if_pos h2]
      cases hS : alookup p.members id <;>
        simp [h1a, h1b, h2, hS, setMemberVoting, isVotingMember]
    · rw [if_neg h2]
      cases hS : alookup p.members id <;> simp [h1a, h1b, h2, hS]

theorem nat_tmod2 (n : Nat) : ((n : Int).tmod 2 = 1) ↔ n % 2 = 1 := by
  rw [Int.tmod_eq_emod (by positivity) (by norm_num)]
  omega

theorem countP_voting_eq_keys (l : List (String × Member))
    (h : (keysOf l).Nodup) :
    l.countP (fun kv => isVotingMember kv.2) =
      (keysOf l).countP (fun id => lookupVoting l id) := by
  rw [countP_eq_countP_keys l _ h]
  apply List.countP_congr
  intro id _
  cases hl : alookup l id <;> simp [lookupVoting, hl]

/-- The voting head-count after the synthesis, bookkeeping, adjustment and
address stages, as a single count over the sorted machine ids. -/
theorem countV (info : peerGroupInfo) (p : peerGroupChanges)
    (hmem : p.members = initNewReplicaSet info)
    (hmv : p.machineVoting = [])
    (hKN : p.toKeepNonVoting = (sortStrings (keysOf info.machines)).filter
      (pKeepNonVoting info (initNewReplicaSet info)))
    (hCR : p.toKeepCreateNonVotingMember = (sortStrings (keysOf info.machines)).filter
      (pKeepCreate info (initNewReplicaSet info)))
    (hmnd : (keysOf info.machines).Nodup)
    (hrnd : (keysOf (initNewReplicaSet info)).Nodup)
    (hRM : ∀ id, (alookup (initNewReplicaSet info) id).isSome = true →
      (alookup info.machines id).isSome = true)
    (hSR : ∀ id, (alookup info.machines id).isSome = true →
      (alookup info.statuses id).isSome = true →
      (alookup (initNewReplicaSet info) id).isSome = true)
    (hAV : ∀ id ∈ p.toAddVote, pAddVote info (initNewReplicaSet info) id = true) :
    countTrue ((updateAddresses (adjustVotes (getMachinesVoting
        (createNonVotingMember p info.maxMemberId).1))).machineVoting) =
      (sortStrings (keysOf info.machines)).countP (fun id =>
        !(decide (id ∈ p.toKeepCreateNonVotingMember) ||
            decide (id ∈ p.toRemoveVote)) &&
          (decide (id ∈ p.toAddVote) ||
            lookupVoting (initNewReplicaSet info) id)) := by
  have hLnd : (sortStrings (keysOf info.machines)).Nodup :=
    ((sortStrings_perm (keysOf info.machines)).nodup_iff).mpr hmnd
  have hfresh : ∀ id ∈ p.toKeepCreateNonVotingMember, alookup p.members id = none := by
    rw [hCR, hmem]
    exact fun id hid => pCR_none info _ id (List.of_mem_filter hid)
  have hCRnd : p.toKeepCreateNonVotingMember.Nodup := by
    rw [hCR]
    exact hLnd.filter _
  have hKNnd : p.toKeepNonVoting.Nodup := by
    rw [hKN]
    exact hLnd.filter _
  have hc6 := createNonVotingMember_spec p info.maxMemberId hCRnd hKNnd hfresh
  have hc6f : (createNonVotingMember p info.maxMemberId).1 =
      { p with members := p.members ++ createdNews p info.maxMemberId } := by
    rw [hc6]
  rw [hc6f]
  have hndM : (keysOf (p.members ++ createdNews p info.maxMemberId)).Nodup :=
    members_created_nodup p info.maxMemberId (by rw [hmem]; exact hrnd) hCRnd hKNnd
      hfresh
  have hgmv2 : getMachinesVoting { p with members := p.members ++ createdNews p info.maxMemberId } =
      { p with members := p.members ++ createdNews p info.maxMemberId, machineVoting := (p.members ++ createdNews p info.maxMemberId).map votingEntry } := by
    exact getMachinesVoting_spec { p with members := p.members ++ createdNews p info.maxMemberId }
      (show ({ p with members := p.members ++ createdNews p info.maxMemberId } :
        peerGroupChanges).machineVoting = [] from hmv)
      (show (keysOf ({ p with members := p.members ++ createdNews p info.maxMemberId } :
        peerGroupChanges).members).Nodup from hndM)
  rw [hgmv2]
  rw [(updateAddresses_fields _).2.2.2.2.2.1]
  rw [adjustVotes_inv { p with members := p.members ++ createdNews p info.maxMemberId, machineVoting := (p.members ++ createdNews p info.maxMemberId).map votingEntry }
    (show ({ p with members := p.members ++ createdNews p info.maxMemberId, machineVoting := (p.members ++ createdNews p info.maxMemberId).map votingEntry } : peerGroupChanges).machineVoting =
      ({ p with members := p.members ++ createdNews p info.maxMemberId, machineVoting := (p.members ++ createdNews p info.maxMemberId).map votingEntry } : peerGroupChanges).members.map votingEntry from rfl)]
  rw [countTrue_countP]
  have hnd9 : (keysOf (adjustVotes
      { p with members := p.members ++ createdNews p info.maxMemberId, machineVoting := (p.members ++ createdNews p info.maxMemberId).map votingEntry }).members).Nodup := by
    rw [adjustVotes_members_keys]
    exact hndM
  rw [countP_voting_eq_keys _ hnd9]
  rw [adjustVotes_members_keys]
  rw [show ({ p with members := p.members ++ createdNews p info.maxMemberId, machineVoting := (p.members ++ createdNews p info.maxMemberId).map votingEntry } : peerGroupChanges).members = p.members ++ createdNews p info.maxMemberId from rfl]
  rw [keysOf_append, List.countP_append]
  have hdisj : ∀ a ∈ keysOf (createdNews p info.maxMemberId), a ∉ keysOf p.members := by
    intro a ha hc
    rw [keysOf_append] at hndM
    exact (List.nodup_append.mp hndM).2.2 hc ha
  have hz : (keysOf (createdNews p info.maxMemberId)).countP
      (fun id => lookupVoting (adjustVotes
        { p with members := p.members ++ createdNews p info.maxMemberId, machineVoting := (p.members ++ createdNews p info.maxMemberId).map votingEntry }).members id) = 0 := by
    rw [List.countP_eq_zero]
    intro id hid
    have hnotR : id ∉ keysOf p.members := hdisj id hid
    have hR0 : alookup p.members id = none :=
      (alookup_eq_none_iff_not_mem _ _).mpr hnotR
    have hlookM : alookup (p.members ++ createdNews p info.maxMemberId) id =
        alookup (createdNews p info.maxMemberId) id :=
      alookup_append_right _ _ _ hR0
    have hvnews : lookupVoting (p.members ++ createdNews p info.maxMemberId) id =
        false := by
      unfold lookupVoting
      rw [hlookM]
      cases hv : alookup (createdNews p info.maxMemberId) id with
      | none => rfl
      | some v =>
        have := createdNews_nonvoting p info.maxMemberId (id, v)
          (mem_of_alookup_eq_some _ _ _ hv)
        simpa using this
    have hAVfalse : decide (id ∈ p.toAddVote) = false := by
      rw [decide_eq_false_iff_not]
      intro hc
      have hsome := pAV_some info id hSR (hAV id hc)
      rw [← hmem] at hsome
      rw [hR0] at hsome
      cases hsome
    show ¬lookupVoting (adjustVotes
        { p with members := p.members ++ createdNews p info.maxMemberId, machineVoting := (p.members ++ createdNews p info.maxMemberId).map votingEntry }).members id = true
    rw [adjustVotes_lookupVoting]
    rw [show ({ p with members := p.members ++ createdNews p info.maxMemberId, machineVoting := (p.members ++ createdNews p info.maxMemberId).map votingEntry } : peerGroupChanges).toAddVote = p.toAddVote from rfl,
      show ({ p with members := p.members ++ createdNews p info.maxMemberId, machineVoting := (p.members ++ createdNews p info.maxMemberId).map votingEntry } : peerGroupChanges).members = p.members ++ createdNews p info.maxMemberId from rfl]
    rw [hvnews, hAVfalse]
    simp
  rw [hz, Nat.add_zero]
  have hc : (keysOf p.members).countP
      (fun id => lookupVoting (adjustVotes
        { p with members := p.members ++ createdNews p info.maxMemberId, machineVoting := (p.members ++ createdNews p info.maxMemberId).map votingEntry }).members id) =
      (keysOf p.members).countP (fun id =>
        !(decide (id ∈ p.toKeepCreateNonVotingMember) ||
            decide (id ∈ p.toRemoveVote)) &&
          (decide (id ∈ p.toAddVote) ||
            lookupVoting (initNewReplicaSet info) id)) := by
    apply List.countP_congr
    intro id hid
    have hsome : (alookup p.members id).isSome = true :=
      (alookup_isSome_iff_mem _ _).mpr hid
    obtain ⟨v, hv⟩ := Option.isSome_iff_exists.mp hsome
    have e1 : alookup (p.members ++ createdNews p info.maxMemberId) id =
        alookup p.members id := by
      rw [alookup_append_left _ _ _ _ hv, hv]
    rw [adjustVotes_lookupVoting]
    rw [show ({ p with members := p.members ++ createdNews p info.maxMemberId, machineVoting := (p.members ++ createdNews p info.maxMemberId).map votingEntry } : peerGroupChanges).toAddVote = p.toAddVote from rfl,
      show ({ p with members := p.members ++ createdNews p info.maxMemberId, machineVoting := (p.members ++ createdNews p info.maxMemberId).map votingEntry } : peerGroupChanges).toRemoveVote = p.toRemoveVote from rfl,
      show ({ p with members := p.members ++ createdNews p info.maxMemberId, machineVoting := (p.members ++ createdNews p info.maxMemberId).map votingEntry } : peerGroupChanges).toKeepCreateNonVotingMember =
        p.toKeepCreateNonVotingMember from rfl,
      show ({ p with members := p.members ++ createdNews p info.maxMemberId, machineVoting := (p.members ++ createdNews p info.maxMemberId).map votingEntry } : peerGroupChanges).members = p.members ++ createdNews p info.maxMemberId from rfl]
    rw [e1, hsome, Bool.and_true, lookupVoting_append_left _ _ _ hid, hmem]
  rw [hc]
  refine (countP_restrict (sortStrings (keysOf info.machines)) (keysOf p.members) _
    hLnd (by rw [hmem]; exact hrnd) ?_ ?_).symm
  · intro x hx
    rw [hmem] at hx
    rw [mem_sortStrings]
    exact (alookup_isSome_iff_mem _ _).mp (hRM x ((alookup_isSome_iff_mem _ _).mpr hx))
  · intro x _ hF
    simp only [Bool.and_eq_true, Bool.or_eq_true, decide_eq_true_eq] at hF
    rw [hmem]
    rcases hF.2 with hxa | hxv
    · exact (alookup_isSome_iff_mem _ _).mp (pAV_some info x hSR (hAV x hxa))
    · exact (alookup_isSome_iff_mem _ _).mp (lookupVoting_isSome _ x hxv)

theorem classified_KV (info : peerGroupInfo) :
    (classifiedChanges info).toKeepVoting =
      (sortStrings (keysOf info.machines)).filter
        (pKeepVoting info (initNewReplicaSet info)) := by
  rw [classified_eq]

theorem classified_AV (info : peerGroupInfo) :
    (classifiedChanges info).toAddVote =
      (sortStrings (keysOf info.machines)).filter
        (pAddVote info (initNewReplicaSet info)) := by
  rw [classified_eq]

theorem classified_RM (info : peerGroupInfo) :
    (classifiedChanges info).toRemoveVote =
      (sortStrings (keysOf info.machines)).filter
        (pRemoveVote info (initNewReplicaSet info)) := by
  rw [classified_eq]

theorem classified_KN (info : peerGroupInfo) :
    (classifiedChanges info).toKeepNonVoting =
      (sortStrings (keysOf info.machines)).filter
        (pKeepNonVoting info (initNewReplicaSet info)) := by
  rw [classified_eq]

theorem classified_CR (info : peerGroupInfo) :
    (classifiedChanges info).toKeepCreateNonVotingMember =
      (sortStrings (keysOf info.machines)).filter
        (pKeepCreate info (initNewReplicaSet info)) := by
  rw [classified_eq]

theorem mem_L_isSome (info : peerGroupInfo) (id : String)
    (h : id ∈ sortStrings (keysOf info.machines)) :
    (alookup info.machines id).isSome = true :=
  (alookup_isSome_iff_mem _ _).mpr ((mem_sortStrings _ id).mp h)

theorem countP_eq_single (L : List String) (y : String) (hnd : L.Nodup)
    (hy : y ∈ L) : L.countP (fun id => decide (id = y)) = 1 := by
  induction L with
  | nil => cases hy
  | cons x L ih =>
    rw [List.countP_cons]
    rcases List.mem_cons.mp hy with hy | hy
    · subst hy
      have hz : L.countP (fun id => decide (id = y)) = 0 := by
        rw [List.countP_eq_zero]
        intro a ha
        simp only [decide_eq_true_eq]
        intro hc
        exact (List.nodup_cons.mp hnd).1 (hc ▸ ha)
      simp [hz]
    · have hne : x ≠ y := fun hc => (List.nodup_cons.mp hnd).1 (hc ▸ hy)
      rw [ih (List.nodup_cons.mp hnd).2 hy]
      simp [hne]

theorem hboolA (kv av rm cr : Bool)
    (h1 : ¬(kv = true ∧ av = true)) (h2 : ¬(kv = true ∧ rm = true))
    (h3 : ¬(av = true ∧ rm = true)) (h4 : ¬(av = true ∧ cr = true))
    (h5 : ¬(kv = true ∧ cr = true)) (h6 : ¬(rm = true ∧ cr = true)) :
    (!(cr || rm) && (av || (kv || rm))) = (av || kv) := by
  revert h1 h2 h3 h4 h5 h6
  cases kv <;> cases av <;> cases rm <;> cases cr <;> decide

theorem hboolB (kv av av2 rm cr : Bool)
    (h0 : av2 = true → av = true)
    (h1 : ¬(kv = true ∧ av = true)) (h2 : ¬(kv = true ∧ rm = true))
    (h3 : ¬(av = true ∧ rm = true)) (h4 : ¬(av = true ∧ cr = true))
    (h5 : ¬(kv = true ∧ cr = true)) (h6 : ¬(rm = true ∧ cr = true)) :
    (!(cr || rm) && (av2 || (kv || rm))) = (av2 || kv) := by
  revert h0 h1 h2 h3 h4 h5 h6
  cases kv <;> cases av <;> cases av2 <;> cases rm <;> cases cr <;> decide

theorem hboolC (kv rm cr pr : Bool)
    (h0 : kv = false)
    (h6 : ¬(rm = true ∧ cr = true)) :
    (!(cr || (!pr && rm)) && (false || (kv || rm))) = (rm && pr) := by
  revert h0 h6
  cases kv <;> cases rm <;> cases cr <;> cases pr <;> decide

theorem hboolD (kv rm cr ey : Bool)
    (h0 : ey = true → kv = true)
    (h2 : ¬(kv = true ∧ rm = true))
    (h5 : ¬(kv = true ∧ cr = true)) (h6 : ¬(rm = true ∧ cr = true)) :
    (!(cr || (rm || ey)) && (false || (kv || rm))) = (kv && !ey) := by
  revert h0 h2 h5 h6
  cases kv <;> cases rm <;> cases cr <;> cases ey <;> decide

theorem hboolE (kv rm cr : Bool)
    (h2 : ¬(kv = true ∧ rm = true))
    (h5 : ¬(kv = true ∧ cr = true)) (h6 : ¬(rm = true ∧ cr = true)) :
    (!(cr || rm) && (false || (kv || rm))) = kv := by
  revert h2 h5 h6
  cases kv <;> cases rm <;> cases cr <;> decide

theorem hboolSplit (kv ey : Bool) :
    kv = ((kv && !ey) || (kv && ey)) := by
  cases kv <;> cases ey <;> decide

set_option maxHeartbeats 4000000 in
/-- The pure pipeline after the two fallible stages, with the classifier
stage evaluated. -/
theorem coreStage (info : peerGroupInfo) (b : Bool) (A : List (String × String)) :
    (coreChanges info { emptyChanges with isChanged := b, addrs := A }).1 =
      updateAddresses (adjustVotes (getMachinesVoting
        (createNonVotingMember (reviewPeerGroupChanges info
          { emptyChanges with isChanged := b, addrs := A, members := initNewReplicaSet info, toKeepVoting := (sortStrings (keysOf info.machines)).filter (pKeepVoting info (initNewReplicaSet info)), toAddVote := (sortStrings (keysOf info.machines)).filter (pAddVote info (initNewReplicaSet info)), toRemoveVote := (sortStrings (keysOf info.machines)).filter (pRemoveVote info (initNewReplicaSet info)), toKeepNonVoting := (sortStrings (keysOf info.machines)).filter (pKeepNonVoting info (initNewReplicaSet info)), toKeepCreateNonVotingMember := (sortStrings (keysOf info.machines)).filter (pKeepCreate info (initNewReplicaSet info)) }) info.maxMemberId).1)) := by
  show updateAddresses (adjustVotes (getMachinesVoting
      (createNonVotingMember (reviewPeerGroupChanges info
        (possiblePeerGroupChanges info
          { emptyChanges with
            isChanged := b, addrs := A, members := initNewReplicaSet info }))
        info.maxMemberId).1)) = _
  rw [classify_real]

theorem countB1 (info : peerGroupInfo) (b : Bool) (A : List (String × String))
    (hmnd : (keysOf info.machines).Nodup)
    (hrnd : (keysOf (initNewReplicaSet info)).Nodup)
    (hRM : ∀ id, (alookup (initNewReplicaSet info) id).isSome = true →
      (alookup info.machines id).isSome = true)
    (hSR : ∀ id, (alookup info.machines id).isSome = true →
      (alookup info.statuses id).isSome = true →
      (alookup (initNewReplicaSet info) id).isSome = true)
    (hodd : ((currentVoterCount (initNewReplicaSet info) : Int) -
      ((sortStrings (keysOf info.machines)).filter (pRemoveVote info (initNewReplicaSet info))).length + ((sortStrings (keysOf info.machines)).filter (pAddVote info (initNewReplicaSet info))).length).tmod 2 = 1) :
    countTrue ((coreChanges info
        { emptyChanges with isChanged := b, addrs := A }).1.machineVoting) =
      ((sortStrings (keysOf info.machines)).filter (pAddVote info (initNewReplicaSet info))).length + ((sortStrings (keysOf info.machines)).filter (pKeepVoting info (initNewReplicaSet info))).length := by
  have hLnd : (sortStrings (keysOf info.machines)).Nodup :=
    ((sortStrings_perm (keysOf info.machines)).nodup_iff).mpr hmnd
  have hstage := coreStage info b A
  have hrev2 : reviewPeerGroupChanges info { emptyChanges with isChanged := b, addrs := A, members := initNewReplicaSet info, toKeepVoting := (sortStrings (keysOf info.machines)).filter (pKeepVoting info (initNewReplicaSet info)), toAddVote := (sortStrings (keysOf info.machines)).filter (pAddVote info (initNewReplicaSet info)), toRemoveVote := (sortStrings (keysOf info.machines)).filter (pRemoveVote info (initNewReplicaSet info)), toKeepNonVoting := (sortStrings (keysOf info.machines)).filter (pKeepNonVoting info (initNewReplicaSet info)), toKeepCreateNonVotingMember := (sortStrings (keysOf info.machines)).filter (pKeepCreate info (initNewReplicaSet info)) } = { emptyChanges with isChanged := b, addrs := A, members := initNewReplicaSet info, toKeepVoting := (sortStrings (keysOf info.machines)).filter (pKeepVoting info (initNewReplicaSet info)), toAddVote := (sortStrings (keysOf info.machines)).filter (pAddVote info (initNewReplicaSet info)), toRemoveVote := (sortStrings (keysOf info.machines)).filter (pRemoveVote info (initNewReplicaSet info)), toKeepNonVoting := (sortStrings (keysOf info.machines)).filter (pKeepNonVoting info (initNewReplicaSet info)), toKeepCreateNonVotingMember := (sortStrings (keysOf info.machines)).filter (pKeepCreate info (initNewReplicaSet info)) } :=
    review_odd info { emptyChanges with isChanged := b, addrs := A, members := initNewReplicaSet info, toKeepVoting := (sortStrings (keysOf info.machines)).filter (pKeepVoting info (initNewReplicaSet info)), toAddVote := (sortStrings (keysOf info.machines)).filter (pAddVote info (initNewReplicaSet info)), toRemoveVote := (sortStrings (keysOf info.machines)).filter (pRemoveVote info (initNewReplicaSet info)), toKeepNonVoting := (sortStrings (keysOf info.machines)).filter (pKeepNonVoting info (initNewReplicaSet info)), toKeepCreateNonVotingMember := (sortStrings (keysOf info.machines)).filter (pKeepCreate info (initNewReplicaSet info)) } hodd
  rw [hstage, hrev2, countV info { emptyChanges with isChanged := b, addrs := A, members := initNewReplicaSet info, toKeepVoting := (sortStrings (keysOf info.machines)).filter (pKeepVoting info (initNewReplicaSet info)), toAddVote := (sortStrings (keysOf info.machines)).filter (pAddVote info (initNewReplicaSet info)), toRemoveVote := (sortStrings (keysOf info.machines)).filter (pRemoveVote info (initNewReplicaSet info)), toKeepNonVoting := (sortStrings (keysOf info.machines)).filter (pKeepNonVoting info (initNewReplicaSet info)), toKeepCreateNonVotingMember := (sortStrings (keysOf info.machines)).filter (pKeepCreate info (initNewReplicaSet info)) } rfl rfl rfl rfl hmnd hrnd hRM hSR
    (fun id hid => List.of_mem_filter (show id ∈ (sortStrings (keysOf info.machines)).filter (pAddVote info (initNewReplicaSet info)) from hid))]
  have hpw : ∀ x ∈ (sortStrings (keysOf info.machines)),
      (!(decide (x ∈ ({ emptyChanges with isChanged := b, addrs := A, members := initNewReplicaSet info, toKeepVoting := (sortStrings (keysOf info.machines)).filter (pKeepVoting info (initNewReplicaSet info)), toAddVote := (sortStrings (keysOf info.machines)).filter (pAddVote info (initNewReplicaSet info)), toRemoveVote := (sortStrings (keysOf info.machines)).filter (pRemoveVote info (initNewReplicaSet info)), toKeepNonVoting := (sortStrings (keysOf info.machines)).filter (pKeepNonVoting info (initNewReplicaSet info)), toKeepCreateNonVotingMember := (sortStrings (keysOf info.machines)).filter (pKeepCreate info (initNewReplicaSet info)) } : peerGroupChanges).toKeepCreateNonVotingMember) ||
          decide (x ∈ ({ emptyChanges with isChanged := b, addrs := A, members := initNewReplicaSet info, toKeepVoting := (sortStrings (keysOf info.machines)).filter (pKeepVoting info (initNewReplicaSet info)), toAddVote := (sortStrings (keysOf info.machines)).filter (pAddVote info (initNewReplicaSet info)), toRemoveVote := (sortStrings (keysOf info.machines)).filter (pRemoveVote info (initNewReplicaSet info)), toKeepNonVoting := (sortStrings (keysOf info.machines)).filter (pKeepNonVoting info (initNewReplicaSet info)), toKeepCreateNonVotingMember := (sortStrings (keysOf info.machines)).filter (pKeepCreate info (initNewReplicaSet info)) } : peerGroupChanges).toRemoveVote)) &&
        (decide (x ∈ ({ emptyChanges with isChanged := b, addrs := A, members := initNewReplicaSet info, toKeepVoting := (sortStrings (keysOf info.machines)).filter (pKeepVoting info (initNewReplicaSet info)), toAddVote := (sortStrings (keysOf info.machines)).filter (pAddVote info (initNewReplicaSet info)), toRemoveVote := (sortStrings (keysOf info.machines)).filter (pRemoveVote info (initNewReplicaSet info)), toKeepNonVoting := (sortStrings (keysOf info.machines)).filter (pKeepNonVoting info (initNewReplicaSet info)), toKeepCreateNonVotingMember := (sortStrings (keysOf info.machines)).filter (pKeepCreate info (initNewReplicaSet info)) } : peerGroupChanges).toAddVote) ||
          lookupVoting (initNewReplicaSet info) x)) = true ↔
      (pAddVote info (initNewReplicaSet info) x ||
        pKeepVoting info (initNewReplicaSet info) x) = true := by
    intro x hxL
    rw [show ({ emptyChanges with isChanged := b, addrs := A, members := initNewReplicaSet info, toKeepVoting := (sortStrings (keysOf info.machines)).filter (pKeepVoting info (initNewReplicaSet info)), toAddVote := (sortStrings (keysOf info.machines)).filter (pAddVote info (initNewReplicaSet info)), toRemoveVote := (sortStrings (keysOf info.machines)).filter (pRemoveVote info (initNewReplicaSet info)), toKeepNonVoting := (sortStrings (keysOf info.machines)).filter (pKeepNonVoting info (initNewReplicaSet info)), toKeepCreateNonVotingMember := (sortStrings (keysOf info.machines)).filter (pKeepCreate info (initNewReplicaSet info)) } : peerGroupChanges).toKeepCreateNonVotingMember = (sortStrings (keysOf info.machines)).filter (pKeepCreate info (initNewReplicaSet info)) from rfl,
      show ({ emptyChanges with isChanged := b, addrs := A, members := initNewReplicaSet info, toKeepVoting := (sortStrings (keysOf info.machines)).filter (pKeepVoting info (initNewReplicaSet info)), toAddVote := (sortStrings (keysOf info.machines)).filter (pAddVote info (initNewReplicaSet info)), toRemoveVote := (sortStrings (keysOf info.machines)).filter (pRemoveVote info (initNewReplicaSet info)), toKeepNonVoting := (sortStrings (keysOf info.machines)).filter (pKeepNonVoting info (initNewReplicaSet info)), toKeepCreateNonVotingMember := (sortStrings (keysOf info.machines)).filter (pKeepCreate info (initNewReplicaSet info)) } : peerGroupChanges).toRemoveVote = (sortStrings (keysOf info.machines)).filter (pRemoveVote info (initNewReplicaSet info)) from rfl,
      show ({ emptyChanges with isChanged := b, addrs := A, members := initNewReplicaSet info, toKeepVoting := (sortStrings (keysOf info.machines)).filter (pKeepVoting info (initNewReplicaSet info)), toAddVote := (sortStrings (keysOf info.machines)).filter (pAddVote info (initNewReplicaSet info)), toRemoveVote := (sortStrings (keysOf info.machines)).filter (pRemoveVote info (initNewReplicaSet info)), toKeepNonVoting := (sortStrings (keysOf info.machines)).filter (pKeepNonVoting info (initNewReplicaSet info)), toKeepCreateNonVotingMember := (sortStrings (keysOf info.machines)).filter (pKeepCreate info (initNewReplicaSet info)) } : peerGroupChanges).toAddVote = (sortStrings (keysOf info.machines)).filter (pAddVote info (initNewReplicaSet info)) from rfl,
      mem_filter_decide _ _ _ hxL, mem_filter_decide _ _ _ hxL,
      mem_filter_decide _ _ _ hxL,
      ← pKV_or_pRM_eq info (initNewReplicaSet info) x (mem_L_isSome info x hxL)]
    rw [hboolA (pKeepVoting info (initNewReplicaSet info) x)
      (pAddVote info (initNewReplicaSet info) x)
      (pRemoveVote info (initNewReplicaSet info) x)
      (pKeepCreate info (initNewReplicaSet info) x)
      (mutex_KV_AV info (initNewReplicaSet info) x)
      (mutex_KV_RM info (initNewReplicaSet info) x)
      (mutex_AV_RM info (initNewReplicaSet info) x)
      (mutex_AV_CR info (initNewReplicaSet info) x)
      (mutex_KV_CR info (initNewReplicaSet info) x)
      (mutex_RM_CR info (initNewReplicaSet info) x)]
  rw [List.countP_congr hpw,
    countP_or_disjoint _ _ _
      (fun x _ => fun hc => mutex_KV_AV info (initNewReplicaSet info) x ⟨hc.2, hc.1⟩),
    List.countP_eq_length_filter, List.countP_eq_length_filter]

set_option maxHeartbeats 4000000 in
theorem countB2 (info : peerGroupInfo) (b : Bool) (A : List (String × String))
    (hmnd : (keysOf info.machines).Nodup)
    (hrnd : (keysOf (initNewReplicaSet info)).Nodup)
    (hRM : ∀ id, (alookup (initNewReplicaSet info) id).isSome = true →
      (alookup info.machines id).isSome = true)
    (hSR : ∀ id, (alookup info.machines id).isSome = true →
      (alookup info.statuses id).isSome = true →
      (alookup (initNewReplicaSet info) id).isSome = true)
    (heven : ¬((currentVoterCount (initNewReplicaSet info) : Int) -
      ((sortStrings (keysOf info.machines)).filter (pRemoveVote info (initNewReplicaSet info))).length + ((sortStrings (keysOf info.machines)).filter (pAddVote info (initNewReplicaSet info))).length).tmod 2 = 1)
    (hne : ((sortStrings (keysOf info.machines)).filter (pAddVote info (initNewReplicaSet info))) ≠ []) :
    countTrue ((coreChanges info
        { emptyChanges with isChanged := b, addrs := A }).1.machineVoting) =
      (((sortStrings (keysOf info.machines)).filter (pAddVote info (initNewReplicaSet info))).dropLast).length + ((sortStrings (keysOf info.machines)).filter (pKeepVoting info (initNewReplicaSet info))).length := by
  have hLnd : (sortStrings (keysOf info.machines)).Nodup :=
    ((sortStrings_perm (keysOf info.machines)).nodup_iff).mpr hmnd
  have hstage := coreStage info b A
  have hrev2 : reviewPeerGroupChanges info { emptyChanges with isChanged := b, addrs := A, members := initNewReplicaSet info, toKeepVoting := (sortStrings (keysOf info.machines)).filter (pKeepVoting info (initNewReplicaSet info)), toAddVote := (sortStrings (keysOf info.machines)).filter (pAddVote info (initNewReplicaSet info)), toRemoveVote := (sortStrings (keysOf info.machines)).filter (pRemoveVote info (initNewReplicaSet info)), toKeepNonVoting := (sortStrings (keysOf info.machines)).filter (pKeepNonVoting info (initNewReplicaSet info)), toKeepCreateNonVotingMember := (sortStrings (keysOf info.machines)).filter (pKeepCreate info (initNewReplicaSet info)) } = { emptyChanges with isChanged := b, addrs := A, members := initNewReplicaSet info, toKeepVoting := (sortStrings (keysOf info.machines)).filter (pKeepVoting info (initNewReplicaSet info)), toAddVote := ((sortStrings (keysOf info.machines)).filter (pAddVote info (initNewReplicaSet info))).dropLast, toRemoveVote := (sortStrings (keysOf info.machines)).filter (pRemoveVote info (initNewReplicaSet info)), toKeepNonVoting := (sortStrings (keysOf info.machines)).filter (pKeepNonVoting info (initNewReplicaSet info)), toKeepCreateNonVotingMember := (sortStrings (keysOf info.machines)).filter (pKeepCreate info (initNewReplicaSet info)) } := by
    rw [review_even_add info { emptyChanges with isChanged := b, addrs := A, members := initNewReplicaSet info, toKeepVoting := (sortStrings (keysOf info.machines)).filter (pKeepVoting info (initNewReplicaSet info)), toAddVote := (sortStrings (keysOf info.machines)).filter (pAddVote info (initNewReplicaSet info)), toRemoveVote := (sortStrings (keysOf info.machines)).filter (pRemoveVote info (initNewReplicaSet info)), toKeepNonVoting := (sortStrings (keysOf info.machines)).filter (pKeepNonVoting info (initNewReplicaSet info)), toKeepCreateNonVotingMember := (sortStrings (keysOf info.machines)).filter (pKeepCreate info (initNewReplicaSet info)) } heven hne]
  rw [hstage, hrev2, countV info { emptyChanges with isChanged := b, addrs := A, members := initNewReplicaSet info, toKeepVoting := (sortStrings (keysOf info.machines)).filter (pKeepVoting info (initNewReplicaSet info)), toAddVote := ((sortStrings (keysOf info.machines)).filter (pAddVote info (initNewReplicaSet info))).dropLast, toRemoveVote := (sortStrings (keysOf info.machines)).filter (pRemoveVote info (initNewReplicaSet info)), toKeepNonVoting := (sortStrings (keysOf info.machines)).filter (pKeepNonVoting info (initNewReplicaSet info)), toKeepCreateNonVotingMember := (sortStrings (keysOf info.machines)).filter (pKeepCreate info (initNewReplicaSet info)) } rfl rfl rfl rfl hmnd hrnd hRM hSR
    (fun id hid => List.of_mem_filter
      (mem_dropLast _ _ (show id ∈ ((sortStrings (keysOf info.machines)).filter (pAddVote info (initNewReplicaSet info))).dropLast from hid)))]
  have hpw : ∀ x ∈ (sortStrings (keysOf info.machines)),
      (!(decide (x ∈ ({ emptyChanges with isChanged := b, addrs := A, members := initNewReplicaSet info, toKeepVoting := (sortStrings (keysOf info.machines)).filter (pKeepVoting info (initNewReplicaSet info)), toAddVote := ((sortStrings (keysOf info.machines)).filter (pAddVote info (initNewReplicaSet info))).dropLast, toRemoveVote := (sortStrings (keysOf info.machines)).filter (pRemoveVote info (initNewReplicaSet info)), toKeepNonVoting := (sortStrings (keysOf info.machines)).filter (pKeepNonVoting info (initNewReplicaSet info)), toKeepCreateNonVotingMember := (sortStrings (keysOf info.machines)).filter (pKeepCreate info (initNewReplicaSet info)) } : peerGroupChanges).toKeepCreateNonVotingMember) ||
          decide (x ∈ ({ emptyChanges with isChanged := b, addrs := A, members := initNewReplicaSet info, toKeepVoting := (sortStrings (keysOf info.machines)).filter (pKeepVoting info (initNewReplicaSet info)), toAddVote := ((sortStrings (keysOf info.machines)).filter (pAddVote info (initNewReplicaSet info))).dropLast, toRemoveVote := (sortStrings (keysOf info.machines)).filter (pRemoveVote info (initNewReplicaSet info)), toKeepNonVoting := (sortStrings (keysOf info.machines)).filter (pKeepNonVoting info (initNewReplicaSet info)), toKeepCreateNonVotingMember := (sortStrings (keysOf info.machines)).filter (pKeepCreate info (initNewReplicaSet info)) } : peerGroupChanges).toRemoveVote)) &&
        (decide (x ∈ ({ emptyChanges with isChanged := b, addrs := A, members := initNewReplicaSet info, toKeepVoting := (sortStrings (keysOf info.machines)).filter (pKeepVoting info (initNewReplicaSet info)), toAddVote := ((sortStrings (keysOf info.machines)).filter (pAddVote info (initNewReplicaSet info))).dropLast, toRemoveVote := (sortStrings (keysOf info.machines)).filter (pRemoveVote info (initNewReplicaSet info)), toKeepNonVoting := (sortStrings (keysOf info.machines)).filter (pKeepNonVoting info (initNewReplicaSet info)), toKeepCreateNonVotingMember := (sortStrings (keysOf info.machines)).filter (pKeepCreate info (initNewReplicaSet info)) } : peerGroupChanges).toAddVote) ||
          lookupVoting (initNewReplicaSet info) x)) = true ↔
      (decide (x ∈ ((sortStrings (keysOf info.machines)).filter (pAddVote info (initNewReplicaSet info))).dropLast) ||
        pKeepVoting info (initNewReplicaSet info) x) = true := by
    intro x hxL
    rw [show ({ emptyChanges with isChanged := b, addrs := A, members := initNewReplicaSet info, toKeepVoting := (sortStrings (keysOf info.machines)).filter (pKeepVoting info (initNewReplicaSet info)), toAddVote := ((sortStrings (keysOf info.machines)).filter (pAddVote info (initNewReplicaSet info))).dropLast, toRemoveVote := (sortStrings (keysOf info.machines)).filter (pRemoveVote info (initNewReplicaSet info)), toKeepNonVoting := (sortStrings (keysOf info.machines)).filter (pKeepNonVoting info (initNewReplicaSet info)), toKeepCreateNonVotingMember := (sortStrings (keysOf info.machines)).filter (pKeepCreate info (initNewReplicaSet info)) } : peerGroupChanges).toKeepCreateNonVotingMember = (sortStrings (keysOf info.machines)).filter (pKeepCreate info (initNewReplicaSet info)) from rfl,
      show ({ emptyChanges with isChanged := b, addrs := A, members := initNewReplicaSet info, toKeepVoting := (sortStrings (keysOf info.machines)).filter (pKeepVoting info (initNewReplicaSet info)), toAddVote := ((sortStrings (keysOf info.machines)).filter (pAddVote info (initNewReplicaSet info))).dropLast, toRemoveVote := (sortStrings (keysOf info.machines)).filter (pRemoveVote info (initNewReplicaSet info)), toKeepNonVoting := (sortStrings (keysOf info.machines)).filter (pKeepNonVoting info (initNewReplicaSet info)), toKeepCreateNonVotingMember := (sortStrings (keysOf info.machines)).filter (pKeepCreate info (initNewReplicaSet info)) } : peerGroupChanges).toRemoveVote = (sortStrings (keysOf info.machines)).filter (pRemoveVote info (initNewReplicaSet info)) from rfl,
      show ({ emptyChanges with isChanged := b, addrs := A, members := initNewReplicaSet info, toKeepVoting := (sortStrings (keysOf info.machines)).filter (pKeepVoting info (initNewReplicaSet info)), toAddVote := ((sortStrings (keysOf info.machines)).filter (pAddVote info (initNewReplicaSet info))).dropLast, toRemoveVote := (sortStrings (keysOf info.machines)).filter (pRemoveVote info (initNewReplicaSet info)), toKeepNonVoting := (sortStrings (keysOf info.machines)).filter (pKeepNonVoting info (initNewReplicaSet info)), toKeepCreateNonVotingMember := (sortStrings (keysOf info.machines)).filter (pKeepCreate info (initNewReplicaSet info)) } : peerGroupChanges).toAddVote = ((sortStrings (keysOf info.machines)).filter (pAddVote info (initNewReplicaSet info))).dropLast from rfl,
      mem_filter_decide _ _ _ hxL, mem_filter_decide _ _ _ hxL,
      ← pKV_or_pRM_eq info (initNewReplicaSet info) x (mem_L_isSome info x hxL)]
    rw [hboolB (pKeepVoting info (initNewReplicaSet info) x)
      (pAddVote info (initNewReplicaSet info) x)
      (decide (x ∈ ((sortStrings (keysOf info.machines)).filter (pAddVote info (initNewReplicaSet info))).dropLast))
      (pRemoveVote info (initNewReplicaSet info) x)
      (pKeepCreate info (initNewReplicaSet info) x)
      (fun h => List.of_mem_filter (mem_dropLast _ _ (of_decide_eq_true h)))
      (mutex_KV_AV info (initNewReplicaSet info) x) (mutex_KV_RM info (initNewReplicaSet info) x) (mutex_AV_RM info (initNewReplicaSet info) x) (mutex_AV_CR info (initNewReplicaSet info) x) (mutex_KV_CR info (initNewReplicaSet info) x) (mutex_RM_CR info (initNewReplicaSet info) x)]
  rw [List.countP_congr hpw,
    countP_or_disjoint _ _ _ (fun x _ => fun hc =>
      mutex_KV_AV info (initNewReplicaSet info) x
        ⟨hc.2, List.of_mem_filter (mem_dropLast _ _ (of_decide_eq_true hc.1))⟩),
    countP_mem_eq_length (sortStrings (keysOf info.machines)) (((sortStrings (keysOf info.machines)).filter (pAddVote info (initNewReplicaSet info))).dropLast) hLnd
      (List.Nodup.sublist (List.dropLast_sublist _) (hLnd.filter _))
      (fun x hx => List.mem_of_mem_filter (mem_dropLast _ _ hx)),
    List.countP_eq_length_filter]

set_option maxHeartbeats 4000000 in
theorem countB3 (info : peerGroupInfo) (b : Bool) (A : List (String × String))
    (hmnd : (keysOf info.machines).Nodup)
    (hrnd : (keysOf (initNewReplicaSet info)).Nodup)
    (hRM : ∀ id, (alookup (initNewReplicaSet info) id).isSome = true →
      (alookup info.machines id).isSome = true)
    (hSR : ∀ id, (alookup info.machines id).isSome = true →
      (alookup info.statuses id).isSome = true →
      (alookup (initNewReplicaSet info) id).isSome = true)
    (heven : ¬((currentVoterCount (initNewReplicaSet info) : Int) -
      ((sortStrings (keysOf info.machines)).filter (pRemoveVote info (initNewReplicaSet info))).length + ((sortStrings (keysOf info.machines)).filter (pAddVote info (initNewReplicaSet info))).length).tmod 2 = 1)
    (hadd : ((sortStrings (keysOf info.machines)).filter (pAddVote info (initNewReplicaSet info))) = [])
    (hk0 : (currentVoterCount (initNewReplicaSet info) : Int) - ((sortStrings (keysOf info.machines)).filter (pRemoveVote info (initNewReplicaSet info))).length = 0) :
    countTrue ((coreChanges info
        { emptyChanges with isChanged := b, addrs := A }).1.machineVoting) =
      (((sortStrings (keysOf info.machines)).filter (pRemoveVote info (initNewReplicaSet info))).filter (fun id => isPrimaryMember info id)).length := by
  have hLnd : (sortStrings (keysOf info.machines)).Nodup :=
    ((sortStrings_perm (keysOf info.machines)).nodup_iff).mpr hmnd
  have hstage := coreStage info b A
  have hKVnil : ((sortStrings (keysOf info.machines)).filter (pKeepVoting info (initNewReplicaSet info))) = [] := by
    apply List.length_eq_zero.mp
    have hp := voterCount_partition info hmnd hrnd hRM
    have h2 := hk0
    rw [hp] at h2
    push_cast at h2
    omega
  have hrev2 : reviewPeerGroupChanges info { emptyChanges with isChanged := b, addrs := A, members := initNewReplicaSet info, toKeepVoting := (sortStrings (keysOf info.machines)).filter (pKeepVoting info (initNewReplicaSet info)), toAddVote := (sortStrings (keysOf info.machines)).filter (pAddVote info (initNewReplicaSet info)), toRemoveVote := (sortStrings (keysOf info.machines)).filter (pRemoveVote info (initNewReplicaSet info)), toKeepNonVoting := (sortStrings (keysOf info.machines)).filter (pKeepNonVoting info (initNewReplicaSet info)), toKeepCreateNonVotingMember := (sortStrings (keysOf info.machines)).filter (pKeepCreate info (initNewReplicaSet info)) } = { emptyChanges with isChanged := b, addrs := A, members := initNewReplicaSet info, toKeepVoting := (sortStrings (keysOf info.machines)).filter (pKeepVoting info (initNewReplicaSet info)), toAddVote := (sortStrings (keysOf info.machines)).filter (pAddVote info (initNewReplicaSet info)), toRemoveVote := ((sortStrings (keysOf info.machines)).filter (pRemoveVote info (initNewReplicaSet info))).filter (fun id => !isPrimaryMember info id), toKeepNonVoting := (sortStrings (keysOf info.machines)).filter (pKeepNonVoting info (initNewReplicaSet info)), toKeepCreateNonVotingMember := (sortStrings (keysOf info.machines)).filter (pKeepCreate info (initNewReplicaSet info)) } := by
    rw [review_kept_zero info { emptyChanges with isChanged := b, addrs := A, members := initNewReplicaSet info, toKeepVoting := (sortStrings (keysOf info.machines)).filter (pKeepVoting info (initNewReplicaSet info)), toAddVote := (sortStrings (keysOf info.machines)).filter (pAddVote info (initNewReplicaSet info)), toRemoveVote := (sortStrings (keysOf info.machines)).filter (pRemoveVote info (initNewReplicaSet info)), toKeepNonVoting := (sortStrings (keysOf info.machines)).filter (pKeepNonVoting info (initNewReplicaSet info)), toKeepCreateNonVotingMember := (sortStrings (keysOf info.machines)).filter (pKeepCreate info (initNewReplicaSet info)) } heven hadd hk0]
  rw [hstage, hrev2, countV info { emptyChanges with isChanged := b, addrs := A, members := initNewReplicaSet info, toKeepVoting := (sortStrings (keysOf info.machines)).filter (pKeepVoting info (initNewReplicaSet info)), toAddVote := (sortStrings (keysOf info.machines)).filter (pAddVote info (initNewReplicaSet info)), toRemoveVote := ((sortStrings (keysOf info.machines)).filter (pRemoveVote info (initNewReplicaSet info))).filter (fun id => !isPrimaryMember info id), toKeepNonVoting := (sortStrings (keysOf info.machines)).filter (pKeepNonVoting info (initNewReplicaSet info)), toKeepCreateNonVotingMember := (sortStrings (keysOf info.machines)).filter (pKeepCreate info (initNewReplicaSet info)) } rfl rfl rfl rfl hmnd hrnd hRM hSR
    (fun id hid => absurd (hadd ▸ (show id ∈ (sortStrings (keysOf info.machines)).filter (pAddVote info (initNewReplicaSet info)) from hid))
      (List.not_mem_nil id))]
  have hpw : ∀ x ∈ (sortStrings (keysOf info.machines)),
      (!(decide (x ∈ ({ emptyChanges with isChanged := b, addrs := A, members := initNewReplicaSet info, toKeepVoting := (sortStrings (keysOf info.machines)).filter (pKeepVoting info (initNewReplicaSet info)), toAddVote := (sortStrings (keysOf info.machines)).filter (pAddVote info (initNewReplicaSet info)), toRemoveVote := ((sortStrings (keysOf info.machines)).filter (pRemoveVote info (initNewReplicaSet info))).filter (fun id => !isPrimaryMember info id), toKeepNonVoting := (sortStrings (keysOf info.machines)).filter (pKeepNonVoting info (initNewReplicaSet info)), toKeepCreateNonVotingMember := (sortStrings (keysOf info.machines)).filter (pKeepCreate info (initNewReplicaSet info)) } : peerGroupChanges).toKeepCreateNonVotingMember) ||
          decide (x ∈ ({ emptyChanges with isChanged := b, addrs := A, members := initNewReplicaSet info, toKeepVoting := (sortStrings (keysOf info.machines)).filter (pKeepVoting info (initNewReplicaSet info)), toAddVote := (sortStrings (keysOf info.machines)).filter (pAddVote info (initNewReplicaSet info)), toRemoveVote := ((sortStrings (keysOf info.machines)).filter (pRemoveVote info (initNewReplicaSet info))).filter (fun id => !isPrimaryMember info id), toKeepNonVoting := (sortStrings (keysOf info.machines)).filter (pKeepNonVoting info (initNewReplicaSet info)), toKeepCreateNonVotingMember := (sortStrings (keysOf info.machines)).filter (pKeepCreate info (initNewReplicaSet info)) } : peerGroupChanges).toRemoveVote)) &&
        (decide (x ∈ ({ emptyChanges with isChanged := b, addrs := A, members := initNewReplicaSet info, toKeepVoting := (sortStrings (keysOf info.machines)).filter (pKeepVoting info (initNewReplicaSet info)), toAddVote := (sortStrings (keysOf info.machines)).filter (pAddVote info (initNewReplicaSet info)), toRemoveVote := ((sortStrings (keysOf info.machines)).filter (pRemoveVote info (initNewReplicaSet info))).filter (fun id => !isPrimaryMember info id), toKeepNonVoting := (sortStrings (keysOf info.machines)).filter (pKeepNonVoting info (initNewReplicaSet info)), toKeepCreateNonVotingMember := (sortStrings (keysOf info.machines)).filter (pKeepCreate info (initNewReplicaSet info)) } : peerGroupChanges).toAddVote) ||
          lookupVoting (initNewReplicaSet info) x)) = true ↔
      (pRemoveVote info (initNewReplicaSet info) x &&
        isPrimaryMember info x) = true := by
    intro x hxL
    have hkvF : pKeepVoting info (initNewReplicaSet info) x = false := by
      cases hkk : pKeepVoting info (initNewReplicaSet info) x with
      | false => rfl
      | true =>
        exact absurd (List.mem_filter.mpr ⟨hxL, hkk⟩)
          (by rw [hKVnil]; exact List.not_mem_nil x)
    have hmemRM : decide (x ∈ ((sortStrings (keysOf info.machines)).filter (pRemoveVote info (initNewReplicaSet info))).filter (fun id => !isPrimaryMember info id)) =
        (!isPrimaryMember info x &&
          pRemoveVote info (initNewReplicaSet info) x) := by
      by_cases h1 : pRemoveVote info (initNewReplicaSet info) x = true <;>
        by_cases h2 : isPrimaryMember info x = true <;>
          simp [List.mem_filter, h1, h2, hxL]
    rw [show ({ emptyChanges with isChanged := b, addrs := A, members := initNewReplicaSet info, toKeepVoting := (sortStrings (keysOf info.machines)).filter (pKeepVoting info (initNewReplicaSet info)), toAddVote := (sortStrings (keysOf info.machines)).filter (pAddVote info (initNewReplicaSet info)), toRemoveVote := ((sortStrings (keysOf info.machines)).filter (pRemoveVote info (initNewReplicaSet info))).filter (fun id => !isPrimaryMember info id), toKeepNonVoting := (sortStrings (keysOf info.machines)).filter (pKeepNonVoting info (initNewReplicaSet info)), toKeepCreateNonVotingMember := (sortStrings (keysOf info.machines)).filter (pKeepCreate info (initNewReplicaSet info)) } : peerGroupChanges).toKeepCreateNonVotingMember = (sortStrings (keysOf info.machines)).filter (pKeepCreate info (initNewReplicaSet info)) from rfl,
      show ({ emptyChanges with isChanged := b, addrs := A, members := initNewReplicaSet info, toKeepVoting := (sortStrings (keysOf info.machines)).filter (pKeepVoting info (initNewReplicaSet info)), toAddVote := (sortStrings (keysOf info.machines)).filter (pAddVote info (initNewReplicaSet info)), toRemoveVote := ((sortStrings (keysOf info.machines)).filter (pRemoveVote info (initNewReplicaSet info))).filter (fun id => !isPrimaryMember info id), toKeepNonVoting := (sortStrings (keysOf info.machines)).filter (pKeepNonVoting info (initNewReplicaSet info)), toKeepCreateNonVotingMember := (sortStrings (keysOf info.machines)).filter (pKeepCreate info (initNewReplicaSet info)) } : peerGroupChanges).toRemoveVote =
        ((sortStrings (keysOf info.machines)).filter (pRemoveVote info (initNewReplicaSet info))).filter (fun id => !isPrimaryMember info id) from rfl,
      show ({ emptyChanges with isChanged := b, addrs := A, members := initNewReplicaSet info, toKeepVoting := (sortStrings (keysOf info.machines)).filter (pKeepVoting info (initNewReplicaSet info)), toAddVote := (sortStrings (keysOf info.machines)).filter (pAddVote info (initNewReplicaSet info)), toRemoveVote := ((sortStrings (keysOf info.machines)).filter (pRemoveVote info (initNewReplicaSet info))).filter (fun id => !isPrimaryMember info id), toKeepNonVoting := (sortStrings (keysOf info.machines)).filter (pKeepNonVoting info (initNewReplicaSet info)), toKeepCreateNonVotingMember := (sortStrings (keysOf info.machines)).filter (pKeepCreate info (initNewReplicaSet info)) } : peerGroupChanges).toAddVote = (sortStrings (keysOf info.machines)).filter (pAddVote info (initNewReplicaSet info)) from rfl, hadd,
      show decide (x ∈ ([] : List String)) = false from
        decide_eq_false (List.not_mem_nil x),
      hmemRM, mem_filter_decide _ _ _ hxL,
      ← pKV_or_pRM_eq info (initNewReplicaSet info) x (mem_L_isSome info x hxL)]
    rw [hboolC (pKeepVoting info (initNewReplicaSet info) x)
      (pRemoveVote info (initNewReplicaSet info) x)
      (pKeepCreate info (initNewReplicaSet info) x)
      (isPrimaryMember info x) hkvF (mutex_RM_CR info (initNewReplicaSet info) x)]
  rw [List.countP_congr hpw,
    ← List.countP_eq_length_filter, List.countP_filter]
  apply List.countP_congr
  intro x hx
  rw [Bool.and_comm]

set_option maxHeartbeats 4000000 in
theorem countB4 (info : peerGroupInfo) (b : Bool) (A : List (String × String))
    (hmnd : (keysOf info.machines).Nodup)
    (hrnd : (keysOf (initNewReplicaSet info)).Nodup)
    (hRM : ∀ id, (alookup (initNewReplicaSet info) id).isSome = true →
      (alookup info.machines id).isSome = true)
    (hSR : ∀ id, (alookup info.machines id).isSome = true →
      (alookup info.statuses id).isSome = true →
      (alookup (initNewReplicaSet info) id).isSome = true)
    (heven : ¬((currentVoterCount (initNewReplicaSet info) : Int) -
      ((sortStrings (keysOf info.machines)).filter (pRemoveVote info (initNewReplicaSet info))).length + ((sortStrings (keysOf info.machines)).filter (pAddVote info (initNewReplicaSet info))).length).tmod 2 = 1)
    (hadd : ((sortStrings (keysOf info.machines)).filter (pAddVote info (initNewReplicaSet info))) = [])
    (hkne : ¬(currentVoterCount (initNewReplicaSet info) : Int) -
      ((sortStrings (keysOf info.machines)).filter (pRemoveVote info (initNewReplicaSet info))).length = 0)
    (y : String) (rest : List String)
    (hrfp : removeFirstNonPrimary info ((sortStrings (keysOf info.machines)).filter (pKeepVoting info (initNewReplicaSet info))) = some (y, rest)) :
    countTrue ((coreChanges info
        { emptyChanges with isChanged := b, addrs := A }).1.machineVoting) =
      ((sortStrings (keysOf info.machines)).filter (pKeepVoting info (initNewReplicaSet info))).length - 1 := by
  have hLnd : (sortStrings (keysOf info.machines)).Nodup :=
    ((sortStrings_perm (keysOf info.machines)).nodup_iff).mpr hmnd
  have hstage := coreStage info b A
  have hyrest := removeFirstNonPrimary_some info ((sortStrings (keysOf info.machines)).filter (pKeepVoting info (initNewReplicaSet info))) y rest hrfp
  have hyKV : y ∈ ((sortStrings (keysOf info.machines)).filter (pKeepVoting info (initNewReplicaSet info))) := (hyrest.2.mem_iff).mpr (List.mem_cons_self y rest)
  have hyL : y ∈ (sortStrings (keysOf info.machines)) := List.mem_of_mem_filter hyKV
  have hpKVy : pKeepVoting info (initNewReplicaSet info) y = true :=
    List.of_mem_filter hyKV
  have hrev2 : reviewPeerGroupChanges info { emptyChanges with isChanged := b, addrs := A, members := initNewReplicaSet info, toKeepVoting := (sortStrings (keysOf info.machines)).filter (pKeepVoting info (initNewReplicaSet info)), toAddVote := (sortStrings (keysOf info.machines)).filter (pAddVote info (initNewReplicaSet info)), toRemoveVote := (sortStrings (keysOf info.machines)).filter (pRemoveVote info (initNewReplicaSet info)), toKeepNonVoting := (sortStrings (keysOf info.machines)).filter (pKeepNonVoting info (initNewReplicaSet info)), toKeepCreateNonVotingMember := (sortStrings (keysOf info.machines)).filter (pKeepCreate info (initNewReplicaSet info)) } = { emptyChanges with isChanged := b, addrs := A, members := initNewReplicaSet info, toKeepVoting := rest, toAddVote := (sortStrings (keysOf info.machines)).filter (pAddVote info (initNewReplicaSet info)), toRemoveVote := ((sortStrings (keysOf info.machines)).filter (pRemoveVote info (initNewReplicaSet info))) ++ [y], toKeepNonVoting := (sortStrings (keysOf info.machines)).filter (pKeepNonVoting info (initNewReplicaSet info)), toKeepCreateNonVotingMember := (sortStrings (keysOf info.machines)).filter (pKeepCreate info (initNewReplicaSet info)) } := by
    rw [review_kept_pos_found info { emptyChanges with isChanged := b, addrs := A, members := initNewReplicaSet info, toKeepVoting := (sortStrings (keysOf info.machines)).filter (pKeepVoting info (initNewReplicaSet info)), toAddVote := (sortStrings (keysOf info.machines)).filter (pAddVote info (initNewReplicaSet info)), toRemoveVote := (sortStrings (keysOf info.machines)).filter (pRemoveVote info (initNewReplicaSet info)), toKeepNonVoting := (sortStrings (keysOf info.machines)).filter (pKeepNonVoting info (initNewReplicaSet info)), toKeepCreateNonVotingMember := (sortStrings (keysOf info.machines)).filter (pKeepCreate info (initNewReplicaSet info)) } heven hadd hkne y rest hrfp]
  rw [hstage, hrev2, countV info { emptyChanges with isChanged := b, addrs := A, members := initNewReplicaSet info, toKeepVoting := rest, toAddVote := (sortStrings (keysOf info.machines)).filter (pAddVote info (initNewReplicaSet info)), toRemoveVote := ((sortStrings (keysOf info.machines)).filter (pRemoveVote info (initNewReplicaSet info))) ++ [y], toKeepNonVoting := (sortStrings (keysOf info.machines)).filter (pKeepNonVoting info (initNewReplicaSet info)), toKeepCreateNonVotingMember := (sortStrings (keysOf info.machines)).filter (pKeepCreate info (initNewReplicaSet info)) } rfl rfl rfl rfl hmnd hrnd hRM hSR
    (fun id hid => absurd (hadd ▸ (show id ∈ (sortStrings (keysOf info.machines)).filter (pAddVote info (initNewReplicaSet info)) from hid))
      (List.not_mem_nil id))]
  have hpw : ∀ x ∈ (sortStrings (keysOf info.machines)),
      (!(decide (x ∈ ({ emptyChanges with isChanged := b, addrs := A, members := initNewReplicaSet info, toKeepVoting := rest, toAddVote := (sortStrings (keysOf info.machines)).filter (pAddVote info (initNewReplicaSet info)), toRemoveVote := ((sortStrings (keysOf info.machines)).filter (pRemoveVote info (initNewReplicaSet info))) ++ [y], toKeepNonVoting := (sortStrings (keysOf info.machines)).filter (pKeepNonVoting info (initNewReplicaSet info)), toKeepCreateNonVotingMember := (sortStrings (keysOf info.machines)).filter (pKeepCreate info (initNewReplicaSet info)) } : peerGroupChanges).toKeepCreateNonVotingMember) ||
          decide (x ∈ ({ emptyChanges with isChanged := b, addrs := A, members := initNewReplicaSet info, toKeepVoting := rest, toAddVote := (sortStrings (keysOf info.machines)).filter (pAddVote info (initNewReplicaSet info)), toRemoveVote := ((sortStrings (keysOf info.machines)).filter (pRemoveVote info (initNewReplicaSet info))) ++ [y], toKeepNonVoting := (sortStrings (keysOf info.machines)).filter (pKeepNonVoting info (initNewReplicaSet info)), toKeepCreateNonVotingMember := (sortStrings (keysOf info.machines)).filter (pKeepCreate info (initNewReplicaSet info)) } : peerGroupChanges).toRemoveVote)) &&
        (decide (x ∈ ({ emptyChanges with isChanged := b, addrs := A, members := initNewReplicaSet info, toKeepVoting := rest, toAddVote := (sortStrings (keysOf info.machines)).filter (pAddVote info (initNewReplicaSet info)), toRemoveVote := ((sortStrings (keysOf info.machines)).filter (pRemoveVote info (initNewReplicaSet info))) ++ [y], toKeepNonVoting := (sortStrings (keysOf info.machines)).filter (pKeepNonVoting info (initNewReplicaSet info)), toKeepCreateNonVotingMember := (sortStrings (keysOf info.machines)).filter (pKeepCreate info (initNewReplicaSet info)) } : peerGroupChanges).toAddVote) ||
          lookupVoting (initNewReplicaSet info) x)) = true ↔
      (pKeepVoting info (initNewReplicaSet info) x && !(decide (x = y))) = true := by
    intro x hxL
    rw [show ({ emptyChanges with isChanged := b, addrs := A, members := initNewReplicaSet info, toKeepVoting := rest, toAddVote := (sortStrings (keysOf info.machines)).filter (pAddVote info (initNewReplicaSet info)), toRemoveVote := ((sortStrings (keysOf info.machines)).filter (pRemoveVote info (initNewReplicaSet info))) ++ [y], toKeepNonVoting := (sortStrings (keysOf info.machines)).filter (pKeepNonVoting info (initNewReplicaSet info)), toKeepCreateNonVotingMember := (sortStrings (keysOf info.machines)).filter (pKeepCreate info (initNewReplicaSet info)) } : peerGroupChanges).toKeepCreateNonVotingMember = (sortStrings (keysOf info.machines)).filter (pKeepCreate info (initNewReplicaSet info)) from rfl,
      show ({ emptyChanges with isChanged := b, addrs := A, members := initNewReplicaSet info, toKeepVoting := rest, toAddVote := (sortStrings (keysOf info.machines)).filter (pAddVote info (initNewReplicaSet info)), toRemoveVote := ((sortStrings (keysOf info.machines)).filter (pRemoveVote info (initNewReplicaSet info))) ++ [y], toKeepNonVoting := (sortStrings (keysOf info.machines)).filter (pKeepNonVoting info (initNewReplicaSet info)), toKeepCreateNonVotingMember := (sortStrings (keysOf info.machines)).filter (pKeepCreate info (initNewReplicaSet info)) } : peerGroupChanges).toRemoveVote = ((sortStrings (keysOf info.machines)).filter (pRemoveVote info (initNewReplicaSet info))) ++ [y] from rfl,
      show ({ emptyChanges with isChanged := b, addrs := A, members := initNewReplicaSet info, toKeepVoting := rest, toAddVote := (sortStrings (keysOf info.machines)).filter (pAddVote info (initNewReplicaSet info)), toRemoveVote := ((sortStrings (keysOf info.machines)).filter (pRemoveVote info (initNewReplicaSet info))) ++ [y], toKeepNonVoting := (sortStrings (keysOf info.machines)).filter (pKeepNonVoting info (initNewReplicaSet info)), toKeepCreateNonVotingMember := (sortStrings (keysOf info.machines)).filter (pKeepCreate info (initNewReplicaSet info)) } : peerGroupChanges).toAddVote = (sortStrings (keysOf info.machines)).filter (pAddVote info (initNewReplicaSet info)) from rfl, hadd,
      show decide (x ∈ ([] : List String)) = false from
        decide_eq_false (List.not_mem_nil x),
      show decide (x ∈ ((sortStrings (keysOf info.machines)).filter (pRemoveVote info (initNewReplicaSet info))) ++ [y]) =
          (decide (x ∈ ((sortStrings (keysOf info.machines)).filter (pRemoveVote info (initNewReplicaSet info)))) || decide (x = y)) from by
        by_cases h1 : x ∈ ((sortStrings (keysOf info.machines)).filter (pRemoveVote info (initNewReplicaSet info))) <;> by_cases h2 : x = y <;>
          simp [List.mem_append, h1, h2],
      mem_filter_decide _ _ _ hxL, mem_filter_decide _ _ _ hxL,
      ← pKV_or_pRM_eq info (initNewReplicaSet info) x (mem_L_isSome info x hxL)]
    rw [hboolD (pKeepVoting info (initNewReplicaSet info) x)
      (pRemoveVote info (initNewReplicaSet info) x)
      (pKeepCreate info (initNewReplicaSet info) x)
      (decide (x = y))
      (fun h => by rw [of_decide_eq_true h]; exact hpKVy)
      (mutex_KV_RM info (initNewReplicaSet info) x) (mutex_KV_CR info (initNewReplicaSet info) x) (mutex_RM_CR info (initNewReplicaSet info) x)]
  rw [List.countP_congr hpw]
  have hsplit : (sortStrings (keysOf info.machines)).countP (pKeepVoting info (initNewReplicaSet info)) =
      (sortStrings (keysOf info.machines)).countP (fun x => pKeepVoting info (initNewReplicaSet info) x &&
        !(decide (x = y))) +
      (sortStrings (keysOf info.machines)).countP (fun x => pKeepVoting info (initNewReplicaSet info) x &&
        decide (x = y)) := by
    rw [← countP_or_disjoint _ _ _ (fun x _ => fun hc => by
      obtain ⟨h1, h2⟩ := hc
      rw [Bool.and_eq_true] at h1 h2
      rw [h2.2] at h1
      simp at h1)]
    apply List.countP_congr
    intro x hx
    rw [← hboolSplit (pKeepVoting info (initNewReplicaSet info) x) (decide (x = y))]
  have hone : (sortStrings (keysOf info.machines)).countP (fun x => pKeepVoting info (initNewReplicaSet info) x &&
      decide (x = y)) = 1 := by
    have hpw2 : ∀ x ∈ (sortStrings (keysOf info.machines)),
        (pKeepVoting info (initNewReplicaSet info) x && decide (x = y)) = true ↔
        (decide (x = y)) = true := by
      intro x hx
      constructor
      · intro h
        rw [Bool.and_eq_true] at h
        exact h.2
      · intro h
        rw [Bool.and_eq_true]
        refine ⟨?_, h⟩
        rw [of_decide_eq_true h]
        exact hpKVy
    rw [List.countP_congr hpw2, countP_eq_single (sortStrings (keysOf info.machines)) y hLnd hyL]
  have hkv : (sortStrings (keysOf info.machines)).countP (pKeepVoting info (initNewReplicaSet info)) =
      ((sortStrings (keysOf info.machines)).filter (pKeepVoting info (initNewReplicaSet info))).length := by
    rw [List.countP_eq_length_filter]
  omega

set_option maxHeartbeats 4000000 in
theorem countB5 (info : peerGroupInfo) (b : Bool) (A : List (String × String))
    (hmnd : (keysOf info.machines).Nodup)
    (hrnd : (keysOf (initNewReplicaSet info)).Nodup)
    (hRM : ∀ id, (alookup (initNewReplicaSet info) id).isSome = true →
      (alookup info.machines id).isSome = true)
    (hSR : ∀ id, (alookup info.machines id).isSome = true →
      (alookup info.statuses id).isSome = true →
      (alookup (initNewReplicaSet info) id).isSome = true)
    (heven : ¬((currentVoterCount (initNewReplicaSet info) : Int) -
      ((sortStrings (keysOf info.machines)).filter (pRemoveVote info (initNewReplicaSet info))).length + ((sortStrings (keysOf info.machines)).filter (pAddVote info (initNewReplicaSet info))).length).tmod 2 = 1)
    (hadd : ((sortStrings (keysOf info.machines)).filter (pAddVote info (initNewReplicaSet info))) = [])
    (hkne : ¬(currentVoterCount (initNewReplicaSet info) : Int) -
      ((sortStrings (keysOf info.machines)).filter (pRemoveVote info (initNewReplicaSet info))).length = 0)
    (hrfn : removeFirstNonPrimary info ((sortStrings (keysOf info.machines)).filter (pKeepVoting info (initNewReplicaSet info))) = none) :
    countTrue ((coreChanges info
        { emptyChanges with isChanged := b, addrs := A }).1.machineVoting) =
      ((sortStrings (keysOf info.machines)).filter (pKeepVoting info (initNewReplicaSet info))).length := by
  have hLnd : (sortStrings (keysOf info.machines)).Nodup :=
    ((sortStrings_perm (keysOf info.machines)).nodup_iff).mpr hmnd
  have hstage := coreStage info b A
  have hrev2 : reviewPeerGroupChanges info { emptyChanges with isChanged := b, addrs := A, members := initNewReplicaSet info, toKeepVoting := (sortStrings (keysOf info.machines)).filter (pKeepVoting info (initNewReplicaSet info)), toAddVote := (sortStrings (keysOf info.machines)).filter (pAddVote info (initNewReplicaSet info)), toRemoveVote := (sortStrings (keysOf info.machines)).filter (pRemoveVote info (initNewReplicaSet info)), toKeepNonVoting := (sortStrings (keysOf info.machines)).filter (pKeepNonVoting info (initNewReplicaSet info)), toKeepCreateNonVotingMember := (sortStrings (keysOf info.machines)).filter (pKeepCreate info (initNewReplicaSet info)) } = { emptyChanges with isChanged := b, addrs := A, members := initNewReplicaSet info, toKeepVoting := (sortStrings (keysOf info.machines)).filter (pKeepVoting info (initNewReplicaSet info)), toAddVote := (sortStrings (keysOf info.machines)).filter (pAddVote info (initNewReplicaSet info)), toRemoveVote := (sortStrings (keysOf info.machines)).filter (pRemoveVote info (initNewReplicaSet info)), toKeepNonVoting := (sortStrings (keysOf info.machines)).filter (pKeepNonVoting info (initNewReplicaSet info)), toKeepCreateNonVotingMember := (sortStrings (keysOf info.machines)).filter (pKeepCreate info (initNewReplicaSet info)) } :=
    review_kept_pos_none info { emptyChanges with isChanged := b, addrs := A, members := initNewReplicaSet info, toKeepVoting := (sortStrings (keysOf info.machines)).filter (pKeepVoting info (initNewReplicaSet info)), toAddVote := (sortStrings (keysOf info.machines)).filter (pAddVote info (initNewReplicaSet info)), toRemoveVote := (sortStrings (keysOf info.machines)).filter (pRemoveVote info (initNewReplicaSet info)), toKeepNonVoting := (sortStrings (keysOf info.machines)).filter (pKeepNonVoting info (initNewReplicaSet info)), toKeepCreateNonVotingMember := (sortStrings (keysOf info.machines)).filter (pKeepCreate info (initNewReplicaSet info)) } heven hadd hkne hrfn
  rw [hstage, hrev2, countV info { emptyChanges with isChanged := b, addrs := A, members := initNewReplicaSet info, toKeepVoting := (sortStrings (keysOf info.machines)).filter (pKeepVoting info (initNewReplicaSet info)), toAddVote := (sortStrings (keysOf info.machines)).filter (pAddVote info (initNewReplicaSet info)), toRemoveVote := (sortStrings (keysOf info.machines)).filter (pRemoveVote info (initNewReplicaSet info)), toKeepNonVoting := (sortStrings (keysOf info.machines)).filter (pKeepNonVoting info (initNewReplicaSet info)), toKeepCreateNonVotingMember := (sortStrings (keysOf info.machines)).filter (pKeepCreate info (initNewReplicaSet info)) } rfl rfl rfl rfl hmnd hrnd hRM hSR
    (fun id hid => absurd (hadd ▸ (show id ∈ (sortStrings (keysOf info.machines)).filter (pAddVote info (initNewReplicaSet info)) from hid))
      (List.not_mem_nil id))]
  have hpw : ∀ x ∈ (sortStrings (keysOf info.machines)),
      (!(decide (x ∈ ({ emptyChanges with isChanged := b, addrs := A, members := initNewReplicaSet info, toKeepVoting := (sortStrings (keysOf info.machines)).filter (pKeepVoting info (initNewReplicaSet info)), toAddVote := (sortStrings (keysOf info.machines)).filter (pAddVote info (initNewReplicaSet info)), toRemoveVote := (sortStrings (keysOf info.machines)).filter (pRemoveVote info (initNewReplicaSet info)), toKeepNonVoting := (sortStrings (keysOf info.machines)).filter (pKeepNonVoting info (initNewReplicaSet info)), toKeepCreateNonVotingMember := (sortStrings (keysOf info.machines)).filter (pKeepCreate info (initNewReplicaSet info)) } : peerGroupChanges).toKeepCreateNonVotingMember) ||
          decide (x ∈ ({ emptyChanges with isChanged := b, addrs := A, members := initNewReplicaSet info, toKeepVoting := (sortStrings (keysOf info.machines)).filter (pKeepVoting info (initNewReplicaSet info)), toAddVote := (sortStrings (keysOf info.machines)).filter (pAddVote info (initNewReplicaSet info)), toRemoveVote := (sortStrings (keysOf info.machines)).filter (pRemoveVote info (initNewReplicaSet info)), toKeepNonVoting := (sortStrings (keysOf info.machines)).filter (pKeepNonVoting info (initNewReplicaSet info)), toKeepCreateNonVotingMember := (sortStrings (keysOf info.machines)).filter (pKeepCreate info (initNewReplicaSet info)) } : peerGroupChanges).toRemoveVote)) &&
        (decide (x ∈ ({ emptyChanges with isChanged := b, addrs := A, members := initNewReplicaSet info, toKeepVoting := (sortStrings (keysOf info.machines)).filter (pKeepVoting info (initNewReplicaSet info)), toAddVote := (sortStrings (keysOf info.machines)).filter (pAddVote info (initNewReplicaSet info)), toRemoveVote := (sortStrings (keysOf info.machines)).filter (pRemoveVote info (initNewReplicaSet info)), toKeepNonVoting := (sortStrings (keysOf info.machines)).filter (pKeepNonVoting info (initNewReplicaSet info)), toKeepCreateNonVotingMember := (sortStrings (keysOf info.machines)).filter (pKeepCreate info (initNewReplicaSet info)) } : peerGroupChanges).toAddVote) ||
          lookupVoting (initNewReplicaSet info) x)) = true ↔
      (pKeepVoting info (initNewReplicaSet info) x) = true := by
    intro x hxL
    rw [show ({ emptyChanges with isChanged := b, addrs := A, members := initNewReplicaSet info, toKeepVoting := (sortStrings (keysOf info.machines)).filter (pKeepVoting info (initNewReplicaSet info)), toAddVote := (sortStrings (keysOf info.machines)).filter (pAddVote info (initNewReplicaSet info)), toRemoveVote := (sortStrings (keysOf info.machines)).filter (pRemoveVote info (initNewReplicaSet info)), toKeepNonVoting := (sortStrings (keysOf info.machines)).filter (pKeepNonVoting info (initNewReplicaSet info)), toKeepCreateNonVotingMember := (sortStrings (keysOf info.machines)).filter (pKeepCreate info (initNewReplicaSet info)) } : peerGroupChanges).toKeepCreateNonVotingMember = (sortStrings (keysOf info.machines)).filter (pKeepCreate info (initNewReplicaSet info)) from rfl,
      show ({ emptyChanges with isChanged := b, addrs := A, members := initNewReplicaSet info, toKeepVoting := (sortStrings (keysOf info.machines)).filter (pKeepVoting info (initNewReplicaSet info)), toAddVote := (sortStrings (keysOf info.machines)).filter (pAddVote info (initNewReplicaSet info)), toRemoveVote := (sortStrings (keysOf info.machines)).filter (pRemoveVote info (initNewReplicaSet info)), toKeepNonVoting := (sortStrings (keysOf info.machines)).filter (pKeepNonVoting info (initNewReplicaSet info)), toKeepCreateNonVotingMember := (sortStrings (keysOf info.machines)).filter (pKeepCreate info (initNewReplicaSet info)) } : peerGroupChanges).toRemoveVote = (sortStrings (keysOf info.machines)).filter (pRemoveVote info (initNewReplicaSet info)) from rfl,
      show ({ emptyChanges with isChanged := b, addrs := A, members := initNewReplicaSet info, toKeepVoting := (sortStrings (keysOf info.machines)).filter (pKeepVoting info (initNewReplicaSet info)), toAddVote := (sortStrings (keysOf info.machines)).filter (pAddVote info (initNewReplicaSet info)), toRemoveVote := (sortStrings (keysOf info.machines)).filter (pRemoveVote info (initNewReplicaSet info)), toKeepNonVoting := (sortStrings (keysOf info.machines)).filter (pKeepNonVoting info (initNewReplicaSet info)), toKeepCreateNonVotingMember := (sortStrings (keysOf info.machines)).filter (pKeepCreate info (initNewReplicaSet info)) } : peerGroupChanges).toAddVote = (sortStrings (keysOf info.machines)).filter (pAddVote info (initNewReplicaSet info)) from rfl, hadd,
      show decide (x ∈ ([] : List String)) = false from
        decide_eq_false (List.not_mem_nil x),
      mem_filter_decide _ _ _ hxL, mem_filter_decide _ _ _ hxL,
      ← pKV_or_pRM_eq info (initNewReplicaSet info) x (mem_L_isSome info x hxL)]
    rw [hboolE (pKeepVoting info (initNewReplicaSet info) x)
      (pRemoveVote info (initNewReplicaSet info) x)
      (pKeepCreate info (initNewReplicaSet info) x)
      (mutex_KV_RM info (initNewReplicaSet info) x) (mutex_KV_CR info (initNewReplicaSet info) x) (mutex_RM_CR info (initNewReplicaSet info) x)]
  rw [List.countP_congr hpw, List.countP_eq_length_filter]

/-- The voter count that `desiredPeerGroup`'s core leaves in the voting map
is odd, except in the two wind-down escapes of the quorum adjuster: no kept
voters (only removals of the primary survive), or every kept voter is the
primary. -/
theorem finalCount (info : peerGroupInfo) (b : Bool) (A : List (String × String))
    (hmnd : (keysOf info.machines).Nodup)
    (hrnd : (keysOf (initNewReplicaSet info)).Nodup)
    (hRM : ∀ id, (alookup (initNewReplicaSet info) id).isSome = true →
      (alookup info.machines id).isSome = true)
    (hSR : ∀ id, (alookup info.machines id).isSome = true →
      (alookup info.statuses id).isSome = true →
      (alookup (initNewReplicaSet info) id).isSome = true) :
    countTrue ((coreChanges info
        { emptyChanges with isChanged := b, addrs := A }).1.machineVoting) % 2 = 1 ∨
    ((classifiedChanges info).toKeepVoting = [] ∧
      countTrue ((coreChanges info
        { emptyChanges with isChanged := b, addrs := A }).1.machineVoting) =
        ((classifiedChanges info).toRemoveVote.filter
          (fun id => isPrimaryMember info id)).length) ∨
    ((classifiedChanges info).toKeepVoting ≠ [] ∧
      (∀ id ∈ (classifiedChanges info).toKeepVoting,
        isPrimaryMember info id = true) ∧
      countTrue ((coreChanges info
        { emptyChanges with isChanged := b, addrs := A }).1.machineVoting) =
        (classifiedChanges info).toKeepVoting.length) := by
  have hpart := voterCount_partition info hmnd hrnd hRM
  have harith : ((currentVoterCount (initNewReplicaSet info) : Int) -
      ((sortStrings (keysOf info.machines)).filter (pRemoveVote info (initNewReplicaSet info))).length + ((sortStrings (keysOf info.machines)).filter (pAddVote info (initNewReplicaSet info))).length) =
      ((((sortStrings (keysOf info.machines)).filter (pAddVote info (initNewReplicaSet info))).length + ((sortStrings (keysOf info.machines)).filter (pKeepVoting info (initNewReplicaSet info))).length : Nat) : Int) := by
    rw [hpart]
    push_cast
    ring
  by_cases hodd : ((currentVoterCount (initNewReplicaSet info) : Int) -
      ((sortStrings (keysOf info.machines)).filter (pRemoveVote info (initNewReplicaSet info))).length + ((sortStrings (keysOf info.machines)).filter (pAddVote info (initNewReplicaSet info))).length).tmod 2 = 1
  · left
    rw [countB1 info b A hmnd hrnd hRM hSR hodd]
    rw [harith] at hodd
    exact (nat_tmod2 _).mp hodd
  · have hodd2 : ¬(((sortStrings (keysOf info.machines)).filter (pAddVote info (initNewReplicaSet info))).length + ((sortStrings (keysOf info.machines)).filter (pKeepVoting info (initNewReplicaSet info))).length) % 2 = 1 := by
      rw [harith] at hodd
      exact fun hc => hodd ((nat_tmod2 _).mpr hc)
    by_cases hadd : ((sortStrings (keysOf info.machines)).filter (pAddVote info (initNewReplicaSet info))) = []
    · by_cases hk0 : (currentVoterCount (initNewReplicaSet info) : Int) - ((sortStrings (keysOf info.machines)).filter (pRemoveVote info (initNewReplicaSet info))).length = 0
      · right
        left
        constructor
        · rw [classified_KV]
          apply List.length_eq_zero.mp
          have h2 := hk0
          rw [hpart] at h2
          push_cast at h2
          omega
        · rw [classified_RM, countB3 info b A hmnd hrnd hRM hSR hodd hadd hk0]
      · cases hrfp : removeFirstNonPrimary info ((sortStrings (keysOf info.machines)).filter (pKeepVoting info (initNewReplicaSet info))) with
        | some q =>
          left
          obtain ⟨y, rest⟩ := q
          rw [countB4 info b A hmnd hrnd hRM hSR hodd hadd hk0 y rest hrfp]
          have hlen0 : ((sortStrings (keysOf info.machines)).filter (pAddVote info (initNewReplicaSet info))).length = 0 := by
            rw [hadd]
            rfl
          have hkpos : ((sortStrings (keysOf info.machines)).filter (pKeepVoting info (initNewReplicaSet info))).length ≠ 0 := by
            intro hc
            apply hk0
            rw [hpart, hc]
            push_cast
            ring
          omega
        | none =>
          right
          right
          refine ⟨?_, ?_, ?_⟩
          · rw [classified_KV]
            intro hc
            apply hk0
            rw [hpart, hc]
            simp
          · rw [classified_KV]
            exact removeFirstNonPrimary_none info ((sortStrings (keysOf info.machines)).filter (pKeepVoting info (initNewReplicaSet info))) hrfp
          · rw [classified_KV,
              countB5 info b A hmnd hrnd hRM hSR hodd hadd hk0 hrfp]
    · left
      rw [countB2 info b A hmnd hrnd hRM hSR hodd hadd]
      have hapos : ((sortStrings (keysOf info.machines)).filter (pAddVote info (initNewReplicaSet info))).length ≠ 0 := fun hc => hadd (List.length_eq_zero.mp hc)
      have hdl : (((sortStrings (keysOf info.machines)).filter (pAddVote info (initNewReplicaSet info))).dropLast).length = ((sortStrings (keysOf info.machines)).filter (pAddVote info (initNewReplicaSet info))).length - 1 := by
        rw [List.length_dropLast]
      omega

theorem setVotingStep_frame (b c : Bool) (p : peerGroupChanges)
    (A : List (String × String)) (id : String) :
    setVotingStep b { p with isChanged := c, addrs := A } id =
      { isChanged := c, toRemoveVote := (setVotingStep b p id).toRemoveVote, toAddVote := (setVotingStep b p id).toAddVote, toKeepVoting := (setVotingStep b p id).toKeepVoting, toKeepNonVoting := (setVotingStep b p id).toKeepNonVoting, toKeepCreateNonVotingMember := (setVotingStep b p id).toKeepCreateNonVotingMember, machineVoting := (setVotingStep b p id).machineVoting, addrs := A, members := (setVotingStep b p id).members } := by
  unfold setVotingStep
  show (match alookup p.members id with
    | some m => { p with isChanged := c, addrs := A, members := aset p.members id (setMemberVoting m b), machineVoting := aset p.machineVoting id b }
    | none => ({ p with isChanged := c, addrs := A } : peerGroupChanges)) = _
  cases hl : alookup p.members id with
  | none => rfl
  | some m => rfl

theorem setVoting_frame (ids : List String) (p : peerGroupChanges) (b c : Bool)
    (A : List (String × String)) :
    setVoting { p with isChanged := c, addrs := A } ids b =
      { isChanged := c, toRemoveVote := (setVoting p ids b).toRemoveVote, toAddVote := (setVoting p ids b).toAddVote, toKeepVoting := (setVoting p ids b).toKeepVoting, toKeepNonVoting := (setVoting p ids b).toKeepNonVoting, toKeepCreateNonVotingMember := (setVoting p ids b).toKeepCreateNonVotingMember, machineVoting := (setVoting p ids b).machineVoting, addrs := A, members := (setVoting p ids b).members } := by
  induction ids generalizing p with
  | nil => rfl
  | cons id ids ih =>
    rw [show setVoting { p with isChanged := c, addrs := A } (id :: ids) b =
        setVoting (setVotingStep b { p with isChanged := c, addrs := A } id) ids b
        from rfl,
      setVotingStep_frame]
    rw [show ({ isChanged := c, toRemoveVote := (setVotingStep b p id).toRemoveVote, toAddVote := (setVotingStep b p id).toAddVote, toKeepVoting := (setVotingStep b p id).toKeepVoting, toKeepNonVoting := (setVotingStep b p id).toKeepNonVoting, toKeepCreateNonVotingMember := (setVotingStep b p id).toKeepCreateNonVotingMember, machineVoting := (setVotingStep b p id).machineVoting, addrs := A, members := (setVotingStep b p id).members } : peerGroupChanges) =
        { setVotingStep b p id with isChanged := c, addrs := A } from rfl]
    rw [ih (setVotingStep b p id),
      show setVoting p (id :: ids) b =
        setVoting (setVotingStep b p id) ids b from rfl]

theorem setVoting3_frame (p : peerGroupChanges) (cL cR : Bool)
    (A : List (String × String)) (l1 l2 l3 : List String) :
    setVoting (setVoting (setVoting { p with isChanged := cL, addrs := A }
        l1 true) l2 false) l3 false =
      { isChanged := cL, toRemoveVote := (setVoting (setVoting (setVoting { p with isChanged := cR } l1 true) l2 false) l3 false).toRemoveVote, toAddVote := (setVoting (setVoting (setVoting { p with isChanged := cR } l1 true) l2 false) l3 false).toAddVote, toKeepVoting := (setVoting (setVoting (setVoting { p with isChanged := cR } l1 true) l2 false) l3 false).toKeepVoting, toKeepNonVoting := (setVoting (setVoting (setVoting { p with isChanged := cR } l1 true) l2 false) l3 false).toKeepNonVoting, toKeepCreateNonVotingMember := (setVoting (setVoting (setVoting { p with isChanged := cR } l1 true) l2 false) l3 false).toKeepCreateNonVotingMember, machineVoting := (setVoting (setVoting (setVoting { p with isChanged := cR } l1 true) l2 false) l3 false).machineVoting, addrs := A, members := (setVoting (setVoting (setVoting { p with isChanged := cR } l1 true) l2 false) l3 false).members } := by
  have h1 := setVoting_frame l1 p true cL A
  rw [h1]
  have h2 := setVoting_frame l2 (setVoting p l1 true) false cL A
  rw [show setVoting p l1 true = setVoting p l1 true from rfl] at h2
  rw [h2]
  have h3 := setVoting_frame l3 (setVoting (setVoting p l1 true) l2 false) false cL A
  rw [h3]
  have g1 := setVoting_frame l1 p true cR p.addrs
  rw [show ({ p with isChanged := cR, addrs := p.addrs } : peerGroupChanges) =
      { p with isChanged := cR } from rfl] at g1
  rw [g1]
  have g2 := setVoting_frame l2 (setVoting p l1 true) false cR p.addrs
  rw [g2]
  have g3 := setVoting_frame l3 (setVoting (setVoting p l1 true) l2 false) false cR
    p.addrs
  rw [g3]

theorem adjust_frame (p : peerGroupChanges) (c : Bool) (A : List (String × String)) :
    ∃ b2 : Bool, adjustVotes { p with isChanged := c, addrs := A } =
      { isChanged := b2, toRemoveVote := (adjustVotes p).toRemoveVote, toAddVote := (adjustVotes p).toAddVote, toKeepVoting := (adjustVotes p).toKeepVoting, toKeepNonVoting := (adjustVotes p).toKeepNonVoting, toKeepCreateNonVotingMember := (adjustVotes p).toKeepCreateNonVotingMember, machineVoting := (adjustVotes p).machineVoting, addrs := A, members := (adjustVotes p).members } ∧
      (b2 = true ↔ (c = true ∨ p.toAddVote ≠ [] ∨ p.toRemoveVote ≠ [] ∨
        p.toKeepCreateNonVotingMember ≠ [])) := by
  obtain ⟨bL, hL, hbL⟩ := adjustVotes_eq { p with isChanged := c, addrs := A }
  obtain ⟨bR, hR, hbR⟩ := adjustVotes_eq p
  refine ⟨bL, ?_, ?_⟩
  · rw [hL, hR]
    exact setVoting3_frame p bL bR A p.toAddVote p.toRemoveVote
      p.toKeepCreateNonVotingMember
  · rw [hbL]

theorem createStep_frame (acc : peerGroupChanges × Int) (c : Bool)
    (A : List (String × String)) (id : String) :
    createStep ({ acc.1 with isChanged := c, addrs := A }, acc.2) id =
      ({ isChanged := c, toRemoveVote := ((createStep acc id).1).toRemoveVote, toAddVote := ((createStep acc id).1).toAddVote, toKeepVoting := ((createStep acc id).1).toKeepVoting, toKeepNonVoting := ((createStep acc id).1).toKeepNonVoting, toKeepCreateNonVotingMember := ((createStep acc id).1).toKeepCreateNonVotingMember, machineVoting := ((createStep acc id).1).machineVoting, addrs := A, members := ((createStep acc id).1).members }, (createStep acc id).2) := rfl

theorem createFold1_frame (ids : List String) (acc : peerGroupChanges × Int)
    (c : Bool) (A : List (String × String)) :
    ids.foldl createStep ({ acc.1 with isChanged := c, addrs := A }, acc.2) =
      ({ isChanged := c, toRemoveVote := ((ids.foldl createStep acc).1).toRemoveVote, toAddVote := ((ids.foldl createStep acc).1).toAddVote, toKeepVoting := ((ids.foldl createStep acc).1).toKeepVoting, toKeepNonVoting := ((ids.foldl createStep acc).1).toKeepNonVoting, toKeepCreateNonVotingMember := ((ids.foldl createStep acc).1).toKeepCreateNonVotingMember, machineVoting := ((ids.foldl createStep acc).1).machineVoting, addrs := A, members := ((ids.foldl createStep acc).1).members }, (ids.foldl createStep acc).2) := by
  induction ids generalizing acc with
  | nil => rfl
  | cons id ids ih =>
    rw [List.foldl_cons, List.foldl_cons, createStep_frame acc c A id]
    exact ih (createStep acc id)

theorem createFold2_frame (ids : List String) (acc : peerGroupChanges × Int)
    (c : Bool) (A : List (String × String)) :
    ids.foldl
        (fun acc id => if (alookup acc.1.members id).isSome then acc else createStep acc id)
        ({ acc.1 with isChanged := c, addrs := A }, acc.2) =
      ({ isChanged := c, toRemoveVote := ((ids.foldl (fun acc id => if (alookup acc.1.members id).isSome then acc else createStep acc id) acc).1).toRemoveVote, toAddVote := ((ids.foldl (fun acc id => if (alookup acc.1.members id).isSome then acc else createStep acc id) acc).1).toAddVote, toKeepVoting := ((ids.foldl (fun acc id => if (alookup acc.1.members id).isSome then acc else createStep acc id) acc).1).toKeepVoting, toKeepNonVoting := ((ids.foldl (fun acc id => if (alookup acc.1.members id).isSome then acc else createStep acc id) acc).1).toKeepNonVoting, toKeepCreateNonVotingMember := ((ids.foldl (fun acc id => if (alookup acc.1.members id).isSome then acc else createStep acc id) acc).1).toKeepCreateNonVotingMember, machineVoting := ((ids.foldl (fun acc id => if (alookup acc.1.members id).isSome then acc else createStep acc id) acc).1).machineVoting, addrs := A, members := ((ids.foldl (fun acc id => if (alookup acc.1.members id).isSome then acc else createStep acc id) acc).1).members },
        (ids.foldl
          (fun acc id => if (alookup acc.1.members id).isSome then acc else createStep acc id)
          acc).2) := by
  induction ids generalizing acc with
  | nil => rfl
  | cons id ids ih =>
    rw [List.foldl_cons, List.foldl_cons]
    by_cases hl : (alookup acc.1.members id).isSome = true
    · rw [if_pos (show (alookup ({ acc.1 with isChanged := c, addrs := A } :
          peerGroupChanges).members id).isSome = true from hl),
        if_pos hl]
      exact ih acc
    · rw [if_neg (show ¬(alookup ({ acc.1 with isChanged := c, addrs := A } :
          peerGroupChanges).members id).isSome = true from hl),
        if_neg hl, createStep_frame acc c A id]
      exact ih (createStep acc id)

theorem create_frame (p : peerGroupChanges) (x : Int) (c : Bool)
    (A : List (String × String)) :
    createNonVotingMember { p with isChanged := c, addrs := A } x =
      ({ isChanged := c, toRemoveVote := ((createNonVotingMember p x).1).toRemoveVote, toAddVote := ((createNonVotingMember p x).1).toAddVote, toKeepVoting := ((createNonVotingMember p x).1).toKeepVoting, toKeepNonVoting := ((createNonVotingMember p x).1).toKeepNonVoting, toKeepCreateNonVotingMember := ((createNonVotingMember p x).1).toKeepCreateNonVotingMember, machineVoting := ((createNonVotingMember p x).1).machineVoting, addrs := A, members := ((createNonVotingMember p x).1).members }, (createNonVotingMember p x).2) := by
  unfold createNonVotingMember
  rw [show ({ p with isChanged := c, addrs := A } :
      peerGroupChanges).toKeepCreateNonVotingMember =
      p.toKeepCreateNonVotingMember from rfl,
    show ({ p with isChanged := c, addrs := A } :
      peerGroupChanges).toKeepNonVoting = p.toKeepNonVoting from rfl]
  rw [show (({ p with isChanged := c, addrs := A } : peerGroupChanges), x) =
      ({ (p, x).1 with isChanged := c, addrs := A }, (p, x).2) from rfl]
  rw [createFold1_frame, createFold2_frame]

theorem gmv_frame (p : peerGroupChanges) (c : Bool) (A : List (String × String)) :
    getMachinesVoting { p with isChanged := c, addrs := A } =
      { isChanged := c, toRemoveVote := (getMachinesVoting p).toRemoveVote, toAddVote := (getMachinesVoting p).toAddVote, toKeepVoting := (getMachinesVoting p).toKeepVoting, toKeepNonVoting := (getMachinesVoting p).toKeepNonVoting, toKeepCreateNonVotingMember := (getMachinesVoting p).toKeepCreateNonVotingMember, machineVoting := (getMachinesVoting p).machineVoting, addrs := A, members := (getMachinesVoting p).members } := by
  rw [getMachinesVoting_eq, getMachinesVoting_eq]

theorem review_frame (info : peerGroupInfo) (b : Bool) (A : List (String × String)) :
    reviewPeerGroupChanges info
        { classifiedChanges info with isChanged := b, addrs := A } =
      { isChanged := b, toRemoveVote := (reviewPeerGroupChanges info (classifiedChanges info)).toRemoveVote, toAddVote := (reviewPeerGroupChanges info (classifiedChanges info)).toAddVote, toKeepVoting := (reviewPeerGroupChanges info (classifiedChanges info)).toKeepVoting, toKeepNonVoting := (reviewPeerGroupChanges info (classifiedChanges info)).toKeepNonVoting, toKeepCreateNonVotingMember := (reviewPeerGroupChanges info (classifiedChanges info)).toKeepCreateNonVotingMember, machineVoting := (reviewPeerGroupChanges info (classifiedChanges info)).machineVoting, addrs := A, members := (reviewPeerGroupChanges info (classifiedChanges info)).members } := by
  by_cases h1 : ((currentVoterCount (classifiedChanges info).members : Int) -
      (classifiedChanges info).toRemoveVote.length +
      (classifiedChanges info).toAddVote.length).tmod 2 = 1
  · rw [review_odd info { classifiedChanges info with isChanged := b, addrs := A } h1,
      review_odd info (classifiedChanges info) h1]
  · by_cases h2 : (classifiedChanges info).toAddVote ≠ []
    · rw [review_even_add info
        { classifiedChanges info with isChanged := b, addrs := A } h1 h2,
        review_even_add info (classifiedChanges info) h1 h2]
    · rw [not_not] at h2
      by_cases h3 : (currentVoterCount (classifiedChanges info).members : Int) -
          (classifiedChanges info).toRemoveVote.length = 0
      · rw [review_kept_zero info
          { classifiedChanges info with isChanged := b, addrs := A } h1 h2 h3,
          review_kept_zero info (classifiedChanges info) h1 h2 h3]
      · cases hrf : removeFirstNonPrimary info
            (classifiedChanges info).toKeepVoting with
        | some q =>
          rw [review_kept_pos_found info
            { classifiedChanges info with isChanged := b, addrs := A } h1 h2 h3
              q.1 q.2 (by rw [← hrf]),
            review_kept_pos_found info (classifiedChanges info) h1 h2 h3
              q.1 q.2 (by rw [← hrf])]
        | none =>
          rw [review_kept_pos_none info
            { classifiedChanges info with isChanged := b, addrs := A } h1 h2 h3 hrf,
            review_kept_pos_none info (classifiedChanges info) h1 h2 h3 hrf]

theorem createStep_acc_fields (acc : peerGroupChanges × Int) (id : String) :
    (createStep acc id).1.isChanged = acc.1.isChanged ∧
    (createStep acc id).1.toRemoveVote = acc.1.toRemoveVote ∧
    (createStep acc id).1.toAddVote = acc.1.toAddVote ∧
    (createStep acc id).1.toKeepVoting = acc.1.toKeepVoting ∧
    (createStep acc id).1.toKeepNonVoting = acc.1.toKeepNonVoting ∧
    (createStep acc id).1.toKeepCreateNonVotingMember =
      acc.1.toKeepCreateNonVotingMember ∧
    (createStep acc id).1.machineVoting = acc.1.machineVoting ∧
    (createStep acc id).1.addrs = acc.1.addrs :=
  ⟨rfl, rfl, rfl, rfl, rfl, rfl, rfl, rfl⟩

theorem createFold1_fields (ids : List String) (acc : peerGroupChanges × Int) :
    ((ids.foldl createStep acc).1.isChanged = acc.1.isChanged ∧
    (ids.foldl createStep acc).1.toRemoveVote = acc.1.toRemoveVote ∧
    (ids.foldl createStep acc).1.toAddVote = acc.1.toAddVote ∧
    (ids.foldl createStep acc).1.toKeepVoting = acc.1.toKeepVoting ∧
    (ids.foldl createStep acc).1.toKeepNonVoting = acc.1.toKeepNonVoting ∧
    (ids.foldl createStep acc).1.toKeepCreateNonVotingMember =
      acc.1.toKeepCreateNonVotingMember ∧
    (ids.foldl createStep acc).1.machineVoting = acc.1.machineVoting ∧
    (ids.foldl createStep acc).1.addrs = acc.1.addrs) := by
  induction ids generalizing acc with
  | nil => exact ⟨rfl, rfl, rfl, rfl, rfl, rfl, rfl, rfl⟩
  | cons id ids ih =>
    rw [List.foldl_cons]
    obtain ⟨a1, a2, a3, a4, a5, a6, a7, a8⟩ := ih (createStep acc id)
    obtain ⟨b1, b2, b3, b4, b5, b6, b7, b8⟩ := createStep_acc_fields acc id
    exact ⟨a1.trans b1, a2.trans b2, a3.trans b3, a4.trans b4, a5.trans b5,
      a6.trans b6, a7.trans b7, a8.trans b8⟩

theorem createFold2_fields (ids : List String) (acc : peerGroupChanges × Int) :
    (((ids.foldl
        (fun acc id =>
          if (alookup acc.1.members id).isSome then acc else createStep acc id)
        acc).1.isChanged = acc.1.isChanged) ∧
    ((ids.foldl
        (fun acc id =>
          if (alookup acc.1.members id).isSome then acc else createStep acc id)
        acc).1.toRemoveVote = acc.1.toRemoveVote) ∧
    ((ids.foldl
        (fun acc id =>
          if (alookup acc.1.members id).isSome then acc else createStep acc id)
        acc).1.toAddVote = acc.1.toAddVote) ∧
    ((ids.foldl
        (fun acc id =>
          if (alookup acc.1.members id).isSome then acc else createStep acc id)
        acc).1.toKeepVoting = acc.1.toKeepVoting) ∧
    ((ids.foldl
        (fun acc id =>
          if (alookup acc.1.members id).isSome then acc else createStep acc id)
        acc).1.toKeepNonVoting = acc.1.toKeepNonVoting) ∧
    ((ids.foldl
        (fun acc id =>
          if (alookup acc.1.members id).isSome then acc else createStep acc id)
        acc).1.toKeepCreateNonVotingMember = acc.1.toKeepCreateNonVotingMember) ∧
    ((ids.foldl
        (fun acc id =>
          if (alookup acc.1.members id).isSome then acc else createStep acc id)
        acc).1.machineVoting = acc.1.machineVoting) ∧
    ((ids.foldl
        (fun acc id =>
          if (alookup acc.1.members id).isSome then acc else createStep acc id)
        acc).1.addrs = acc.1.addrs)) := by
  induction ids generalizing acc with
  | nil => exact ⟨rfl, rfl, rfl, rfl, rfl, rfl, rfl, rfl⟩
  | cons id ids ih =>
    rw [List.foldl_cons]
    by_cases hl : (alookup acc.1.members id).isSome = true
    · rw [if_pos hl]
      exact ih acc
    · rw [if_neg hl]
      obtain ⟨a1, a2, a3, a4, a5, a6, a7, a8⟩ := ih (createStep acc id)
      obtain ⟨b1, b2, b3, b4, b5, b6, b7, b8⟩ := createStep_acc_fields acc id
      exact ⟨a1.trans b1, a2.trans b2, a3.trans b3, a4.trans b4, a5.trans b5,
        a6.trans b6, a7.trans b7, a8.trans b8⟩

theorem create_fields (p : peerGroupChanges) (x : Int) :
    ((createNonVotingMember p x).1.isChanged = p.isChanged ∧
    (createNonVotingMember p x).1.toRemoveVote = p.toRemoveVote ∧
    (createNonVotingMember p x).1.toAddVote = p.toAddVote ∧
    (createNonVotingMember p x).1.toKeepVoting = p.toKeepVoting ∧
    (createNonVotingMember p x).1.toKeepNonVoting = p.toKeepNonVoting ∧
    (createNonVotingMember p x).1.toKeepCreateNonVotingMember =
      p.toKeepCreateNonVotingMember ∧
    (createNonVotingMember p x).1.machineVoting = p.machineVoting ∧
    (createNonVotingMember p x).1.addrs = p.addrs) := by
  unfold createNonVotingMember
  obtain ⟨a1, a2, a3, a4, a5, a6, a7, a8⟩ :=
    createFold2_fields p.toKeepNonVoting
      (p.toKeepCreateNonVotingMember.foldl createStep (p, x))
  obtain ⟨b1, b2, b3, b4, b5, b6, b7, b8⟩ :=
    createFold1_fields p.toKeepCreateNonVotingMember (p, x)
  exact ⟨a1.trans b1, a2.trans b2, a3.trans b3, a4.trans b4, a5.trans b5,
    a6.trans b6, a7.trans b7, a8.trans b8⟩

theorem gmv_fields (p : peerGroupChanges) :
    ((getMachinesVoting p).isChanged = p.isChanged ∧
    (getMachinesVoting p).toRemoveVote = p.toRemoveVote ∧
    (getMachinesVoting p).toAddVote = p.toAddVote ∧
    (getMachinesVoting p).toKeepVoting = p.toKeepVoting ∧
    (getMachinesVoting p).toKeepNonVoting = p.toKeepNonVoting ∧
    (getMachinesVoting p).toKeepCreateNonVotingMember =
      p.toKeepCreateNonVotingMember ∧
    (getMachinesVoting p).addrs = p.addrs ∧
    (getMachinesVoting p).members = p.members) := by
  rw [getMachinesVoting_eq]
  exact ⟨rfl, rfl, rfl, rfl, rfl, rfl, rfl, rfl⟩

theorem review_toAdd_sub (info : peerGroupInfo) (p : peerGroupChanges) :
    ∀ id ∈ (reviewPeerGroupChanges info p).toAddVote, id ∈ p.toAddVote := by
  intro id hid
  by_cases h1 : ((currentVoterCount p.members : Int) - p.toRemoveVote.length +
      p.toAddVote.length).tmod 2 = 1
  · rw [review_odd info p h1] at hid
    exact hid
  · by_cases h2 : p.toAddVote ≠ []
    · rw [review_even_add info p h1 h2] at hid
      exact mem_dropLast _ _ hid
    · rw [not_not] at h2
      by_cases h3 : (currentVoterCount p.members : Int) - p.toRemoveVote.length = 0
      · rw [review_kept_zero info p h1 h2 h3] at hid
        exact hid
      · cases hrf : removeFirstNonPrimary info p.toKeepVoting with
        | some q =>
          rw [review_kept_pos_found info p h1 h2 h3 q.1 q.2 (by rw [← hrf])] at hid
          exact hid
        | none =>
          rw [review_kept_pos_none info p h1 h2 h3 hrf] at hid
          exact hid

theorem review_toRemove_sub (info : peerGroupInfo) (p : peerGroupChanges) :
    ∀ id ∈ (reviewPeerGroupChanges info p).toRemoveVote,
      id ∈ p.toRemoveVote ∨
        (id ∈ p.toKeepVoting ∧ isPrimaryMember info id = false) := by
  intro id hid
  by_cases h1 : ((currentVoterCount p.members : Int) - p.toRemoveVote.length +
      p.toAddVote.length).tmod 2 = 1
  · rw [review_odd info p h1] at hid
    exact .inl hid
  · by_cases h2 : p.toAddVote ≠ []
    · rw [review_even_add info p h1 h2] at hid
      exact .inl hid
    · rw [not_not] at h2
      by_cases h3 : (currentVoterCount p.members : Int) - p.toRemoveVote.length = 0
      · rw [review_kept_zero info p h1 h2 h3] at hid
        exact .inl (List.mem_of_mem_filter hid)
      · cases hrf : removeFirstNonPrimary info p.toKeepVoting with
        | some q =>
          rw [review_kept_pos_found info p h1 h2 h3 q.1 q.2 (by rw [← hrf])] at hid
          rcases List.mem_append.mp hid with hid | hid
          · exact .inl hid
          · obtain ⟨hprim, hperm⟩ :=
              removeFirstNonPrimary_some info p.toKeepVoting q.1 q.2
                (by rw [← hrf])
            have hy : id = q.1 := by
              cases hid with
              | head => rfl
              | tail _ hc => cases hc
            subst hy
            exact .inr ⟨(hperm.mem_iff).mpr (List.mem_cons_self _ _), hprim⟩
        | none =>
          rw [review_kept_pos_none info p h1 h2 h3 hrf] at hid
          exact .inl hid

theorem recognisedVoting_eq (info : peerGroupInfo) (id : String) :
    recognisedVoting info id = lookupVoting (initNewReplicaSet info) id := by
  unfold recognisedVoting lookupVoting
  cases hl : alookup (initNewReplicaSet info) id <;> rfl

theorem hasRecognisedMember_eq (info : peerGroupInfo) (id : String) :
    hasRecognisedMember info id = (alookup (initNewReplicaSet info) id).isSome := rfl

theorem pKV_eq (info : peerGroupInfo) (id : String)
    (h : (alookup info.machines id).isSome = true) :
    pKeepVoting info (initNewReplicaSet info) id =
      (machineWantsVote info id && recognisedVoting info id) := by
  unfold pKeepVoting machineWantsVote
  rw [recognisedVoting_eq]
  cases hm : alookup info.machines id with
  | none =>
    rw [hm] at h
    cases h
  | some m => simp [hm]

theorem pAV_eq (info : peerGroupInfo) (id : String)
    (h : (alookup info.machines id).isSome = true) :
    pAddVote info (initNewReplicaSet info) id =
      (machineWantsVote info id && !recognisedVoting info id &&
        statusReady info id) := by
  unfold pAddVote machineWantsVote
  rw [recognisedVoting_eq]
  cases hm : alookup info.machines id with
  | none =>
    rw [hm] at h
    cases h
  | some m => simp [hm]

theorem pRM_eq (info : peerGroupInfo) (id : String)
    (h : (alookup info.machines id).isSome = true) :
    pRemoveVote info (initNewReplicaSet info) id =
      (!machineWantsVote info id && recognisedVoting info id) := by
  unfold pRemoveVote machineWantsVote
  rw [recognisedVoting_eq]
  cases hm : alookup info.machines id with
  | none =>
    rw [hm] at h
    cases h
  | some m => simp [hm]

theorem pKN_eq (info : peerGroupInfo) (id : String)
    (h : (alookup info.machines id).isSome = true) :
    pKeepNonVoting info (initNewReplicaSet info) id =
      ((machineWantsVote info id && !recognisedVoting info id &&
          !statusReady info id && hasRecognisedMember info id) ||
        (!machineWantsVote info id && !recognisedVoting info id)) := by
  unfold pKeepNonVoting machineWantsVote
  rw [recognisedVoting_eq, hasRecognisedMember_eq]
  cases hm : alookup info.machines id with
  | none =>
    rw [hm] at h
    cases h
  | some m => simp [hm]

theorem pCR_eq (info : peerGroupInfo) (id : String)
    (h : (alookup info.machines id).isSome = true) :
    pKeepCreate info (initNewReplicaSet info) id =
      (machineWantsVote info id && !recognisedVoting info id &&
        !statusReady info id && !hasRecognisedMember info id) := by
  unfold pKeepCreate machineWantsVote
  rw [recognisedVoting_eq, hasRecognisedMember_eq]
  cases hm : alookup info.machines id with
  | none =>
    rw [hm] at h
    cases h
  | some m => simp [hm]

theorem bucket_total (info : peerGroupInfo) (R : List (String × Member)) (id : String)
    (h : (alookup info.machines id).isSome = true) :
    (pKeepVoting info R id || pAddVote info R id || pRemoveVote info R id ||
      pKeepNonVoting info R id || pKeepCreate info R id) = true := by
  unfold pKeepVoting pAddVote pRemoveVote pKeepNonVoting pKeepCreate
  cases hm : alookup info.machines id with
  | none =>
    rw [hm] at h
    cases h
  | some m =>
    cases hw : m.wantsVote <;> cases hv : lookupVoting R id <;>
      cases hr : statusReady info id <;> cases hs : (alookup R id).isSome <;>
        simp [hm, hw, hv, hr, hs]

theorem foldPM_extra_char (mc : List (String × machineTracker))
    (sl : List MemberStatus) (ml : List Member) (info0 : peerGroupInfo) :
    ∀ m2 ∈ (ml.foldl (processMember mc sl) info0).extra,
      m2 ∈ info0.extra ∨ (m2 ∈ ml ∧ knownTagOf mc m2 = none) := by
  induction ml generalizing info0 with
  | nil => exact fun m2 h => .inl h
  | cons m0 ml ih =>
    intro m2 h2
    rw [List.foldl_cons] at h2
    rcases ih (processMember mc sl info0 m0) m2 h2 with h | ⟨hmem, htag⟩
    · rw [processMember_extra] at h
      cases htag0 : knownTagOf mc m0 with
      | some id =>
        rw [htag0] at h
        exact .inl h
      | none =>
        rw [htag0] at h
        rcases List.mem_append.mp h with h | h
        · exact .inl h
        · have : m2 = m0 := by
            cases h with
            | head => rfl
            | tail _ hc => cases hc
          subst this
          exact .inr ⟨List.mem_cons_self _ _, htag0⟩
    · exact .inr ⟨List.mem_cons_of_mem m0 hmem, htag⟩

theorem foldPM_extra_mono (mc : List (String × machineTracker))
    (sl : List MemberStatus) (ml : List Member) (info0 : peerGroupInfo) :
    ∀ m2 ∈ info0.extra, m2 ∈ (ml.foldl (processMember mc sl) info0).extra := by
  induction ml generalizing info0 with
  | nil => exact fun m2 h => h
  | cons m0 ml ih =>
    intro m2 h2
    rw [List.foldl_cons]
    apply ih
    rw [processMember_extra]
    cases htag0 : knownTagOf mc m0 with
    | some id => exact h2
    | none => exact List.mem_append_left _ h2

theorem foldPM_recognised_stable (mc : List (String × machineTracker))
    (sl : List MemberStatus) (ml : List Member) (info0 : peerGroupInfo)
    (m : Member) (id : String)
    (htags : ∀ m2 ∈ ml, knownTagOf mc m2 = some id → m2 = m)
    (h0 : alookup info0.recognised id = some m) :
    alookup (ml.foldl (processMember mc sl) info0).recognised id = some m := by
  induction ml generalizing info0 with
  | nil => exact h0
  | cons m0 ml ih =>
    rw [List.foldl_cons]
    apply ih _ (fun m2 hm2 => htags m2 (List.mem_cons_of_mem m0 hm2))
    rw [processMember_recognised]
    cases htag0 : knownTagOf mc m0 with
    | none => exact h0
    | some id2 =>
      by_cases hid : id2 = id
      · subst hid
        have : m0 = m := htags m0 (List.mem_cons_self _ _) htag0
        subst this
        rw [alookup_aset_self]
      · rw [alookup_aset_ne _ _ _ _ hid]
        exact h0

theorem foldPM_placed (mc : List (String × machineTracker))
    (sl : List MemberStatus) (ml : List Member) (info0 : peerGroupInfo)
    (m : Member) (id : String) (hm : m ∈ ml)
    (htag : knownTagOf mc m = some id)
    (htags : ∀ m2 ∈ ml, knownTagOf mc m2 = some id → m2 = m) :
    alookup (ml.foldl (processMember mc sl) info0).recognised id = some m := by
  induction ml generalizing info0 with
  | nil => cases hm
  | cons m0 ml ih =>
    rw [List.foldl_cons]
    rcases List.mem_cons.mp hm with hm | hm
    · subst hm
      apply foldPM_recognised_stable mc sl ml _ m id
        (fun m2 hm2 => htags m2 (List.mem_cons_of_mem m hm2))
      rw [processMember_recognised, htag, alookup_aset_self]
    · exact ih _ hm (fun m2 hm2 => htags m2 (List.mem_cons_of_mem m0 hm2))

theorem asm_extra_char (mc : List (String × machineTracker))
    (sl : List MemberStatus) (ml : List Member) (port : Int) (hs : String)
    (info : peerGroupInfo)
    (h : newPeerGroupInfo mc sl ml port hs = some info) :
    ∀ m2 ∈ info.extra, m2 ∈ ml ∧ knownTagOf mc m2 = none := by
  obtain ⟨heq, -⟩ := newPeerGroupInfo_some mc sl ml port hs info h
  intro m2 h2
  rw [heq] at h2
  rcases foldPM_extra_char mc sl ml _ m2 h2 with h | h
  · cases h
  · exact h

theorem asm_placed (mc : List (String × machineTracker))
    (sl : List MemberStatus) (ml : List Member) (port : Int) (hs : String)
    (info : peerGroupInfo)
    (h : newPeerGroupInfo mc sl ml port hs = some info)
    (m : Member) (id : String) (hm : m ∈ ml)
    (htag : knownTagOf mc m = some id)
    (htags : ∀ m2 ∈ ml, knownTagOf mc m2 = some id → m2 = m) :
    alookup info.recognised id = some m := by
  obtain ⟨heq, -⟩ := newPeerGroupInfo_some mc sl ml port hs info h
  rw [heq]
  exact foldPM_placed mc sl ml _ m id hm htag htags

theorem foldPM_extra_mem (mc : List (String × machineTracker))
    (sl : List MemberStatus) :
    ∀ (ml : List Member) (info0 : peerGroupInfo) (m : Member), m ∈ ml →
      knownTagOf mc m = none →
      m ∈ (ml.foldl (processMember mc sl) info0).extra := by
  intro ml
  induction ml with
  | nil =>
    intro info0 m hm
    cases hm
  | cons m0 ml ih =>
    intro info0 m hm htag
    rw [List.foldl_cons]
    rcases List.mem_cons.mp hm with hm | hm
    · subst hm
      apply foldPM_extra_mono
      rw [processMember_extra, htag]
      exact List.mem_append_right _ (List.mem_cons_self _ _)
    · exact ih _ m hm htag

theorem asm_extra_mem (mc : List (String × machineTracker))
    (sl : List MemberStatus) (ml : List Member) (port : Int) (hs : String)
    (info : peerGroupInfo)
    (h : newPeerGroupInfo mc sl ml port hs = some info)
    (m : Member) (hm : m ∈ ml) (htag : knownTagOf mc m = none) :
    m ∈ info.extra := by
  obtain ⟨heq, -⟩ := newPeerGroupInfo_some mc sl ml port hs info h
  rw [heq]
  exact foldPM_extra_mem mc sl ml _ m hm htag

/-! ## Claims -/

/-- C3: `desiredPeerGroup` fails with `ErrExtraVotingMember` exactly when some
member of the extra list (no recognised machine association) is voting, that
is, has nil votes or votes greater than zero; the error carries no proposal,
so no changes are proposed. -/
theorem C3_extraVotingMember (info : peerGroupInfo) :
    (∃ m, desiredPeerGroup info = .error (.extraVotingMember m)) ↔
      ∃ m ∈ info.extra, isVotingMember m = true := by
  constructor
  · rintro ⟨m, hm⟩
    rcases desired_error_decomp info _ hm with ⟨m2, hfv, he⟩ | ⟨id, msg, he⟩
    · obtain rfl : m = m2 := by injection he
      obtain ⟨h1, h2⟩ := firstVotingExtra_some_spec info.extra m hfv
      exact ⟨m, h1, h2⟩
    · exact absurd he (by simp)
  · rintro ⟨m, hm, hv⟩
    obtain ⟨m2, hm2⟩ := firstVotingExtra_exists info.extra m hm hv
    exact ⟨m2, desired_error_extra info m2 hm2⟩

/-- C5: when the projected voter count (kept voters plus `toAddVote`) is even
and `toAddVote` is non-empty, the quorum adjuster drops exactly the last
element of `toAddVote` and leaves every other field unchanged. -/
theorem C5_evenDropsLastAdd (info : peerGroupInfo) (p : peerGroupChanges)
    (heven : ((currentVoterCount p.members : Int) - p.toRemoveVote.length +
      p.toAddVote.length).tmod 2 ≠ 1)
    (hne : p.toAddVote ≠ []) :
    reviewPeerGroupChanges info p = { p with toAddVote := p.toAddVote.dropLast } ∧
    p.toAddVote = (reviewPeerGroupChanges info p).toAddVote ++
      [p.toAddVote.getLast hne] := by
  have h1 := review_even_add info p heven hne
  refine ⟨h1, ?_⟩
  rw [h1]
  show p.toAddVote = p.toAddVote.dropLast ++ [p.toAddVote.getLast hne]
  rw [List.dropLast_append_getLast hne]

/-- C5 witness: a two-element `toAddVote` with an even projected count loses
exactly its last element. -/
theorem C5_evenDropsLastAdd_witness :
    reviewPeerGroupChanges cexC1info wChangesC5 =
      { wChangesC5 with toAddVote := wChangesC5.toAddVote.dropLast } ∧
    wChangesC5.toAddVote =
      (reviewPeerGroupChanges cexC1info wChangesC5).toAddVote ++
        [wChangesC5.toAddVote.getLast (by decide)] :=
  C5_evenDropsLastAdd cexC1info wChangesC5 (by decide) (by decide)

/-- C9 (amended): the snapshot assembler records statuses only under machine
ids that appear as some input member's `juju-machine-id` tag; the domain of
the statuses map need not be inside the recognised map (see the
counterexample), only inside the tagged ids. -/
theorem C9_amended (mc : List (String × machineTracker)) (sl : List MemberStatus)
    (ml : List Member) (port : Int) (hs2 : String) (info : peerGroupInfo)
    (hinfo : newPeerGroupInfo mc sl ml port hs2 = some info) :
    ∀ id, (alookup info.statuses id).isSome = true →
      ∃ m ∈ ml, tagOf m = some id := by
  intro id h
  exact asm_statuses_tags mc sl ml port hs2 info hinfo id h

/-- C9 witness: the status of the tagged but unrecognised member is recorded
under the tag "9", which is indeed a member tag. -/
theorem C9_amended_witness : ∃ m ∈ cexC9members, tagOf m = some "9" :=
  C9_amended cexC9machines cexC9statuses cexC9members 1 "" cexC9info rfl "9" rfl

/-- C9 counterexample: the assembler records a status under machine id "9"
for a member whose tag names no known machine, so "9" is in the statuses
domain but not in the recognised domain: the original claim's inclusion
fails. -/
theorem C9_counterexample :
    newPeerGroupInfo cexC9machines cexC9statuses cexC9members 1 "" =
      some cexC9info ∧
    (alookup cexC9info.statuses "9").isSome = true ∧
    alookup cexC9info.recognised "9" = none :=
  ⟨rfl, rfl, rfl⟩

/-- C2 (amended): the quorum adjuster never itself demotes the reported
primary — any machine id in the reviewed `toRemoveVote` that the classifier
had not already marked for removal is not the primary.  (The classifier can
mark the primary when its machine no longer wants the vote; see the
counterexample.) -/
theorem C2_amended (info : peerGroupInfo) (id : String)
    (hid : id ∈ (reviewedChanges info).toRemoveVote)
    (hnot : id ∉ (classifiedChanges info).toRemoveVote) :
    isPrimaryMember info id = false := by
  rcases review_toRemove_sub info (classifiedChanges info) id hid with h | ⟨h1, h2⟩
  · exact absurd h hnot
  · exact h2

/-- C2 witness: with two voting secondaries wanting votes, the adjuster must
demote one machine; the demoted id "0" was not marked by the classifier and
is not the primary. -/
theorem C2_amended_witness : isPrimaryMember wInfoC2 "0" = false :=
  C2_amended wInfoC2 "0" (by decide) (by decide)

/-- C2 counterexample: on a succeeding snapshot with kept voter count 1 > 0,
the machine id "0" whose status is primary does end up in the final
`toRemoveVote` (the classifier put it there because its machine no longer
wants the vote): the original claim is false. -/
theorem C2_counterexample :
    desiredPeerGroup cexC2info = .ok (some
      [("0", { Id := 1, Address := "a0:1", Tags := [("juju-machine-id", "0")], Votes := some 0, Priority := some 0 }),
       ("1", { Id := 2, Address := "a1:1", Tags := [("juju-machine-id", "1")], Votes := none, Priority := none })],
      [("0", false), ("1", true)]) ∧
    (0 : Int) < (currentVoterCount (classifiedChanges cexC2info).members : Int) -
      (classifiedChanges cexC2info).toRemoveVote.length ∧
    isPrimaryMember cexC2info "0" = true ∧
    "0" ∈ (reviewedChanges cexC2info).toRemoveVote :=
  ⟨rfl, by decide, rfl, by decide⟩

theorem hboolOne (a b c d e : Bool) (htot : (a || b || c || d || e) = true)
    (hab : ¬(a = true ∧ b = true)) (hac : ¬(a = true ∧ c = true))
    (had : ¬(a = true ∧ d = true)) (hae : ¬(a = true ∧ e = true))
    (hbc : ¬(b = true ∧ c = true)) (hbd : ¬(b = true ∧ d = true))
    (hbe : ¬(b = true ∧ e = true)) (hcd : ¬(c = true ∧ d = true))
    (hce : ¬(c = true ∧ e = true)) (hde : ¬(d = true ∧ e = true)) :
    [a, b, c, d, e].countP (fun x => x) = 1 := by
  cases a <;> cases b <;> cases c <;> cases d <;> cases e <;> simp_all

/-- C4: each known machine id lands in exactly one classifier bucket, and
membership in each bucket is characterised by the spec's table over the
observables wantsVote, isVoting (recognised member with nil or positive
votes), ready (healthy primary or secondary status) and
member-exists. -/
theorem C4_classifierTable (info : peerGroupInfo) (id : String)
    (hid : id ∈ keysOf info.machines) :
    ((id ∈ (classifiedChanges info).toKeepVoting ↔
        (machineWantsVote info id && recognisedVoting info id) = true) ∧
     (id ∈ (classifiedChanges info).toAddVote ↔
        (machineWantsVote info id && !recognisedVoting info id &&
          statusReady info id) = true) ∧
     (id ∈ (classifiedChanges info).toRemoveVote ↔
        (!machineWantsVote info id && recognisedVoting info id) = true) ∧
     (id ∈ (classifiedChanges info).toKeepNonVoting ↔
        ((machineWantsVote info id && !recognisedVoting info id &&
            !statusReady info id && hasRecognisedMember info id) ||
          (!machineWantsVote info id && !recognisedVoting info id)) = true) ∧
     (id ∈ (classifiedChanges info).toKeepCreateNonVotingMember ↔
        (machineWantsVote info id && !recognisedVoting info id &&
          !statusReady info id && !hasRecognisedMember info id) = true)) ∧
    [decide (id ∈ (classifiedChanges info).toKeepVoting),
      decide (id ∈ (classifiedChanges info).toAddVote),
      decide (id ∈ (classifiedChanges info).toRemoveVote),
      decide (id ∈ (classifiedChanges info).toKeepNonVoting),
      decide (id ∈ (classifiedChanges info).toKeepCreateNonVotingMember)].countP
        (fun b => b) = 1 := by
  have hidL : id ∈ sortStrings (keysOf info.machines) :=
    (mem_sortStrings _ _).mpr hid
  have hsome : (alookup info.machines id).isSome = true :=
    (alookup_isSome_iff_mem _ _).mpr hid
  have e1 : decide (id ∈ (classifiedChanges info).toKeepVoting) =
      pKeepVoting info (initNewReplicaSet info) id := by
    rw [classified_KV]
    exact mem_filter_decide _ _ _ hidL
  have e2 : decide (id ∈ (classifiedChanges info).toAddVote) =
      pAddVote info (initNewReplicaSet info) id := by
    rw [classified_AV]
    exact mem_filter_decide _ _ _ hidL
  have e3 : decide (id ∈ (classifiedChanges info).toRemoveVote) =
      pRemoveVote info (initNewReplicaSet info) id := by
    rw [classified_RM]
    exact mem_filter_decide _ _ _ hidL
  have e4 : decide (id ∈ (classifiedChanges info).toKeepNonVoting) =
      pKeepNonVoting info (initNewReplicaSet info) id := by
    rw [classified_KN]
    exact mem_filter_decide _ _ _ hidL
  have e5 : decide (id ∈ (classifiedChanges info).toKeepCreateNonVotingMember) =
      pKeepCreate info (initNewReplicaSet info) id := by
    rw [classified_CR]
    exact mem_filter_decide _ _ _ hidL
  have m1 : id ∈ (classifiedChanges info).toKeepVoting ↔
      pKeepVoting info (initNewReplicaSet info) id = true := by
    rw [← e1]
    simp
  have m2 : id ∈ (classifiedChanges info).toAddVote ↔
      pAddVote info (initNewReplicaSet info) id = true := by
    rw [← e2]
    simp
  have m3 : id ∈ (classifiedChanges info).toRemoveVote ↔
      pRemoveVote info (initNewReplicaSet info) id = true := by
    rw [← e3]
    simp
  have m4 : id ∈ (classifiedChanges info).toKeepNonVoting ↔
      pKeepNonVoting info (initNewReplicaSet info) id = true := by
    rw [← e4]
    simp
  have m5 : id ∈ (classifiedChanges info).toKeepCreateNonVotingMember ↔
      pKeepCreate info (initNewReplicaSet info) id = true := by
    rw [← e5]
    simp
  refine ⟨⟨?_, ?_, ?_, ?_, ?_⟩, ?_⟩
  · rw [m1, pKV_eq info id hsome]
  · rw [m2, pAV_eq info id hsome]
  · rw [m3, pRM_eq info id hsome]
  · rw [m4, pKN_eq info id hsome]
  · rw [m5, pCR_eq info id hsome]
  · rw [e1, e2, e3, e4, e5]
    exact hboolOne _ _ _ _ _
      (bucket_total info (initNewReplicaSet info) id hsome)
      (mutex_KV_AV info _ id) (mutex_KV_RM info _ id) (mutex_KV_KN info _ id)
      (mutex_KV_CR info _ id) (mutex_AV_RM info _ id) (mutex_AV_KN info _ id)
      (mutex_AV_CR info _ id) (mutex_RM_KN info _ id) (mutex_RM_CR info _ id)
      (mutex_KN_CR info _ id)

/-- C4 witness: the classifier table evaluated for machine "0" of a concrete
two-machine snapshot. -/
theorem C4_classifierTable_witness :
    "0" ∈ keysOf cexC2info.machines ∧
    ((("0" ∈ (classifiedChanges cexC2info).toKeepVoting ↔
        (machineWantsVote cexC2info "0" && recognisedVoting cexC2info "0") = true) ∧
     ("0" ∈ (classifiedChanges cexC2info).toAddVote ↔
        (machineWantsVote cexC2info "0" && !recognisedVoting cexC2info "0" &&
          statusReady cexC2info "0") = true) ∧
     ("0" ∈ (classifiedChanges cexC2info).toRemoveVote ↔
        (!machineWantsVote cexC2info "0" && recognisedVoting cexC2info "0") = true) ∧
     ("0" ∈ (classifiedChanges cexC2info).toKeepNonVoting ↔
        ((machineWantsVote cexC2info "0" && !recognisedVoting cexC2info "0" &&
            !statusReady cexC2info "0" && hasRecognisedMember cexC2info "0") ||
          (!machineWantsVote cexC2info "0" && !recognisedVoting cexC2info "0")) = true) ∧
     ("0" ∈ (classifiedChanges cexC2info).toKeepCreateNonVotingMember ↔
        (machineWantsVote cexC2info "0" && !recognisedVoting cexC2info "0" &&
          !statusReady cexC2info "0" && !hasRecognisedMember cexC2info "0") = true)) ∧
    [decide ("0" ∈ (classifiedChanges cexC2info).toKeepVoting),
      decide ("0" ∈ (classifiedChanges cexC2info).toAddVote),
      decide ("0" ∈ (classifiedChanges cexC2info).toRemoveVote),
      decide ("0" ∈ (classifiedChanges cexC2info).toKeepNonVoting),
      decide ("0" ∈ (classifiedChanges cexC2info).toKeepCreateNonVotingMember)].countP
        (fun b => b) = 1) :=
  ⟨by decide, C4_classifierTable cexC2info "0" (by decide)⟩

/-- C10: on any assembled snapshot, every id in `toAddVote`, `toRemoveVote`
or `toKeepCreateNonVotingMember` of the state `adjustVotes` receives has an
entry in that state's members map, so `setMemberVoting` never runs on a nil
member. -/
theorem C10_adjustSafe (mc : List (String × machineTracker))
    (sl : List MemberStatus) (ml : List Member) (port : Int) (hs2 : String)
    (info : peerGroupInfo) (hmc : (keysOf mc).Nodup)
    (hinfo : newPeerGroupInfo mc sl ml port hs2 = some info) :
    ∀ id, (id ∈ (preAdjustChanges info).toAddVote ∨
        id ∈ (preAdjustChanges info).toRemoveVote ∨
        id ∈ (preAdjustChanges info).toKeepCreateNonVotingMember) →
      (alookup (preAdjustChanges info).members id).isSome = true := by
  intro id hid
  have hmach := asm_machines mc sl ml port hs2 info hinfo
  have hmnd : (keysOf info.machines).Nodup := by rw [hmach]; exact hmc
  have hSR : ∀ id2, (alookup info.machines id2).isSome = true →
      (alookup info.statuses id2).isSome = true →
      (alookup (initNewReplicaSet info) id2).isSome = true := by
    intro id2 h1 h2
    rw [hmach] at h1
    exact asm_SR mc sl ml port hs2 info hinfo id2 h1 h2
  rw [show preAdjustChanges info =
    getMachinesVoting
      (createNonVotingMember (reviewedChanges info) info.maxMemberId).1
    from rfl] at hid ⊢
  obtain ⟨-, gRM, gAV, -, -, gCR, -, gM⟩ :=
    gmv_fields (createNonVotingMember (reviewedChanges info) info.maxMemberId).1
  rw [gM]
  rw [gAV, gRM, gCR] at hid
  obtain ⟨-, cRM, cAV, -, -, cCR, -, -⟩ :=
    create_fields (reviewedChanges info) info.maxMemberId
  rw [cAV, cRM, cCR] at hid
  have hLnd : (sortStrings (keysOf info.machines)).Nodup :=
    nodup_sortStrings _ hmnd
  have hRmem : (reviewedChanges info).members = initNewReplicaSet info := by
    rw [show reviewedChanges info =
      reviewPeerGroupChanges info (classifiedChanges info) from rfl,
      (review_fields info (classifiedChanges info)).1, classified_eq]
  have hRCR : (reviewedChanges info).toKeepCreateNonVotingMember =
      (sortStrings (keysOf info.machines)).filter
        (pKeepCreate info (initNewReplicaSet info)) := by
    rw [show reviewedChanges info =
      reviewPeerGroupChanges info (classifiedChanges info) from rfl,
      (review_fields info (classifiedChanges info)).2.2.2.2.2, classified_CR]
  have hRKN : (reviewedChanges info).toKeepNonVoting =
      (sortStrings (keysOf info.machines)).filter
        (pKeepNonVoting info (initNewReplicaSet info)) := by
    rw [show reviewedChanges info =
      reviewPeerGroupChanges info (classifiedChanges info) from rfl,
      (review_fields info (classifiedChanges info)).2.2.2.2.1, classified_KN]
  have hCRnd : (reviewedChanges info).toKeepCreateNonVotingMember.Nodup := by
    rw [hRCR]
    exact hLnd.filter _
  have hKNnd : (reviewedChanges info).toKeepNonVoting.Nodup := by
    rw [hRKN]
    exact hLnd.filter _
  have hfresh : ∀ id2 ∈ (reviewedChanges info).toKeepCreateNonVotingMember,
      alookup (reviewedChanges info).members id2 = none := by
    intro id2 h2
    rw [hRCR] at h2
    rw [hRmem]
    exact pCR_none info _ id2 (List.mem_filter.mp h2).2
  have hspec := createNonVotingMember_spec (reviewedChanges info)
    info.maxMemberId hCRnd hKNnd hfresh
  have hmem2 : (createNonVotingMember (reviewedChanges info)
      info.maxMemberId).1.members =
      (reviewedChanges info).members ++
        createdNews (reviewedChanges info) info.maxMemberId := by
    rw [hspec]
  rw [hmem2]
  rcases hid with hAV | hRM | hCR
  · have hAVc : id ∈ (classifiedChanges info).toAddVote :=
      review_toAdd_sub info (classifiedChanges info) id hAV
    have hpAV : pAddVote info (initNewReplicaSet info) id = true := by
      rw [classified_AV] at hAVc
      exact (List.mem_filter.mp hAVc).2
    obtain ⟨m, hm⟩ := Option.isSome_iff_exists.mp (pAV_some info id hSR hpAV)
    rw [hRmem, alookup_append_left _ _ _ _ hm]
    rfl
  · have hsub := review_toRemove_sub info (classifiedChanges info) id hRM
    have hlv : lookupVoting (initNewReplicaSet info) id = true := by
      rcases hsub with h | ⟨h, -⟩
      · rw [classified_RM] at h
        have hL := (List.mem_filter.mp h).1
        have hpRM := (List.mem_filter.mp h).2
        have hor := pKV_or_pRM_eq info (initNewReplicaSet info) id
          (mem_L_isSome info id hL)
        rw [hpRM, Bool.or_true] at hor
        exact hor.symm
      · rw [classified_KV] at h
        have hL := (List.mem_filter.mp h).1
        have hpKV := (List.mem_filter.mp h).2
        have hor := pKV_or_pRM_eq info (initNewReplicaSet info) id
          (mem_L_isSome info id hL)
        rw [hpKV, Bool.true_or] at hor
        exact hor.symm
    obtain ⟨m, hm⟩ :=
      Option.isSome_iff_exists.mp (lookupVoting_isSome _ id hlv)
    rw [hRmem, alookup_append_left _ _ _ _ hm]
    rfl
  · have hkeys : id ∈ keysOf (createdNews (reviewedChanges info)
        info.maxMemberId) := by
      rw [createdNews_keys]
      exact List.mem_append_left _ hCR
    rw [alookup_isSome_iff_mem, keysOf_append]
    exact List.mem_append_right _ hkeys

/-- C10 witness: on a concrete snapshot the demoted id "0" is in the
pre-adjustment `toRemoveVote` and has a members entry. -/
theorem C10_adjustSafe_witness :
    (keysOf cexC2machines).Nodup ∧
    ("0" ∈ (preAdjustChanges cexC2info).toAddVote ∨
     "0" ∈ (preAdjustChanges cexC2info).toRemoveVote ∨
     "0" ∈ (preAdjustChanges cexC2info).toKeepCreateNonVotingMember) ∧
    (alookup (preAdjustChanges cexC2info).members "0").isSome = true :=
  ⟨by decide, .inr (.inl (by decide)),
    C10_adjustSafe cexC2machines cexC2statuses cexC2members 1 "" cexC2info
      (by decide) rfl "0" (.inr (.inl (by decide)))⟩

theorem createdNews_bounds (p : peerGroupChanges) (x : Int) (kv : String × Member)
    (h : kv ∈ createdNews p x) :
    x < kv.2.Id ∧ kv.2.Id ≤ x + (createdNews p x).length := by
  have hlen : (createdNews p x).length =
      p.toKeepCreateNonVotingMember.length +
        (p.toKeepNonVoting.filter (fun id =>
          !(alookup (p.members ++ buildNews x p.toKeepCreateNonVotingMember)
            id).isSome)).length := by
    unfold createdNews
    rw [List.length_append, buildNews_length, buildNews_length]
  unfold createdNews at h
  rcases List.mem_append.mp h with h | h
  · obtain ⟨-, -, h3, h4⟩ := mem_buildNews _ _ kv h
    rw [hlen]
    refine ⟨h3, ?_⟩
    push_cast at h4 ⊢
    omega
  · obtain ⟨-, -, h3, h4⟩ := mem_buildNews _ _ kv h
    rw [hlen]
    constructor
    · omega
    · push_cast at h4 ⊢
      omega

theorem createdNews_pairwise (p : peerGroupChanges) (x : Int) :
    (createdNews p x).Pairwise (fun a b => a.2.Id < b.2.Id) := by
  unfold createdNews
  rw [List.pairwise_append]
  refine ⟨buildNews_pairwise _ _, buildNews_pairwise _ _, ?_⟩
  intro a ha b hb
  obtain ⟨-, -, -, h4⟩ := mem_buildNews _ _ a ha
  obtain ⟨-, -, h3, -⟩ := mem_buildNews _ _ b hb
  omega

/-- C7: the assembler's `maxMemberId` is at least -1 and bounds every input
member id; member synthesis only increases it, every synthesised member gets
an id strictly above the incoming `maxMemberId` and at most the outgoing
one, the synthesised entries are appended to the existing members, and their
ids strictly increase in creation order, so each new id exceeds all
previously observed and all earlier-created ids. -/
theorem C7_maxMemberId (mc : List (String × machineTracker))
    (sl : List MemberStatus) (ml : List Member) (port : Int) (hs2 : String)
    (info : peerGroupInfo)
    (hinfo : newPeerGroupInfo mc sl ml port hs2 = some info)
    (p : peerGroupChanges)
    (hCR : p.toKeepCreateNonVotingMember.Nodup)
    (hKN : p.toKeepNonVoting.Nodup)
    (hfresh : ∀ id ∈ p.toKeepCreateNonVotingMember,
      alookup p.members id = none) :
    (-1 ≤ info.maxMemberId) ∧
    (∀ m ∈ ml, m.Id ≤ info.maxMemberId) ∧
    info.maxMemberId ≤ (createNonVotingMember p info.maxMemberId).2 ∧
    (∀ kv ∈ createdNews p info.maxMemberId,
      info.maxMemberId < kv.2.Id ∧
      kv.2.Id ≤ (createNonVotingMember p info.maxMemberId).2) ∧
    (createNonVotingMember p info.maxMemberId).1.members =
      p.members ++ createdNews p info.maxMemberId ∧
    (createdNews p info.maxMemberId).Pairwise
      (fun a b => a.2.Id < b.2.Id) := by
  have hspec := createNonVotingMember_spec p info.maxMemberId hCR hKN hfresh
  have h2 : (createNonVotingMember p info.maxMemberId).2 =
      info.maxMemberId + (createdNews p info.maxMemberId).length := by
    rw [hspec]
  refine ⟨asm_maxId_init mc sl ml port hs2 info hinfo,
    asm_maxId_mem mc sl ml port hs2 info hinfo, ?_, ?_, by rw [hspec],
    createdNews_pairwise p info.maxMemberId⟩
  · rw [h2]
    omega
  · intro kv hkv
    obtain ⟨hlt, hle⟩ := createdNews_bounds p info.maxMemberId kv hkv
    rw [h2]
    exact ⟨hlt, hle⟩

/-- C7 witness: creating one requested member and one repair-loop member from
a concrete snapshot with `maxMemberId = 1`. -/
theorem C7_maxMemberId_witness :
    wChangesC7.toKeepCreateNonVotingMember.Nodup ∧
    ((-1 ≤ cexC1info.maxMemberId) ∧
     (∀ m ∈ cexC1members, m.Id ≤ cexC1info.maxMemberId) ∧
     cexC1info.maxMemberId ≤
       (createNonVotingMember wChangesC7 cexC1info.maxMemberId).2 ∧
     (∀ kv ∈ createdNews wChangesC7 cexC1info.maxMemberId,
       cexC1info.maxMemberId < kv.2.Id ∧
       kv.2.Id ≤ (createNonVotingMember wChangesC7 cexC1info.maxMemberId).2) ∧
     (createNonVotingMember wChangesC7 cexC1info.maxMemberId).1.members =
       wChangesC7.members ++ createdNews wChangesC7 cexC1info.maxMemberId ∧
     (createdNews wChangesC7 cexC1info.maxMemberId).Pairwise
       (fun a b => a.2.Id < b.2.Id)) :=
  ⟨by decide, C7_maxMemberId cexC1machines cexC1statuses cexC1members 1 ""
    cexC1info rfl wChangesC7 (by decide) (by decide) (by decide)⟩

/-- C8 (amended): when the input members' known machine-id tags are unique,
every input member is placed in the recognised map (under exactly one id) or
in the extra list, and never both.  Without tag uniqueness a member can
vanish from both (see the counterexample), because a later member with the
same tag overwrites the recognised slot. -/
theorem C8_placement (mc : List (String × machineTracker))
    (sl : List MemberStatus) (ml : List Member) (port : Int) (hs2 : String)
    (info : peerGroupInfo)
    (hinfo : newPeerGroupInfo mc sl ml port hs2 = some info)
    (htags : ∀ m1 ∈ ml, ∀ m2 ∈ ml, knownTagOf mc m1 = knownTagOf mc m2 →
      knownTagOf mc m1 = none ∨ m1 = m2) :
    (∀ m ∈ ml, (∃ id, alookup info.recognised id = some m) ∨
      m ∈ info.extra) ∧
    (∀ m id1 id2, alookup info.recognised id1 = some m →
      alookup info.recognised id2 = some m → id1 = id2) ∧
    (∀ m, (∃ id, alookup info.recognised id = some m) →
      m ∉ info.extra) := by
  refine ⟨?_, ?_, ?_⟩
  · intro m hm
    cases htg : knownTagOf mc m with
    | some id =>
      left
      refine ⟨id, asm_placed mc sl ml port hs2 info hinfo m id hm htg ?_⟩
      intro m2 hm2 ht2
      rcases htags m2 hm2 m hm (by rw [ht2, htg]) with h | h
      · rw [ht2] at h
        cases h
      · exact h
    | none =>
      right
      exact asm_extra_mem mc sl ml port hs2 info hinfo m hm htg
  · intro m id1 id2 h1 h2
    have t1 := (asm_recognised_char mc sl ml port hs2 info hinfo id1 m h1).1
    have t2 := (asm_recognised_char mc sl ml port hs2 info hinfo id2 m h2).1
    rw [t1] at t2
    exact Option.some.inj t2
  · rintro m ⟨id, hid⟩ hmem
    obtain ⟨t1, t2⟩ := asm_recognised_char mc sl ml port hs2 info hinfo id m hid
    have hk := knownTagOf_of_parts mc m id t1 t2
    have hx := (asm_extra_char mc sl ml port hs2 info hinfo m hmem).2
    rw [hx] at hk
    cases hk

/-- C8 witness: a two-member snapshot with distinct unique tags places both
members and nothing is lost. -/
theorem C8_placement_witness :
    (∀ m1 ∈ cexC2members, ∀ m2 ∈ cexC2members,
      knownTagOf cexC2machines m1 = knownTagOf cexC2machines m2 →
      knownTagOf cexC2machines m1 = none ∨ m1 = m2) ∧
    ((∀ m ∈ cexC2members,
      (∃ id, alookup cexC2info.recognised id = some m) ∨
        m ∈ cexC2info.extra) ∧
     (∀ m id1 id2, alookup cexC2info.recognised id1 = some m →
       alookup cexC2info.recognised id2 = some m → id1 = id2) ∧
     (∀ m, (∃ id, alookup cexC2info.recognised id = some m) →
       m ∉ cexC2info.extra)) :=
  ⟨by decide, C8_placement cexC2machines cexC2statuses cexC2members 1 ""
    cexC2info rfl (by decide)⟩

/-- C8 counterexample: two members share the known tag "0"; the later one
overwrites the recognised slot, so the earlier member ends up neither in the
recognised map nor in the extra list, refuting the original claim. -/
theorem C8_counterexample :
    newPeerGroupInfo cexC8machines [] cexC8members 1 "" = some cexC8info ∧
    wMember 1 "0" "a0:1" ∈ cexC8members ∧
    (∀ id, alookup cexC8info.recognised id ≠ some (wMember 1 "0" "a0:1")) ∧
    wMember 1 "0" "a0:1" ∉ cexC8info.extra := by
  refine ⟨rfl, by decide, ?_, by decide⟩
  intro id
  by_cases h0 : ("0" : String) = id
  · subst h0
    decide
  · rw [show alookup cexC8info.recognised id = none from by
      simp [cexC8info, alookup, h0]]
    simp

/-- C1 (amended): whenever `desiredPeerGroup` succeeds on an assembled
snapshot with a non-nil members map, the returned voting map has an odd
number of `true` entries, or the cluster is winding down (no kept voters:
the count equals the number of primaries among the removed ids, possibly 0)
or every kept voter is the primary (the count equals the kept-voter count,
possibly even).  The original "odd or equal to 1" escape is too narrow: the
count can be 0 (see the counterexample). -/
theorem C1_oddOrEscape (mc : List (String × machineTracker))
    (sl : List MemberStatus) (ml : List Member) (port : Int) (hs2 : String)
    (info : peerGroupInfo) (hmc : (keysOf mc).Nodup)
    (hinfo : newPeerGroupInfo mc sl ml port hs2 = some info)
    (ms : List (String × Member)) (v : List (String × Bool))
    (h : desiredPeerGroup info = .ok (some ms, v)) :
    countTrue v % 2 = 1 ∨
    ((classifiedChanges info).toKeepVoting = [] ∧
      countTrue v = ((classifiedChanges info).toRemoveVote.filter
        (fun id => isPrimaryMember info id)).length) ∨
    ((classifiedChanges info).toKeepVoting ≠ [] ∧
      (∀ id ∈ (classifiedChanges info).toKeepVoting,
        isPrimaryMember info id = true) ∧
      countTrue v = (classifiedChanges info).toKeepVoting.length) := by
  obtain ⟨A, hfv, hga, hr⟩ := desired_ok_decomp info (some ms, v) h
  have hmach := asm_machines mc sl ml port hs2 info hinfo
  have hmnd : (keysOf info.machines).Nodup := by rw [hmach]; exact hmc
  have hrnd : (keysOf (initNewReplicaSet info)).Nodup :=
    asm_recognised_nodup mc sl ml port hs2 info hinfo
  have hRM : ∀ id, (alookup (initNewReplicaSet info) id).isSome = true →
      (alookup info.machines id).isSome = true := by
    intro id hs3
    obtain ⟨m, hm⟩ := Option.isSome_iff_exists.mp hs3
    have h2 := (asm_recognised_char mc sl ml port hs2 info hinfo id m hm).2
    rw [hmach]
    exact h2
  have hSR : ∀ id, (alookup info.machines id).isSome = true →
      (alookup info.statuses id).isSome = true →
      (alookup (initNewReplicaSet info) id).isSome = true := by
    intro id h1 h2
    rw [hmach] at h1
    exact asm_SR mc sl ml port hs2 info hinfo id h1 h2
  by_cases hic : ((coreChanges info { emptyChanges with
      isChanged := decide (0 < info.extra.length), addrs := A }).1).isChanged = true
  · rw [if_pos hic, Prod.mk.injEq] at hr
    rw [hr.2]
    exact finalCount info (decide (0 < info.extra.length)) A hmnd hrnd hRM hSR
  · rw [if_neg hic, Prod.mk.injEq] at hr
    exact absurd hr.1 (by simp)

/-- C1 witness: a concrete succeeding snapshot whose voting map has exactly
one `true` entry (odd). -/
theorem C1_oddOrEscape_witness :
    (keysOf cexC2machines).Nodup ∧
    desiredPeerGroup cexC2info = .ok (some
      [("0", { Id := 1, Address := "a0:1", Tags := [("juju-machine-id", "0")], Votes := some 0, Priority := some 0 }),
       ("1", { Id := 2, Address := "a1:1", Tags := [("juju-machine-id", "1")], Votes := none, Priority := none })],
      [("0", false), ("1", true)]) ∧
    (countTrue [("0", false), ("1", true)] % 2 = 1 ∨
     ((classifiedChanges cexC2info).toKeepVoting = [] ∧
       countTrue [("0", false), ("1", true)] =
         ((classifiedChanges cexC2info).toRemoveVote.filter
           (fun id => isPrimaryMember cexC2info id)).length) ∨
     ((classifiedChanges cexC2info).toKeepVoting ≠ [] ∧
       (∀ id ∈ (classifiedChanges cexC2info).toKeepVoting,
         isPrimaryMember cexC2info id = true) ∧
       countTrue [("0", false), ("1", true)] =
         (classifiedChanges cexC2info).toKeepVoting.length)) :=
  ⟨by decide, rfl,
    C1_oddOrEscape cexC2machines cexC2statuses cexC2members 1 "" cexC2info
      (by decide) rfl
      [("0", { Id := 1, Address := "a0:1", Tags := [("juju-machine-id", "0")], Votes := some 0, Priority := some 0 }),
       ("1", { Id := 2, Address := "a1:1", Tags := [("juju-machine-id", "1")], Votes := none, Priority := none })]
      [("0", false), ("1", true)] rfl⟩

/-- C1 counterexample: an assembled snapshot on which `desiredPeerGroup`
succeeds with a non-nil members map whose voting map has zero `true`
entries — neither odd nor equal to 1, refuting the original claim. -/
theorem C1_counterexample :
    newPeerGroupInfo cexC1machines cexC1statuses cexC1members 1 "" =
      some cexC1info ∧
    desiredPeerGroup cexC1info = .ok (some
      [("0", { Id := 1, Address := "a0:1", Tags := [("juju-machine-id", "0")], Votes := some 0, Priority := some 0 })],
      [("0", false)]) ∧
    ¬(countTrue [("0", false)] % 2 = 1 ∨ countTrue [("0", false)] = 1) :=
  ⟨rfl, rfl, by decide⟩

theorem create_frame_fst (p : peerGroupChanges) (x : Int) (c : Bool)
    (A : List (String × String)) :
    (createNonVotingMember { p with isChanged := c, addrs := A } x).1 =
      { isChanged := c, toRemoveVote := ((createNonVotingMember p x).1).toRemoveVote, toAddVote := ((createNonVotingMember p x).1).toAddVote, toKeepVoting := ((createNonVotingMember p x).1).toKeepVoting, toKeepNonVoting := ((createNonVotingMember p x).1).toKeepNonVoting, toKeepCreateNonVotingMember := ((createNonVotingMember p x).1).toKeepCreateNonVotingMember, machineVoting := ((createNonVotingMember p x).1).machineVoting, addrs := A, members := ((createNonVotingMember p x).1).members } := by
  rw [create_frame]

set_option maxHeartbeats 4000000 in
/-- C6 (amended): a succeeding `desiredPeerGroup` returns a nil members map
exactly when no extra members were present, the adjuster kept `toAddVote`,
`toRemoveVote` and the classifier's `toKeepCreateNonVotingMember` all empty,
and no address update fired.  The original claim's "non-voting members were
created" clause is wrong: the repair loop over `toKeepNonVoting` can create
members without flagging a change (see the counterexample). -/
theorem C6_nilIffNoChange (info : peerGroupInfo) (A : List (String × String))
    (mopt : Option (List (String × Member))) (v : List (String × Bool))
    (hga : getMongoAddressesLoop info.machines [] = .ok A)
    (h : desiredPeerGroup info = .ok (mopt, v)) :
    mopt = none ↔
      (info.extra = [] ∧
       (reviewedChanges info).toAddVote = [] ∧
       (reviewedChanges info).toRemoveVote = [] ∧
       (reviewedChanges info).toKeepCreateNonVotingMember = [] ∧
       (updateAddresses { adjustedChanges info with isChanged := false, addrs := A }).isChanged = false) := by
  obtain ⟨A2, hfv, hga2, hr⟩ := desired_ok_decomp info (mopt, v) h
  rw [hga] at hga2
  obtain rfl : A = A2 := Except.ok.inj hga2
  have hmopt : mopt = none ↔
      ¬(((coreChanges info { emptyChanges with
        isChanged := decide (0 < info.extra.length), addrs := A }).1).isChanged = true) := by
    by_cases hic : ((coreChanges info { emptyChanges with
        isChanged := decide (0 < info.extra.length), addrs := A }).1).isChanged = true
    · rw [if_pos hic, Prod.mk.injEq] at hr
      constructor
      · intro hn
        exact absurd (hn ▸ hr.1) (by simp)
      · intro hcontra
        exact absurd hic hcontra
    · rw [if_neg hic, Prod.mk.injEq] at hr
      exact ⟨fun _ => hic, fun _ => hr.1⟩
  have hstage := coreStage info (decide (0 < info.extra.length)) A
  have h0 : ({ classifiedChanges info with
      isChanged := decide (0 < info.extra.length), addrs := A } : peerGroupChanges) =
      { emptyChanges with isChanged := decide (0 < info.extra.length), addrs := A, members := initNewReplicaSet info, toKeepVoting := (sortStrings (keysOf info.machines)).filter (pKeepVoting info (initNewReplicaSet info)), toAddVote := (sortStrings (keysOf info.machines)).filter (pAddVote info (initNewReplicaSet info)), toRemoveVote := (sortStrings (keysOf info.machines)).filter (pRemoveVote info (initNewReplicaSet info)), toKeepNonVoting := (sortStrings (keysOf info.machines)).filter (pKeepNonVoting info (initNewReplicaSet info)), toKeepCreateNonVotingMember := (sortStrings (keysOf info.machines)).filter (pKeepCreate info (initNewReplicaSet info)) } := by
    rw [classified_eq]
  rw [← h0, review_frame info (decide (0 < info.extra.length)) A,
    create_frame_fst (reviewPeerGroupChanges info (classifiedChanges info))
      info.maxMemberId (decide (0 < info.extra.length)) A,
    gmv_frame ((createNonVotingMember (reviewPeerGroupChanges info
      (classifiedChanges info)) info.maxMemberId).1)
      (decide (0 < info.extra.length)) A] at hstage
  obtain ⟨b2, hadj, hb2⟩ := adjust_frame (getMachinesVoting
    ((createNonVotingMember (reviewPeerGroupChanges info
      (classifiedChanges info)) info.maxMemberId).1))
    (decide (0 < info.extra.length)) A
  rw [hadj] at hstage
  have hAVeq : (getMachinesVoting ((createNonVotingMember
      (reviewPeerGroupChanges info (classifiedChanges info))
      info.maxMemberId).1)).toAddVote = (reviewedChanges info).toAddVote := by
    rw [(gmv_fields _).2.2.1,
      (create_fields (reviewPeerGroupChanges info (classifiedChanges info))
        info.maxMemberId).2.2.1]
    rfl
  have hRMeq : (getMachinesVoting ((createNonVotingMember
      (reviewPeerGroupChanges info (classifiedChanges info))
      info.maxMemberId).1)).toRemoveVote = (reviewedChanges info).toRemoveVote := by
    rw [(gmv_fields _).2.1,
      (create_fields (reviewPeerGroupChanges info (classifiedChanges info))
        info.maxMemberId).2.1]
    rfl
  have hCReq : (getMachinesVoting ((createNonVotingMember
      (reviewPeerGroupChanges info (classifiedChanges info))
      info.maxMemberId).1)).toKeepCreateNonVotingMember =
      (reviewedChanges info).toKeepCreateNonVotingMember := by
    rw [(gmv_fields _).2.2.2.2.2.1,
      (create_fields (reviewPeerGroupChanges info (classifiedChanges info))
        info.maxMemberId).2.2.2.2.2.1]
    rfl
  rw [hAVeq, hRMeq, hCReq] at hb2
  have hic9 : ((coreChanges info { emptyChanges with
      isChanged := decide (0 < info.extra.length), addrs := A }).1).isChanged =
      (b2 || (updateAddresses { adjustedChanges info with isChanged := false, addrs := A }).isChanged) := by
    rw [hstage, updateAddresses_isChanged]
    rfl
  have hextra : (decide (0 < info.extra.length) = true) ↔ info.extra ≠ [] := by
    simp [List.length_pos]
  have hfinal : ¬((b2 || (updateAddresses { adjustedChanges info with
      isChanged := false, addrs := A }).isChanged) = true) ↔
      (info.extra = [] ∧ (reviewedChanges info).toAddVote = [] ∧
       (reviewedChanges info).toRemoveVote = [] ∧
       (reviewedChanges info).toKeepCreateNonVotingMember = [] ∧
       (updateAddresses { adjustedChanges info with isChanged := false, addrs := A }).isChanged = false) := by
    rw [Bool.or_eq_true, not_or, hb2, hextra, not_or, not_or, not_or,
      not_not, not_not, not_not, not_not, Bool.not_eq_true]
    exact ⟨fun h2 => ⟨h2.1.1, h2.1.2.1, h2.1.2.2.1, h2.1.2.2.2, h2.2⟩,
      fun h2 => ⟨⟨h2.1, h2.2.1, h2.2.2.1, h2.2.2.2.1⟩, h2.2.2.2.2⟩⟩
  rw [hmopt, hic9]
  exact hfinal

/-- C6 witness: a concrete snapshot returning nil members, with the
amended right-hand side holding. -/
theorem C6_nilIffNoChange_witness :
    getMongoAddressesLoop cexC6info.machines [] = .ok [("0", "a0:1"), ("1", "")] ∧
    desiredPeerGroup cexC6info = .ok (none, [("0", true), ("1", false)]) ∧
    ((none : Option (List (String × Member))) = none ↔
      (cexC6info.extra = [] ∧
       (reviewedChanges cexC6info).toAddVote = [] ∧
       (reviewedChanges cexC6info).toRemoveVote = [] ∧
       (reviewedChanges cexC6info).toKeepCreateNonVotingMember = [] ∧
       (updateAddresses { adjustedChanges cexC6info with isChanged := false, addrs := [("0", "a0:1"), ("1", "")] }).isChanged = false)) :=
  ⟨rfl, rfl, C6_nilIffNoChange cexC6info [("0", "a0:1"), ("1", "")] none
    [("0", true), ("1", false)] rfl rfl⟩

/-- C6 counterexample: a snapshot on which `desiredPeerGroup` returns a nil
members map even though a non-voting member was created for machine "1" (it
had none before), refuting the original biconditional. -/
theorem C6_counterexample :
    desiredPeerGroup cexC6info = .ok (none, [("0", true), ("1", false)]) ∧
    alookup (createdChanges cexC6info).1.members "1" =
      some { Id := 2, Address := "", Tags := [("juju-machine-id", "1")], Votes := some 0, Priority := some 0 } ∧
    alookup (initNewReplicaSet cexC6info) "1" = none :=
  ⟨rfl, rfl, rfl⟩

end Peergrouper
